import Mathlib

/-!
# synergy: a shallow embedding of `synergy.cpp` / `synergy.h`

The firmware keeps all of its state in global variables.  Here the globals
become the fields of one record, `State`, and every C function becomes a
function on that record.

Conventions of the embedding.

* `u32` / `u16` values are naturals; every operation that can wrap in C is
  written with an explicit reduction modulo `2^32` or `2^16`.
* A C array is a map from the (u32) index to the stored value.  Cells with an
  index of `ARR_LENGTH` or more lie outside the C object.  The code reads one
  of them in `heapsort` (index `0xffffffff`, its "no child" marker) and the
  map returns what is stored there; `Reachable` lets those cells hold
  anything.  A store to such a cell lands in memory this embedding does not
  describe.  The map absorbs it, so what a function is said to leave behind
  is what the program leaves behind only for the calls whose stores are all
  inside the arrays: the section "Stores outside the arrays" says which calls
  those are, and `Reachable` closes over no other step.
* `float` / `double` values are exact rationals.  Rounding is not modelled: a
  finite value of the embedding is what the program computes up to rounding
  only, and `Reachable` lets the globals computed in floating point hold
  anything.  The two quantities that can become infinite or NaN through a
  division by zero carry that explicitly, see `Val`.
* `millis()` is a parameter `now` of the function that reads the clock.
* `facePrintf` of a result packet appends a `(face, packet)` pair to the list
  of emissions the function returns.
* `reenterBootloader()` does not return: the function stops with
  `Exit.rebooted`.
* `while` loops run on fuel; when the fuel runs out the function stops with
  `Exit.stuck` (`none` for `heapsort`).  A stuck outcome alone says nothing
  about the C program: where a loop is said not to return, that is proved for
  every amount of fuel.
-/

namespace Synergy

/-! ## Constants of `synergy.h` -/

/-- Header constant `INVALID` (0xffffffff). -/
def INVALID : Nat := 4294967295

/-- Header constant `IDLE`: silence, in milliseconds, after which a node is idle. -/
def IDLE : Nat := 5000

/-- Header constant `RADIUS` of the circle used for sampling. -/
def RADIUS : Nat := 1000

/-- Header constant `ARR_LENGTH`: length of every table array. -/
def ARR_LENGTH : Nat := 32

/-- Header constant `MAX_POINTS_GEN`: points generated per heartbeat. -/
def MAX_POINTS_GEN : Nat := 1000

/-- Header constant `DOA_THRESHOLD`, the float `100.0`. -/
def DOA_THRESHOLD : ℚ := 100

/-- Header constant `PI`: the double `atan(1.0) * 4.0`, written as the exact
rational value of that double. -/
def PI : ℚ := 884279719003555 / 281474976710656

/-- The character `'A'` stored in `ACTIVE_NODE_ARR`. -/
def CH_A : Nat := 65

/-- The character `'I'` stored in `ACTIVE_NODE_ARR`. -/
def CH_I : Nat := 73

/-! ## Machine arithmetic -/

/-- Reduction of a natural to a `u32`. -/
def u32 (n : Nat) : Nat := n % 4294967296

/-- Subtraction of two `u32` values, wrapping as in C. -/
def u32sub (a b : Nat) : Nat := (a + 4294967296 - b % 4294967296) % 4294967296

/-- Reduction of a natural to a `u16`. -/
def u16 (n : Nat) : Nat := n % 65536

/-- Subtraction of two `u16` values stored back into a `u16`. -/
def u16sub (a b : Nat) : Nat := (a + 65536 - b % 65536) % 65536

/-- Conversion of a non-negative integral `double` to `u32`.  Out of range the
conversion is undefined in C; the model saturates there. -/
def u32_of_double (n : Nat) : Nat := if n < 4294967296 then n else 4294967295

/-! ## Arrays -/

/-- A C array of words, seen as a map from index to content. -/
abbrev Arr := Nat → Nat

/-- The assignment `a[i] = v`. -/
def Arr.set (a : Arr) (i v : Nat) : Arr := fun k => if k = i then v else a k

/-! ## Floating values that may be non-finite -/

/-- A `float`/`double` that is either a finite number or one of the IEEE
special values a division by zero produces. -/
inductive Val where
  | fin (q : ℚ)
  | posInf
  | negInf
  | nan
  deriving DecidableEq

/-- The C comparison `v >= d` of a possibly non-finite value with a finite one. -/
def Val.ge (v : Val) (d : ℚ) : Bool :=
  match v with
  | Val.fin q => decide (d ≤ q)
  | Val.posInf => true
  | Val.negInf => false
  | Val.nan => false

/-! ## Packets -/

/-- Header struct `KEY`. -/
structure KEY where
  ID : Nat
  TIME : Nat
  deriving DecidableEq

/-- Header struct `D_PKT`. -/
structure D_PKT where
  doa1 : Nat
  doa2 : Nat
  deriving DecidableEq

/-- Header struct `R_PKT`. -/
structure R_PKT where
  key : KEY
  doa_ver : Nat
  round : Nat
  doa1 : Nat
  doa2 : Nat
  result : Nat
  deriving DecidableEq

/-- One `facePrintf(face, "r%Z%z\n", R_ZPrinter, pkt)`. -/
structure Emit where
  face : Nat
  pkt : R_PKT
  deriving DecidableEq

/-! ## The globals -/

/-- The global variables of `synergy.h`. -/
structure State where
  HOST_DOA : ℚ
  HOST_DOA_1 : Nat
  HOST_DOA_2 : Nat
  HOST_DOA_VER : Nat
  HOST_RESULT : Nat
  HOST_ROUND : Nat
  HOST_CURRENT_DOA : Val
  CALC_PI : Val
  RESULT_COMPILED : Nat
  ACTIVE_NODE_COUNT : Nat
  NODE_COUNT : Nat
  POINTS_GEN : Nat
  TOTAL_CIRCLE_COUNT : Nat
  RUN_TIME_START : Nat
  RUN_TIME : Nat
  CALCULATE_TX_FLAG : Bool
  TERMINAL_FACE : Nat
  ID_NODE_ARR : Arr
  ACTIVE_NODE_ARR : Arr
  TS_HOST_ARR : Arr
  SEQ_NODE_ARR : Arr
  PC_NODE_ARR : Arr
  ROUND_NODE_ARR : Arr
  RESULT_NODE_ARR : Arr
  ACTIVE_ID_NODE_ARR : Arr
  TS_NODE_ARR : Arr

/-- The values the header gives the globals at program start. -/
def initState : State where
  HOST_DOA := 0
  HOST_DOA_1 := 0
  HOST_DOA_2 := 0
  HOST_DOA_VER := 0
  HOST_RESULT := 0
  HOST_ROUND := 0
  HOST_CURRENT_DOA := Val.fin 0
  CALC_PI := Val.fin 0
  RESULT_COMPILED := 0
  ACTIVE_NODE_COUNT := 0
  NODE_COUNT := 1
  POINTS_GEN := 0
  TOTAL_CIRCLE_COUNT := 0
  RUN_TIME_START := 0
  RUN_TIME := 0
  CALCULATE_TX_FLAG := true
  TERMINAL_FACE := INVALID
  ID_NODE_ARR := fun _ => 0
  ACTIVE_NODE_ARR := fun k => if k = 0 then CH_I else 0
  TS_HOST_ARR := fun _ => 0
  SEQ_NODE_ARR := fun _ => 0
  PC_NODE_ARR := fun _ => 0
  ROUND_NODE_ARR := fun _ => 0
  RESULT_NODE_ARR := fun _ => 0
  ACTIVE_ID_NODE_ARR := fun _ => 0
  TS_NODE_ARR := fun _ => 0

/-- How a function of the firmware stopped. -/
inductive Exit where
  | returned
  | rebooted
  | stuck
  deriving DecidableEq

/-- The outcome of running a handler: how it stopped, the globals at that
moment, and the packets it printed, in order. -/
structure Run where
  exit : Exit
  state : State
  out : List Emit

/-! ## `log` (synergy.cpp 507-555) -/

/-- The search loop of `log` (lines 516-538), up to the row it stops at: the
first row, among the `n` rows starting at row `i`, whose stored id equals `ID`. -/
def log_find (ids : Arr) (ID : Nat) : Nat → Nat → Option Nat
  | 0, _ => none
  | n + 1, i => if ID = ids i then some i else log_find ids ID n (i + 1)

/-- The outcome of `log`: whether it rebooted, the value it returned, and the
globals afterwards. -/
structure LogRun where
  rebooted : Bool
  ret : Nat
  state : State

/-- The function `log(ID, TIME)`; `now` is the value of `millis()`. -/
def log (s : State) (ID TIME now : Nat) : LogRun :=
  match log_find s.ID_NODE_ARR ID s.NODE_COUNT 0 with
  | some i =>
    if TIME ≠ s.TS_NODE_ARR i then
      { rebooted := false
        ret := i
        state :=
          { s with
            PC_NODE_ARR :=
              if s.PC_NODE_ARR i < 65535 then s.PC_NODE_ARR.set i (s.PC_NODE_ARR i + 1)
              else s.PC_NODE_ARR
            TS_NODE_ARR := s.TS_NODE_ARR.set i TIME
            TS_HOST_ARR := s.TS_HOST_ARR.set i now } }
    else
      { rebooted := false, ret := INVALID, state := s }
  | none =>
    if s.NODE_COUNT ≥ ARR_LENGTH then
      { rebooted := true, ret := INVALID, state := s }
    else
      { rebooted := false
        ret := s.NODE_COUNT
        state :=
          { s with
            ID_NODE_ARR := s.ID_NODE_ARR.set s.NODE_COUNT ID
            TS_NODE_ARR := s.TS_NODE_ARR.set s.NODE_COUNT TIME
            TS_HOST_ARR := s.TS_HOST_ARR.set s.NODE_COUNT now
            PC_NODE_ARR := s.PC_NODE_ARR.set s.NODE_COUNT (u16 (s.PC_NODE_ARR s.NODE_COUNT + 1))
            NODE_COUNT := u32 (s.NODE_COUNT + 1) } }

/-! ## `heapsort` (synergy.cpp 96-146) -/

/-- The inner `while` of the first loop of `heapsort` (lines 111-116):
`while ((s > 0) && (arr[f] < elt)) { arr[s] = arr[f]; s = f; f = (s - 1) / 2; }`.
Returns the array and the final `s`. -/
def heapsort_up (elt : Nat) : Nat → Arr → Nat → Nat → Option (Arr × Nat)
  | 0, _, _, _ => none
  | fuel + 1, arr, s, f =>
    if s > 0 ∧ arr f < elt then
      heapsort_up elt fuel (arr.set s (arr f)) f (u32sub f 1 / 2)
    else
      some (arr, s)

/-- One pass of the first `for` of `heapsort`, for the index `i` (lines 107-118). -/
def heapsort_insert (arr : Arr) (i : Nat) : Option Arr :=
  match heapsort_up (arr i) 4294967296 arr i (u32sub i 1 / 2) with
  | some (arr1, s) => some (arr1.set s (arr i))
  | none => none

/-- The first `for` of `heapsort`: `n` passes starting at index `i`. -/
def heapsort_build : Nat → Nat → Arr → Option Arr
  | 0, _, arr => some arr
  | n + 1, i, arr =>
    match heapsort_insert arr i with
    | some arr1 => heapsort_build n (i + 1) arr1
    | none => none

/-- The inner `while` of the second loop of `heapsort` (lines 131-142).  `s` is
a `u32`, so its "no child" value `-1` is `0xffffffff` and the test `0 <= s`
always holds.  Returns the array and the final `f`. -/
def heapsort_down (i ivalue : Nat) : Nat → Arr → Nat → Nat → Option (Arr × Nat)
  | 0, _, _, _ => none
  | fuel + 1, arr, f, s =>
    if 0 ≤ s ∧ ivalue < arr s then
      let arr1 := arr.set f (arr s)
      let f1 := s
      let s1 := u32 (2 * f1 + 1)
      let s2 := if u32 (s1 + 1) ≤ u32sub i 1 ∧ arr1 s1 < arr1 (u32 (s1 + 1)) then u32 (s1 + 1) else s1
      let s3 := if s2 > u32sub i 1 then 4294967295 else s2
      heapsort_down i ivalue fuel arr1 f1 s3
    else
      some (arr, f)

/-- One pass of the second `for` of `heapsort`, for the index `i` (lines 123-144). -/
def heapsort_extract (arr : Arr) (i : Nat) : Option Arr :=
  let ivalue := arr i
  let arr1 := arr.set i (arr 0)
  let s0 := if 1 = i then 4294967295 else 1
  let s1 := if i > 2 ∧ arr1 2 > arr1 1 then 2 else s0
  match heapsort_down i ivalue 4294967296 arr1 0 s1 with
  | some (arr2, f) => some (arr2.set f ivalue)
  | none => none

/-- The second `for` of `heapsort`: the passes for `i`, `i - 1`, ..., `1`. -/
def heapsort_sort : Nat → Arr → Option Arr
  | 0, arr => some arr
  | i + 1, arr =>
    match heapsort_extract arr (i + 1) with
    | some arr1 => heapsort_sort i arr1
    | none => none

/-- The function `heapsort(arr, size)`.  The second loop starts at the `u32`
value `size - 1`.  With `size` 0, or above the length of the array, the loops
store outside the array, and so does the second loop once its test has
passed at the marker; `heapsort_stores` is the run with checked stores. -/
def heapsort (arr : Arr) (size : Nat) : Option Arr :=
  match heapsort_build (size - 1) 1 arr with
  | some arr1 => heapsort_sort (u32sub size 1) arr1
  | none => none

/-! ## `sequenceNodes`, `roundFlush`, `calcFlush` (synergy.cpp 153-213) -/

/-- The inner `for` of `sequenceNodes` for row `i`: `n` steps starting at `j`. -/
def sequenceNodes_row (ids act : Arr) (i : Nat) : Nat → Nat → Arr → Arr
  | 0, _, seq => seq
  | n + 1, j, seq =>
    sequenceNodes_row ids act i n (j + 1) (if ids i = act j then seq.set i (j + 1) else seq)

/-- The outer `for` of `sequenceNodes`: `n` rows starting at row `i`. -/
def sequenceNodes_rows (ids act : Arr) (cnt : Nat) : Nat → Nat → Arr → Arr
  | 0, _, seq => seq
  | n + 1, i, seq =>
    sequenceNodes_rows ids act cnt n (i + 1) (sequenceNodes_row ids act i cnt 0 seq)

/-- The function `sequenceNodes()`. -/
def sequenceNodes (s : State) : Option State :=
  match heapsort s.ACTIVE_ID_NODE_ARR s.ACTIVE_NODE_COUNT with
  | some act =>
    some { s with
      ACTIVE_ID_NODE_ARR := act
      SEQ_NODE_ARR :=
        sequenceNodes_rows s.ID_NODE_ARR act s.ACTIVE_NODE_COUNT s.NODE_COUNT 0 s.SEQ_NODE_ARR }
  | none => none

/-- The loop `for (i = 1; i < ARR_LENGTH; ++i) a[i] = 0`. -/
def clearRows (a : Arr) : Arr := fun k => if 1 ≤ k ∧ k < ARR_LENGTH then 0 else a k

/-- The function `roundFlush()`. -/
def roundFlush (s : State) : State :=
  { s with
    HOST_RESULT := 0
    POINTS_GEN := 0
    HOST_ROUND := u32 (s.HOST_ROUND + 1)
    RESULT_NODE_ARR := clearRows s.RESULT_NODE_ARR }

/-- The function `calcFlush()`; `now` is the value of `millis()`.  The status
LED is not part of the model. -/
def calcFlush (s : State) (now : Nat) : Option State :=
  sequenceNodes
    { s with
      HOST_CURRENT_DOA := Val.fin 0
      RESULT_COMPILED := 0
      RUN_TIME_START := now
      RUN_TIME := 0
      POINTS_GEN := 0
      HOST_RESULT := 0
      TOTAL_CIRCLE_COUNT := 0
      CALC_PI := Val.fin 0
      HOST_DOA := 0
      HOST_ROUND := 1
      RESULT_NODE_ARR := clearRows s.RESULT_NODE_ARR
      SEQ_NODE_ARR := clearRows s.SEQ_NODE_ARR
      ROUND_NODE_ARR := clearRows s.ROUND_NODE_ARR }

/-! ## Forwarding (synergy.cpp 310-334) -/

/-- The function `BRD_R_PKT`: print the packet on every face but the terminal. -/
def BRD_R_PKT (s : State) (pkt : R_PKT) : List Emit :=
  ((List.range 4).filter (fun i => decide (s.TERMINAL_FACE ≠ i))).map (fun i => ⟨i, pkt⟩)

/-- The function `FWD_R_PKT`: print the packet on every face but the terminal
and the face it came from. -/
def FWD_R_PKT (s : State) (pkt : R_PKT) (face : Nat) : List Emit :=
  ((List.range 4).filter (fun i => decide (s.TERMINAL_FACE ≠ i ∧ face ≠ i))).map
    (fun i => ⟨i, pkt⟩)

/-! ## `doaConvert` (synergy.cpp 344-353) -/

/-- The loop `while (decimal >= 1) decimal /= 10.0`, on fuel. -/
def doaConvert_loop : Nat → ℚ → ℚ
  | 0, d => d
  | n + 1, d => if d ≥ 1 then doaConvert_loop n (d / 10) else d

/-- The function `doaConvert(d1, d2)`.  A `u32` is below `10^10`, so ten
divisions always bring it below one. -/
def doaConvert (d1 d2 : Nat) : ℚ := (d1 : ℚ) + doaConvert_loop 10 (d2 : ℚ)

/-! ## `compileResults` and `updateResult` (synergy.cpp 360-441) -/

/-- The `for` of `compileResults` (lines 371-380): `n` rows starting at row
`i`, with `rc` the running `RESULT_COMPILED`.  `none` is the early `return`
taken at a sequenced row without a result. -/
def compileResults_loop (seq res : Arr) : Nat → Nat → Nat → Option Nat
  | 0, _, rc => some rc
  | n + 1, i, rc =>
    if seq i > 0 ∧ 0 ≠ res i then compileResults_loop seq res n (i + 1) (rc + res i)
    else if seq i > 0 ∧ 0 = res i then none
    else compileResults_loop seq res n (i + 1) rc

/-- The expression `4.0 * ((double) total / divisor)` of line 386, `divisor`
being the `u32` product converted to `double`.  With a divisor other than 0
this is the exact quotient, which the `double` of the program rounds; with
the divisor 0 the program computes the infinity or the NaN given here. -/
def estimate (total divisor : Nat) : Val :=
  if divisor = 0 then (if total = 0 then Val.nan else Val.posInf)
  else Val.fin (4 * ((total : ℚ) / (divisor : ℚ)))

/-- The expression `100.0 - (fabs(CALC_PI - PI) / PI * 100.0)` of line 391, not
rounded: the program stores it in a `float`. -/
def accuracy : Val → Val
  | Val.fin q => Val.fin (100 - |q - PI| / PI * 100)
  | Val.posInf => Val.negInf
  | Val.negInf => Val.negInf
  | Val.nan => Val.nan

/-- The function `compileResults()`; `now` is the value of `millis()`. -/
def compileResults (s : State) (now : Nat) : State :=
  if s.HOST_CURRENT_DOA.ge s.HOST_DOA then s
  else if 0 = s.ROUND_NODE_ARR 0 then s
  else
    match compileResults_loop s.SEQ_NODE_ARR s.RESULT_NODE_ARR s.NODE_COUNT 0 0 with
    | none => { s with RESULT_COMPILED := 0 }
    | some rc =>
      let total := u32_of_double (s.TOTAL_CIRCLE_COUNT + rc)
      let pi := estimate total (u32 (u32 (s.ACTIVE_NODE_COUNT * s.ROUND_NODE_ARR 0) * MAX_POINTS_GEN))
      let cur := accuracy pi
      let s1 : State :=
        { s with
          RESULT_COMPILED := rc
          TOTAL_CIRCLE_COUNT := total
          CALC_PI := pi
          HOST_CURRENT_DOA := cur }
      if cur.ge s.HOST_DOA then { s1 with RUN_TIME := u32sub now s.RUN_TIME_START }
      else roundFlush s1

/-- The function `updateResult(NODE_INDEX, RESULT, ROUND)`.  The tests
`< 0` on `u32` arguments never hold. -/
def updateResult (s : State) (NODE_INDEX RESULT ROUND : Nat) : State :=
  if NODE_INDEX > ARR_LENGTH - 1 then s
  else if 0 = RESULT then s
  else
    { s with
      RESULT_NODE_ARR := s.RESULT_NODE_ARR.set NODE_INDEX RESULT
      ROUND_NODE_ARR := s.ROUND_NODE_ARR.set NODE_INDEX ROUND }

/-! ## `calculate` (synergy.cpp 455-500) -/

/-- The function `calculate()`; `x` and `y` are the two values `random`
returns, `now` is the value of `millis()`. -/
def calculate (s : State) (x y now : Nat) : Run :=
  if s.CALCULATE_TX_FLAG = false then ⟨Exit.returned, s, []⟩
  else if s.POINTS_GEN ≥ MAX_POINTS_GEN then
    let s1 := updateResult s 0 s.HOST_RESULT s.HOST_ROUND
    let pkt : R_PKT :=
      { key := ⟨s1.ID_NODE_ARR 0, now⟩
        doa1 := s1.HOST_DOA_1
        doa2 := s1.HOST_DOA_2
        doa_ver := s1.HOST_DOA_VER
        result := s1.RESULT_NODE_ARR 0
        round := s1.ROUND_NODE_ARR 0 }
    ⟨Exit.returned,
      { s1 with POINTS_GEN := 0, HOST_RESULT := 0, CALCULATE_TX_FLAG := false },
      BRD_R_PKT s1 pkt⟩
  else
    let s1 : State := { s with POINTS_GEN := u32 (s.POINTS_GEN + 1) }
    let hypotenuse := u32_of_double (x ^ 2 + y ^ 2)
    if hypotenuse ≤ RADIUS ^ 2 then
      ⟨Exit.returned, { s1 with HOST_RESULT := u32 (s1.HOST_RESULT + 1) }, []⟩
    else ⟨Exit.returned, s1, []⟩

/-! ## `r_handler` and `d_handler` (synergy.cpp 563-677) -/

/-- The function `r_handler(packet)`.  `scan` is what `packetScanf` with
`R_ZScanner` made of the packet (`none` when it does not parse), `face` is
`packetSource(packet)` and `now` the value of `millis()`. -/
def r_handler (s : State) (scan : Option R_PKT) (face now : Nat) : Run :=
  match scan with
  | none => ⟨Exit.returned, s, []⟩
  | some p =>
    let l := log s p.key.ID p.key.TIME now
    let s1 := l.state
    let NODE_INDEX := l.ret
    if l.rebooted then ⟨Exit.rebooted, s1, []⟩
    else if INVALID = NODE_INDEX then ⟨Exit.returned, s1, []⟩
    else if s1.PC_NODE_ARR NODE_INDEX > p.key.TIME / 1000 then
      ⟨Exit.returned,
        { s1 with
          PC_NODE_ARR := s1.PC_NODE_ARR.set NODE_INDEX (u16sub (s1.PC_NODE_ARR NODE_INDEX) 2) },
        []⟩
    else if p.doa_ver < s1.HOST_DOA_VER then ⟨Exit.returned, s1, []⟩
    else if 4294967295 = p.doa_ver then ⟨Exit.returned, s1, []⟩
    else
      let out := FWD_R_PKT s1 p face
      if 0 = p.round then ⟨Exit.returned, s1, out⟩
      else if p.doa_ver > s1.HOST_DOA_VER then
        match calcFlush s1 now with
        | none => ⟨Exit.stuck, s1, out⟩
        | some s2 =>
          if u32sub p.round (s2.ROUND_NODE_ARR 0) > 1 then ⟨Exit.returned, s2, out⟩
          else
            let s3 : State :=
              { s2 with
                HOST_DOA_1 := p.doa1
                HOST_DOA_2 := p.doa2
                HOST_DOA := doaConvert p.doa1 p.doa2
                HOST_DOA_VER := p.doa_ver
                RUN_TIME_START := now }
            ⟨Exit.returned, updateResult s3 NODE_INDEX p.result p.round, out⟩
      else ⟨Exit.returned, updateResult s1 NODE_INDEX p.result p.round, out⟩

/-- The function `d_handler(packet)`.  `scan` is what `packetScanf` with
`D_ZScanner` made of the packet, `face` is `packetSource(packet)` and `now`
the value of `millis()`. -/
def d_handler (s : State) (scan : Option D_PKT) (face now : Nat) : Run :=
  match scan with
  | none => ⟨Exit.returned, s, []⟩
  | some p =>
    match calcFlush s now with
    | none => ⟨Exit.stuck, s, []⟩
    | some s1 =>
      let s2 : State :=
        { s1 with
          HOST_DOA_1 := p.doa1
          HOST_DOA_2 := p.doa2
          HOST_DOA_VER := u32 (s1.HOST_DOA_VER + 1)
          HOST_DOA := doaConvert p.doa1 p.doa2 }
      if s2.HOST_DOA < 0 then ⟨Exit.returned, s2, []⟩
      else if s2.HOST_DOA > DOA_THRESHOLD then ⟨Exit.returned, s2, []⟩
      else
        let s3 : State := { s2 with HOST_DOA_VER := u32 (s2.HOST_DOA_VER + 1) }
        let pkt : R_PKT :=
          { key := ⟨s3.ID_NODE_ARR 0, now⟩
            doa_ver := s3.HOST_DOA_VER
            doa1 := s3.HOST_DOA_1
            doa2 := s3.HOST_DOA_2
            round := s3.HOST_ROUND
            result := s3.HOST_RESULT }
        ⟨Exit.returned, { s3 with RUN_TIME_START := now }, FWD_R_PKT s3 pkt face⟩

/-- The function `t_handler(packet)`: `face` is `packetSource(packet)`. -/
def t_handler (s : State) (face : Nat) : State := { s with TERMINAL_FACE := face }

/-! ## `heartBeat` and `setup` (synergy.cpp 830-953) -/

/-- The body of the `for` of `heartBeat` for row `i` (lines 861-885).  The store
of line 869 is at the index `ACTIVE_NODE_COUNT`, which the count of lines 875
and 881 can take past the end of the array and through `0xffffffff`;
`heartBeat_row_inside` says whether it is inside. -/
def heartBeat_row (s : State) (i : Nat) : State :=
  let ACTIVE_STATE := s.ACTIVE_NODE_ARR i
  let flag := if u32sub (s.TS_HOST_ARR 0) (s.TS_HOST_ARR i) < IDLE then CH_A else CH_I
  let s1 : State := { s with ACTIVE_NODE_ARR := s.ACTIVE_NODE_ARR.set i flag }
  let s2 : State :=
    if CH_I = flag then
      { s1 with
        PC_NODE_ARR := s1.PC_NODE_ARR.set i 0
        RESULT_NODE_ARR := s1.RESULT_NODE_ARR.set i 0 }
    else if CH_A = flag then
      { s1 with
        ACTIVE_ID_NODE_ARR := s1.ACTIVE_ID_NODE_ARR.set s1.ACTIVE_NODE_COUNT (s1.ID_NODE_ARR i)
        ACTIVE_NODE_COUNT := u32 (s1.ACTIVE_NODE_COUNT + 1) }
    else s1
  if ACTIVE_STATE ≠ flag then
    if CH_A = flag then { s2 with ACTIVE_NODE_COUNT := u32 (s2.ACTIVE_NODE_COUNT + 1) }
    else { s2 with ACTIVE_NODE_COUNT := u32sub s2.ACTIVE_NODE_COUNT 1 }
  else s2

/-- The `for` of `heartBeat`: `n` rows starting at row `i`. -/
def heartBeat_rows : Nat → Nat → State → State
  | 0, _, s => s
  | n + 1, i, s => heartBeat_rows n (i + 1) (heartBeat_row s i)

/-- The function `heartBeat(when)`; `now` is the value of `millis()`.  The
alarm that schedules the next tick is not part of the model. -/
def heartBeat (s : State) (now : Nat) : Run :=
  if s.PC_NODE_ARR 0 > now / 1000 then
    ⟨Exit.returned, { s with PC_NODE_ARR := s.PC_NODE_ARR.set 0 (u16sub (s.PC_NODE_ARR 0) 2) }, []⟩
  else
    let pkt : R_PKT :=
      { key := ⟨s.ID_NODE_ARR 0, now⟩
        doa1 := s.HOST_DOA_1
        doa2 := s.HOST_DOA_2
        doa_ver := s.HOST_DOA_VER
        result := s.RESULT_NODE_ARR 0
        round := s.ROUND_NODE_ARR 0 }
    let s1 : State :=
      { s with
        PC_NODE_ARR := s.PC_NODE_ARR.set 0 (u16 (s.PC_NODE_ARR 0 + 1))
        TS_NODE_ARR := s.TS_NODE_ARR.set 0 now
        TS_HOST_ARR := s.TS_HOST_ARR.set 0 now
        ACTIVE_ID_NODE_ARR := s.ACTIVE_ID_NODE_ARR.set 0 (s.ID_NODE_ARR 0)
        ACTIVE_NODE_COUNT := 1 }
    let s2 := heartBeat_rows (s1.NODE_COUNT - 1) 1 s1
    let s3 := compileResults s2 now
    ⟨Exit.returned, { s3 with CALCULATE_TX_FLAG := true }, BRD_R_PKT s pkt⟩

/-- The function `setup()`; `boardId` is the value of `getBootBlockBoardId()`. -/
def setup (s : State) (boardId : Nat) : State :=
  { s with
    ID_NODE_ARR := s.ID_NODE_ARR.set 0 boardId
    ACTIVE_NODE_ARR := s.ACTIVE_NODE_ARR.set 0 CH_A
    SEQ_NODE_ARR := s.SEQ_NODE_ARR.set 0 1
    HOST_ROUND := 0 }

/-! ## Events -/

/-- What the main loop can service: an inbound `r`, `d` or `t` packet, a
heartbeat alarm, one turn of `loop()`. -/
inductive Event where
  | result (scan : Option R_PKT) (face now : Nat)
  | distribute (scan : Option D_PKT) (face now : Nat)
  | table (face : Nat)
  | beat (now : Nat)
  | sample (x y now : Nat)

/-- Servicing one event. -/
def step (s : State) : Event → Run
  | Event.result scan face now => r_handler s scan face now
  | Event.distribute scan face now => d_handler s scan face now
  | Event.table face => ⟨Exit.returned, t_handler s face, []⟩
  | Event.beat now => heartBeat s now
  | Event.sample x y now => calculate s x y now

/-- Servicing a list of events in order; the run ends at the first event
that does not return. -/
def runEvents (s : State) : List Event → Run
  | [] => ⟨Exit.returned, s, []⟩
  | e :: es =>
    let r := step s e
    if r.exit = Exit.returned then
      let r2 := runEvents r.state es
      ⟨r2.exit, r2.state, r.out ++ r2.out⟩
    else r

/-! ## Concrete states used to exercise the theorems -/

/-- The globals after `setup()` on the board with id 1. -/
def bootState : State := setup initState 1

/-- A table with all 32 rows in use, row `k` holding the id `k + 1`. -/
def fullTable : State :=
  { bootState with
    NODE_COUNT := 32
    ID_NODE_ARR := fun k => k + 1 }

/-- The globals after the first heartbeat and a Distribute `d95.0`. -/
def staleState : State :=
  (runEvents bootState [Event.beat 1000, Event.distribute (some ⟨95, 0⟩) 0 1500]).state

/-- The number of rows of the table flagged `'A'`. -/
def activeRowCount (s : State) : Nat :=
  ((List.range s.NODE_COUNT).filter (fun i => decide (s.ACTIVE_NODE_ARR i = CH_A))).length

/-- Board 2 is heard for the first time, then the heartbeat ticks. -/
def joinTrace : List Event :=
  [Event.result (some ⟨⟨2, 1000⟩, 0, 0, 0, 0, 0⟩) 1 500, Event.beat 1000]

/-- Boards 2 and 3 are heard, six heartbeats pass during which only board 3 is
heard again, so that board 2 is marked inactive at the sixth tick. -/
def leaveTrace : List Event :=
  [Event.result (some ⟨⟨2, 1000⟩, 0, 0, 0, 0, 0⟩) 1 100,
   Event.result (some ⟨⟨3, 1000⟩, 0, 0, 0, 0, 0⟩) 2 200,
   Event.beat 1000, Event.beat 2000, Event.beat 3000, Event.beat 4000, Event.beat 5000,
   Event.result (some ⟨⟨3, 6000⟩, 0, 0, 0, 0, 0⟩) 2 5900,
   Event.beat 6000]

/-- The globals after the first heartbeat of a board alone on the grid. -/
def firstBeat : State := (runEvents bootState [Event.beat 1000]).state

/-- A board alone on the grid: first heartbeat, the Distribute `d99.0`, a
thousand trials of which 750 fall inside the circle, and the turn of `loop()`
that publishes the count. -/
def soloTrace : List Event :=
  [Event.beat 1000, Event.distribute (some ⟨99, 0⟩) 0 1500]
    ++ List.replicate 750 (Event.sample 0 0 1600)
    ++ List.replicate 250 (Event.sample 1000 1000 1600)
    ++ [Event.sample 0 0 1700]

/-- The globals after `soloTrace`. -/
def soloRound : State := (runEvents bootState soloTrace).state

/-- Two boards: board 2 is heard, two heartbeats pass, the Distribute `d99.0`
arrives, the local sampler produces and publishes 750, and board 2 reports 800
for round 1 of version 2. -/
def duoTrace : List Event :=
  [Event.result (some ⟨⟨2, 1000⟩, 0, 0, 0, 0, 0⟩) 1 500, Event.beat 1000, Event.beat 2000,
   Event.distribute (some ⟨99, 0⟩) 0 2500]
    ++ List.replicate 750 (Event.sample 0 0 2600)
    ++ List.replicate 250 (Event.sample 1000 1000 2600)
    ++ [Event.sample 0 0 2700,
        Event.result (some ⟨⟨2, 3000⟩, 2, 1, 99, 0, 800⟩) 1 2900]

/-- The globals after `duoTrace`. -/
def duoRound : State := (runEvents bootState duoTrace).state

/-- The board of `soloTrace` a round later: the heartbeat at 2000 compiles
round 1 and starts round 2, the sampler produces another 750 and publishes
them for round 2. -/
def soloSecondTrace : List Event :=
  soloTrace ++ [Event.beat 2000]
    ++ List.replicate 750 (Event.sample 0 0 2100)
    ++ List.replicate 250 (Event.sample 1000 1000 2100)
    ++ [Event.sample 0 0 2200]

/-- The globals after `soloSecondTrace`. -/
def soloSecondRound : State := (runEvents bootState soloSecondTrace).state

/-- The sum of `result` over the sequenced rows among the `n` rows starting at
row `i`: the quantity the aggregation step is said to add to the cumulative
count. -/
def sequencedSum (seq res : Arr) : Nat → Nat → Nat
  | 0, _ => 0
  | n + 1, i => (if seq i > 0 then res i else 0) + sequencedSum seq res n (i + 1)

/-- The board of `soloRound` after a Result that carries the board's own id and
the round number 4294968 has been admitted: row 0 now holds that round. -/
def wideRound : State :=
  (runEvents soloRound [Event.result (some ⟨⟨1, 9000⟩, 2, 4294968, 99, 0, 750⟩) 1 1800]).state

/-- The globals after a first Result of board 2, heard at local time 500. -/
def heardState : State :=
  (runEvents bootState [Event.result (some ⟨⟨2, 1000⟩, 0, 0, 0, 0, 0⟩) 1 500]).state

/-- The globals after a first Result of board 2 and two Results that carry the
board's own id, each of which raises the ping count of row 0. -/
def chattyState : State :=
  (runEvents bootState
    [Event.result (some ⟨⟨2, 1000⟩, 0, 0, 0, 0, 0⟩) 1 500,
     Event.result (some ⟨⟨1, 5000⟩, 0, 0, 0, 0, 0⟩) 2 600,
     Event.result (some ⟨⟨1, 6000⟩, 0, 0, 0, 0, 0⟩) 2 700]).state

/-- The globals after the first heartbeat and a Result of board 2 that carries
the version `0xfffffffe` and round 1, which the board adopts. -/
def lastVersion : State :=
  (runEvents firstBeat
    [Event.result (some ⟨⟨2, 2000⟩, 4294967294, 1, 95, 0, 700⟩) 1 1500]).state

/-- The second report of board 2, one millisecond of its own clock after the
first. -/
def secondReport : R_PKT := ⟨⟨2, 1001⟩, 0, 0, 0, 0, 0⟩

/-! ## The Result packet on the wire (synergy.cpp 251-302) -/

/-- What the library does with one field of a packet: `facePrintf` turns the
argument of a `%t` or of a `%d` directive into the text of the field, and
`packetScanf` reads the text of a field back (`none` when the text does not
match the directive).  `W` is the type of the text of one field. -/
structure FieldCodec (W : Type) where
  print_t : Nat → W
  print_d : Nat → W
  scan_t : W → Option Nat
  scan_d : W → Option Nat

/-- The function `R_ZPrinter`: the fields that
`facePrintf(face, "%t,%d,%d,%d,%d.%d,%d", ...)` prints, in the order of its
arguments. -/
def R_ZPrinter {W : Type} (c : FieldCodec W) (PKT_T : R_PKT) : List W :=
  [c.print_t PKT_T.key.ID, c.print_d PKT_T.key.TIME, c.print_d PKT_T.doa_ver,
   c.print_d PKT_T.round, c.print_d PKT_T.doa1, c.print_d PKT_T.doa2,
   c.print_d PKT_T.result]

/-- The function `R_ZScanner`, called with a packet to fill: `packetScanf` with
the same format reads the seven fields into `ID`, `TIME`, `DOA_VER`,
`RSLT_VER`, `DOA1`, `DOA2`, `RSLT`, and the packet gets them, `round` being
`RSLT_VER`.  `none` is `return false`: a field does not scan, or there are not
exactly seven fields. -/
def R_ZScanner {W : Type} (c : FieldCodec W) (packet : List W) : Option R_PKT :=
  match packet with
  | [w1, w2, w3, w4, w5, w6, w7] =>
    match c.scan_t w1, c.scan_d w2, c.scan_d w3, c.scan_d w4, c.scan_d w5, c.scan_d w6,
      c.scan_d w7 with
    | some ID, some TIME, some DOA_VER, some RSLT_VER, some DOA1, some DOA2, some RSLT =>
      some
        { key := ⟨ID, TIME⟩
          doa_ver := DOA_VER
          round := RSLT_VER
          doa1 := DOA1
          doa2 := DOA2
          result := RSLT }
    | _, _, _, _, _, _, _ => none
  | _ => none

/-- A codec to exercise the round trip with: a field is the list of the digits
of its value, in base 36 for `%t` and in base 10 for `%d`, and a list scans
when all its entries are digits of the base. -/
def digitCodec : FieldCodec (List Nat) where
  print_t := fun n => Nat.digits 36 n
  print_d := fun n => Nat.digits 10 n
  scan_t := fun w => if w.all (fun d => decide (d < 36)) then some (Nat.ofDigits 36 w) else none
  scan_d := fun w => if w.all (fun d => decide (d < 10)) then some (Nat.ofDigits 10 w) else none

/-! ## `heapsort` with every array access checked against the size -/

/-- How a run with checked accesses ends: it returns, it reads or writes the
cell `idx` that is not in `[0, size)`, or it runs out of fuel. -/
inductive Checked (α : Type) where
  | done (a : α)
  | fault (idx : Nat)
  | stuck

/-- The loop `heapsort_up` with checked accesses: the test reads `arr[f]` when
`s > 0`, the body reads `arr[f]` and writes `arr[s]`. -/
def heapsort_up_checked (size elt : Nat) : Nat → Arr → Nat → Nat → Checked (Arr × Nat)
  | 0, _, _, _ => Checked.stuck
  | fuel + 1, arr, s, f =>
    if s > 0 then
      if size ≤ f then Checked.fault f
      else if arr f < elt then
        if size ≤ s then Checked.fault s
        else heapsort_up_checked size elt fuel (arr.set s (arr f)) f (u32sub f 1 / 2)
      else Checked.done (arr, s)
    else Checked.done (arr, s)

/-- The pass `heapsort_insert` with checked accesses: it reads `arr[i]`, runs
the loop and writes `arr[s]`. -/
def heapsort_insert_checked (size : Nat) (arr : Arr) (i : Nat) : Checked Arr :=
  if size ≤ i then Checked.fault i
  else
    match heapsort_up_checked size (arr i) 4294967296 arr i (u32sub i 1 / 2) with
    | Checked.done (arr1, s) =>
      if size ≤ s then Checked.fault s else Checked.done (arr1.set s (arr i))
    | Checked.fault idx => Checked.fault idx
    | Checked.stuck => Checked.stuck

/-- The first `for` of `heapsort` with checked accesses. -/
def heapsort_build_checked (size : Nat) : Nat → Nat → Arr → Checked Arr
  | 0, _, arr => Checked.done arr
  | n + 1, i, arr =>
    match heapsort_insert_checked size arr i with
    | Checked.done arr1 => heapsort_build_checked size n (i + 1) arr1
    | Checked.fault idx => Checked.fault idx
    | Checked.stuck => Checked.stuck

/-- The loop `heapsort_down` with checked accesses: the test reads `arr[s]`
(`0 <= s` always holds), the body reads `arr[s]` and writes `arr[f]`, and the
test of its first `if` reads `arr[s]` and `arr[s + 1]` when
`s + 1 <= i - 1`. -/
def heapsort_down_checked (size i ivalue : Nat) :
    Nat → Arr → Nat → Nat → Checked (Arr × Nat)
  | 0, _, _, _ => Checked.stuck
  | fuel + 1, arr, f, s =>
    if 0 ≤ s then
      if size ≤ s then Checked.fault s
      else if ivalue < arr s then
        if size ≤ f then Checked.fault f
        else
          let arr1 := arr.set f (arr s)
          let f1 := s
          let s1 := u32 (2 * f1 + 1)
          if u32 (s1 + 1) ≤ u32sub i 1 then
            if size ≤ s1 then Checked.fault s1
            else if size ≤ u32 (s1 + 1) then Checked.fault (u32 (s1 + 1))
            else
              let s2 := if arr1 s1 < arr1 (u32 (s1 + 1)) then u32 (s1 + 1) else s1
              let s3 := if s2 > u32sub i 1 then 4294967295 else s2
              heapsort_down_checked size i ivalue fuel arr1 f1 s3
          else
            let s3 := if s1 > u32sub i 1 then 4294967295 else s1
            heapsort_down_checked size i ivalue fuel arr1 f1 s3
      else Checked.done (arr, f)
    else Checked.done (arr, f)

/-- The pass `heapsort_extract` with checked accesses: it reads `arr[i]` and
`arr[0]`, writes `arr[i]`, reads `arr[2]` and `arr[1]` when `i > 2`, runs the
loop and writes `arr[f]`. -/
def heapsort_extract_checked (size : Nat) (arr : Arr) (i : Nat) : Checked Arr :=
  if size ≤ i then Checked.fault i
  else if size ≤ 0 then Checked.fault 0
  else
    let ivalue := arr i
    let arr1 := arr.set i (arr 0)
    let s0 := if 1 = i then 4294967295 else 1
    if i > 2 ∧ size ≤ 2 then Checked.fault 2
    else if i > 2 ∧ size ≤ 1 then Checked.fault 1
    else
      let s1 := if i > 2 ∧ arr1 2 > arr1 1 then 2 else s0
      match heapsort_down_checked size i ivalue 4294967296 arr1 0 s1 with
      | Checked.done (arr2, f) =>
        if size ≤ f then Checked.fault f else Checked.done (arr2.set f ivalue)
      | Checked.fault idx => Checked.fault idx
      | Checked.stuck => Checked.stuck

/-- The second `for` of `heapsort` with checked accesses. -/
def heapsort_sort_checked (size : Nat) : Nat → Arr → Checked Arr
  | 0, arr => Checked.done arr
  | i + 1, arr =>
    match heapsort_extract_checked size arr (i + 1) with
    | Checked.done arr1 => heapsort_sort_checked size i arr1
    | Checked.fault idx => Checked.fault idx
    | Checked.stuck => Checked.stuck

/-- The function `heapsort(arr, size)` with checked accesses. -/
def heapsort_checked (arr : Arr) (size : Nat) : Checked Arr :=
  match heapsort_build_checked size (size - 1) 1 arr with
  | Checked.done arr1 => heapsort_sort_checked size (u32sub size 1) arr1
  | Checked.fault idx => Checked.fault idx
  | Checked.stuck => Checked.stuck

/-- Two ids to sort, 1 and 2, every other cell zero. -/
def twoIds : Arr := (Arr.set (Arr.set (fun _ => 0) 0 1) 1 2)

/-- The ids of `twoIds` with the word in front of the array, the cell
`arr[0xffffffff]` of the `u32` index, holding 5. -/
def twoIdsAfterFive : Arr := twoIds.set 4294967295 5

/-- Five boards are heard (ids 2, 3, 9, 4, 5, in that order), five heartbeats
pass, then only boards 9, 4 and 5 are heard again, so that the sixth tick
marks boards 2 and 3 inactive one after the other. -/
def crowdTrace : List Event :=
  [Event.result (some ⟨⟨2, 1000⟩, 0, 0, 0, 0, 0⟩) 1 100,
   Event.result (some ⟨⟨3, 1000⟩, 0, 0, 0, 0, 0⟩) 1 200,
   Event.result (some ⟨⟨9, 1000⟩, 0, 0, 0, 0, 0⟩) 2 300,
   Event.result (some ⟨⟨4, 1000⟩, 0, 0, 0, 0, 0⟩) 2 400,
   Event.result (some ⟨⟨5, 1000⟩, 0, 0, 0, 0, 0⟩) 3 450,
   Event.beat 1000, Event.beat 2000, Event.beat 3000, Event.beat 4000, Event.beat 5000,
   Event.result (some ⟨⟨9, 6000⟩, 0, 0, 0, 0, 0⟩) 2 5700,
   Event.result (some ⟨⟨4, 6000⟩, 0, 0, 0, 0, 0⟩) 2 5800,
   Event.result (some ⟨⟨5, 6000⟩, 0, 0, 0, 0, 0⟩) 3 5900,
   Event.beat 6000]

/-- The globals after `crowdTrace`. -/
def crowdedState : State := (runEvents bootState crowdTrace).state

/-! ## Stores outside the arrays

Every array of `synergy.h` has `ARR_LENGTH` cells.  A store at an index of
`ARR_LENGTH` or more lands in memory the array does not own, and what the
program does after it is not described by this embedding.  Two places of the
source can store there: `heapsort`, and line 869 of `heartBeat`, which stores
at the index `ACTIVE_NODE_COUNT`.  The definitions of this section say, for a
given call, whether all its stores are inside. -/

/-- Whether a checked run returned. -/
def Checked.isDone {α : Type} : Checked α → Bool
  | Checked.done _ => true
  | Checked.fault _ => false
  | Checked.stuck => false

/-- The loop `heapsort_up` with checked stores: the body writes `arr[s]`; `len`
is the length of the array.  Reads are not checked. -/
def heapsort_up_stores (len elt : Nat) : Nat → Arr → Nat → Nat → Checked (Arr × Nat)
  | 0, _, _, _ => Checked.stuck
  | fuel + 1, arr, s, f =>
    if s > 0 ∧ arr f < elt then
      if len ≤ s then Checked.fault s
      else heapsort_up_stores len elt fuel (arr.set s (arr f)) f (u32sub f 1 / 2)
    else
      Checked.done (arr, s)

/-- The pass `heapsort_insert` with checked stores: after the loop it writes
`arr[s]`. -/
def heapsort_insert_stores (len : Nat) (arr : Arr) (i : Nat) : Checked Arr :=
  match heapsort_up_stores len (arr i) 4294967296 arr i (u32sub i 1 / 2) with
  | Checked.done (arr1, s) =>
    if len ≤ s then Checked.fault s else Checked.done (arr1.set s (arr i))
  | Checked.fault idx => Checked.fault idx
  | Checked.stuck => Checked.stuck

/-- The first `for` of `heapsort` with checked stores. -/
def heapsort_build_stores (len : Nat) : Nat → Nat → Arr → Checked Arr
  | 0, _, arr => Checked.done arr
  | n + 1, i, arr =>
    match heapsort_insert_stores len arr i with
    | Checked.done arr1 => heapsort_build_stores len n (i + 1) arr1
    | Checked.fault idx => Checked.fault idx
    | Checked.stuck => Checked.stuck

/-- The loop `heapsort_down` with checked stores: the body writes `arr[f]`. -/
def heapsort_down_stores (len i ivalue : Nat) :
    Nat → Arr → Nat → Nat → Checked (Arr × Nat)
  | 0, _, _, _ => Checked.stuck
  | fuel + 1, arr, f, s =>
    if 0 ≤ s ∧ ivalue < arr s then
      if len ≤ f then Checked.fault f
      else
        let arr1 := arr.set f (arr s)
        let f1 := s
        let s1 := u32 (2 * f1 + 1)
        let s2 := if u32 (s1 + 1) ≤ u32sub i 1 ∧ arr1 s1 < arr1 (u32 (s1 + 1)) then u32 (s1 + 1) else s1
        let s3 := if s2 > u32sub i 1 then 4294967295 else s2
        heapsort_down_stores len i ivalue fuel arr1 f1 s3
    else
      Checked.done (arr, f)

/-- The pass `heapsort_extract` with checked stores: it writes `arr[i]` before
the loop and `arr[f]` after it. -/
def heapsort_extract_stores (len : Nat) (arr : Arr) (i : Nat) : Checked Arr :=
  if len ≤ i then Checked.fault i
  else
    let ivalue := arr i
    let arr1 := arr.set i (arr 0)
    let s0 := if 1 = i then 4294967295 else 1
    let s1 := if i > 2 ∧ arr1 2 > arr1 1 then 2 else s0
    match heapsort_down_stores len i ivalue 4294967296 arr1 0 s1 with
    | Checked.done (arr2, f) =>
      if len ≤ f then Checked.fault f else Checked.done (arr2.set f ivalue)
    | Checked.fault idx => Checked.fault idx
    | Checked.stuck => Checked.stuck

/-- The second `for` of `heapsort` with checked stores. -/
def heapsort_sort_stores (len : Nat) : Nat → Arr → Checked Arr
  | 0, arr => Checked.done arr
  | i + 1, arr =>
    match heapsort_extract_stores len arr (i + 1) with
    | Checked.done arr1 => heapsort_sort_stores len i arr1
    | Checked.fault idx => Checked.fault idx
    | Checked.stuck => Checked.stuck

/-- The function `heapsort(arr, size)` on an array of `len` cells, with checked
stores: `done` when it returns and every store was at an index below `len`. -/
def heapsort_stores (len : Nat) (arr : Arr) (size : Nat) : Checked Arr :=
  match heapsort_build_stores len (size - 1) 1 arr with
  | Checked.done arr1 => heapsort_sort_stores len (u32sub size 1) arr1
  | Checked.fault idx => Checked.fault idx
  | Checked.stuck => Checked.stuck

/-- Whether `calcFlush` returns with all its stores inside the arrays: its own
loop writes the rows 1..31, `sequenceNodes` writes `SEQ_NODE_ARR[i]` for
`i < NODE_COUNT`, and `heapsort` sorts `ACTIVE_ID_NODE_ARR`. -/
def calcFlush_inside (s : State) : Bool :=
  decide (s.NODE_COUNT ≤ ARR_LENGTH) &&
    (heapsort_stores ARR_LENGTH s.ACTIVE_ID_NODE_ARR s.ACTIVE_NODE_COUNT).isDone

/-- Whether `r_handler` stores inside the arrays: `log` reads and writes rows
up to `NODE_COUNT`, and on the path of a newer version `calcFlush` runs. -/
def r_handler_inside (s : State) (scan : Option R_PKT) (now : Nat) : Bool :=
  match scan with
  | none => true
  | some p =>
    let l := log s p.key.ID p.key.TIME now
    let s1 := l.state
    let NODE_INDEX := l.ret
    decide (s.NODE_COUNT ≤ ARR_LENGTH) &&
      (if l.rebooted then true
      else if INVALID = NODE_INDEX then true
      else if s1.PC_NODE_ARR NODE_INDEX > p.key.TIME / 1000 then true
      else if p.doa_ver < s1.HOST_DOA_VER then true
      else if 4294967295 = p.doa_ver then true
      else if 0 = p.round then true
      else if p.doa_ver > s1.HOST_DOA_VER then calcFlush_inside s1
      else true)

/-- Whether `d_handler` stores inside the arrays: a packet that parses runs
`calcFlush`. -/
def d_handler_inside (s : State) (scan : Option D_PKT) : Bool :=
  match scan with
  | none => true
  | some _ => calcFlush_inside s

/-- Whether the body of the `for` of `heartBeat` stores inside the arrays for
row `i`: the row index `i`, and at line 869, for a row found active, the index
`ACTIVE_NODE_COUNT`. -/
def heartBeat_row_inside (s : State) (i : Nat) : Bool :=
  let flag := if u32sub (s.TS_HOST_ARR 0) (s.TS_HOST_ARR i) < IDLE then CH_A else CH_I
  decide (i < ARR_LENGTH) &&
    (if CH_I = flag then true
    else if CH_A = flag then decide (s.ACTIVE_NODE_COUNT < ARR_LENGTH)
    else true)

/-- Whether the `for` of `heartBeat` stores inside the arrays: `n` rows
starting at row `i`. -/
def heartBeat_rows_inside : Nat → Nat → State → Bool
  | 0, _, _ => true
  | n + 1, i, s => heartBeat_row_inside s i && heartBeat_rows_inside n (i + 1) (heartBeat_row s i)

/-- Whether `heartBeat` stores inside the arrays; the tick the spam
self-safeguard skips writes `PC_NODE_ARR[0]` only. -/
def heartBeat_inside (s : State) (now : Nat) : Bool :=
  if s.PC_NODE_ARR 0 > now / 1000 then true
  else
    let s1 : State :=
      { s with
        PC_NODE_ARR := s.PC_NODE_ARR.set 0 (u16 (s.PC_NODE_ARR 0 + 1))
        TS_NODE_ARR := s.TS_NODE_ARR.set 0 now
        TS_HOST_ARR := s.TS_HOST_ARR.set 0 now
        ACTIVE_ID_NODE_ARR := s.ACTIVE_ID_NODE_ARR.set 0 (s.ID_NODE_ARR 0)
        ACTIVE_NODE_COUNT := 1 }
    heartBeat_rows_inside (s1.NODE_COUNT - 1) 1 s1

/-- Whether servicing an event stores inside the arrays.  A table request and
a turn of the sampler write no cell but `RESULT_NODE_ARR[0]` and
`ROUND_NODE_ARR[0]`. -/
def step_inside (s : State) : Event → Bool
  | Event.result scan _ now => r_handler_inside s scan now
  | Event.distribute scan _ _ => d_handler_inside s scan
  | Event.table _ => true
  | Event.beat now => heartBeat_inside s now
  | Event.sample _ _ _ => true

/-- Whether a run of events returns from every event with all stores inside
the arrays. -/
def run_inside (s : State) : List Event → Bool
  | [] => true
  | e :: es =>
    decide ((step s e).exit = Exit.returned) && step_inside s e &&
      run_inside (step s e).state es

/-! ## Reachable states and the table invariant -/

/-- The board of `soloRound` after a Result that carries the board's own id and
the round number `2^29` has been admitted: row 0 now holds that round. -/
def zeroDivisorRound : State :=
  (runEvents soloRound
    [Event.result (some ⟨⟨1, 9000⟩, 2, 536870912, 99, 0, 750⟩) 1 1800]).state

/-! # Theorems -/

/-! ## Lemmas on arrays and on the search loop of `log` -/

/-- Reading the cell just written. -/
theorem Arr.set_same (a : Arr) (i v : Nat) : (a.set i v) i = v := by
  simp [Arr.set]

/-- Reading another cell than the one just written. -/
theorem Arr.set_other (a : Arr) (i v k : Nat) (h : k ≠ i) : (a.set i v) k = a k := by
  simp [Arr.set, h]

/-- When the search loop of `log` finds nothing, no row of its range matches. -/
theorem log_find_none (ids : Arr) (ID : Nat) :
    ∀ (n i : Nat), log_find ids ID n i = none → ∀ k, i ≤ k → k < i + n → ID ≠ ids k := by
  intro n
  induction n with
  | zero => intro i _ k h1 h2; omega
  | succ n ih =>
    intro i h k h1 h2
    unfold log_find at h
    by_cases hid : ID = ids i
    · simp [hid] at h
    · simp only [hid, if_false] at h
      by_cases hk : k = i
      · subst hk; exact hid
      · exact ih (i + 1) h k (by omega) (by omega)

/-- The search loop of `log` finds the first matching row of its range. -/
theorem log_find_first (ids : Arr) (ID : Nat) :
    ∀ (n i j : Nat), ID = ids j → i ≤ j → j < i + n → (∀ k, i ≤ k → k < j → ID ≠ ids k) →
      log_find ids ID n i = some j := by
  intro n
  induction n with
  | zero => intro i j _ h1 h2 _; omega
  | succ n ih =>
    intro i j hj h1 h2 h3
    unfold log_find
    by_cases hid : ID = ids i
    · have : j = i := by
        by_contra hne
        exact h3 i (le_refl _) (by omega) hid
      simp [hid, this]
    · simp only [hid, if_false]
      have hji : j ≠ i := by
        intro h; subst h; exact hid hj
      exact ih (i + 1) j hj (by omega) (by omega) (fun k hk1 hk2 => h3 k (by omega) hk2)

/-- The search loop of `log` finds nothing when no row of its range matches. -/
theorem log_find_absent (ids : Arr) (ID : Nat) :
    ∀ (n i : Nat), (∀ k, i ≤ k → k < i + n → ID ≠ ids k) → log_find ids ID n i = none := by
  intro n
  induction n with
  | zero => intro i _; rfl
  | succ n ih =>
    intro i h
    unfold log_find
    have hid : ID ≠ ids i := h i (le_refl _) (by omega)
    simp only [hid, if_false]
    exact ih (i + 1) (fun k h1 h2 => h k (by omega) (by omega))

/-- The globals `log` never writes. -/
theorem log_frame (s : State) (ID TIME now : Nat) :
    (log s ID TIME now).state.RESULT_NODE_ARR = s.RESULT_NODE_ARR ∧
    (log s ID TIME now).state.ROUND_NODE_ARR = s.ROUND_NODE_ARR ∧
    (log s ID TIME now).state.SEQ_NODE_ARR = s.SEQ_NODE_ARR ∧
    (log s ID TIME now).state.HOST_DOA_VER = s.HOST_DOA_VER ∧
    (log s ID TIME now).state.HOST_DOA = s.HOST_DOA ∧
    (log s ID TIME now).state.HOST_CURRENT_DOA = s.HOST_CURRENT_DOA ∧
    (log s ID TIME now).state.TERMINAL_FACE = s.TERMINAL_FACE ∧
    (log s ID TIME now).state.ACTIVE_ID_NODE_ARR = s.ACTIVE_ID_NODE_ARR ∧
    (log s ID TIME now).state.ACTIVE_NODE_COUNT = s.ACTIVE_NODE_COUNT := by
  unfold log
  split <;> split_ifs <;> simp

/-! ## `heapsort` stops when the word behind its "no child" marker is zero -/

/-- The sift-up loop stops within `s + 1` turns and writes only at or below `s`. -/
theorem heapsort_up_total (elt : Nat) :
    ∀ (fuel : Nat) (arr : Arr) (s f : Nat), s < fuel → s < 4294967295 → f = u32sub s 1 / 2 →
      arr 4294967295 = 0 →
      ∃ arr1 s1, heapsort_up elt fuel arr s f = some (arr1, s1) ∧ s1 ≤ s ∧
        arr1 4294967295 = 0 := by
  intro fuel
  induction fuel with
  | zero => intro arr s f h; omega
  | succ fuel ih =>
    intro arr s f hs hM hf hg
    unfold heapsort_up
    by_cases hc : s > 0 ∧ arr f < elt
    · simp only [hc, and_self, if_true]
      have hfs : f < s := by
        rw [hf]; unfold u32sub; omega
      obtain ⟨arr1, s1, e, hle, hg1⟩ :=
        ih (arr.set s (arr f)) f (u32sub f 1 / 2) (by omega) (by omega) rfl
          (by rw [Arr.set_other _ _ _ _ (by omega)]; exact hg)
      exact ⟨arr1, s1, e, by omega, hg1⟩
    · simp only [hc, if_false]
      exact ⟨arr, s, rfl, le_refl _, hg⟩

/-- One pass of the first loop of `heapsort` stops. -/
theorem heapsort_insert_total (arr : Arr) (i : Nat) (hi : i < 4294967295)
    (hg : arr 4294967295 = 0) :
    ∃ arr1, heapsort_insert arr i = some arr1 ∧ arr1 4294967295 = 0 := by
  obtain ⟨arr1, s1, e, hle, hg1⟩ :=
    heapsort_up_total (arr i) 4294967296 arr i (u32sub i 1 / 2) (by omega) hi rfl hg
  refine ⟨arr1.set s1 (arr i), ?_, ?_⟩
  · simp [heapsort_insert, e]
  · rw [Arr.set_other _ _ _ _ (by omega)]; exact hg1

/-- The first loop of `heapsort` stops. -/
theorem heapsort_build_total :
    ∀ (n i : Nat) (arr : Arr), i + n ≤ 4294967295 → arr 4294967295 = 0 →
      ∃ arr1, heapsort_build n i arr = some arr1 ∧ arr1 4294967295 = 0 := by
  intro n
  induction n with
  | zero => intro i arr _ hg; exact ⟨arr, rfl, hg⟩
  | succ n ih =>
    intro i arr hb hg
    obtain ⟨arr1, e1, hg1⟩ := heapsort_insert_total arr i (by omega) hg
    obtain ⟨arr2, e2, hg2⟩ := ih (i + 1) arr1 (by omega) hg1
    exact ⟨arr2, by simp [heapsort_build, e1, e2], hg2⟩

/-- The sift-down loop stops when the cell behind the marker holds zero: `s` grows
until it leaves the heap, and the marker cell then ends the loop. -/
theorem heapsort_down_total (i ivalue : Nat) (hi1 : 1 ≤ i) (hi2 : i < 2147483648) :
    ∀ (fuel : Nat) (arr : Arr) (f s : Nat), arr 4294967295 = 0 → f < i →
      (s = 4294967295 ∨ (f < s ∧ s < i)) → i - s < fuel →
      ∃ arr1 f1, heapsort_down i ivalue fuel arr f s = some (arr1, f1) ∧ f1 < i ∧
        arr1 4294967295 = 0 := by
  intro fuel
  induction fuel with
  | zero => intro arr f s _ _ _ h; omega
  | succ fuel ih =>
    intro arr f s hg hf hs hfuel
    unfold heapsort_down
    by_cases hc : 0 ≤ s ∧ ivalue < arr s
    · have hsM : s ≠ 4294967295 := by
        intro h; rw [h, hg] at hc; omega
      have hs2 : f < s ∧ s < i := by
        rcases hs with h | h
        · exact absurd h hsM
        · exact h
      simp only [hc, and_self, if_true]
      have hi : u32sub i 1 = i - 1 := by unfold u32sub; omega
      have e1 : u32 (2 * s + 1) = 2 * s + 1 := by unfold u32; omega
      have e2 : u32 (2 * s + 1 + 1) = 2 * s + 2 := by unfold u32; omega
      simp only [e1, e2, hi]
      apply ih
      · rw [Arr.set_other _ _ _ _ (by omega)]; exact hg
      · exact hs2.2
      · split_ifs <;> omega
      · split_ifs <;> omega
    · simp only [hc, if_false]
      exact ⟨arr, f, rfl, hf, hg⟩

/-- One pass of the second loop of `heapsort` stops. -/
theorem heapsort_extract_total (arr : Arr) (i : Nat) (hi1 : 1 ≤ i) (hi2 : i < 2147483648)
    (hg : arr 4294967295 = 0) :
    ∃ arr1, heapsort_extract arr i = some arr1 ∧ arr1 4294967295 = 0 := by
  have hg1 : (arr.set i (arr 0)) 4294967295 = 0 := by
    rw [Arr.set_other _ _ _ _ (by omega)]; exact hg
  obtain ⟨arr2, f, e, hf, hg2⟩ :=
    heapsort_down_total i (arr i) hi1 hi2 4294967296 (arr.set i (arr 0)) 0
      (if i > 2 ∧ (arr.set i (arr 0)) 2 > (arr.set i (arr 0)) 1 then 2
        else if 1 = i then 4294967295 else 1)
      hg1 (by omega) (by split_ifs <;> omega) (by omega)
  refine ⟨arr2.set f (arr i), ?_, ?_⟩
  · simp only [heapsort_extract, e]
  · rw [Arr.set_other _ _ _ _ (by omega)]; exact hg2

/-- The second loop of `heapsort` stops. -/
theorem heapsort_sort_total :
    ∀ (i : Nat) (arr : Arr), i < 2147483648 → arr 4294967295 = 0 →
      ∃ arr1, heapsort_sort i arr = some arr1 ∧ arr1 4294967295 = 0 := by
  intro i
  induction i with
  | zero => intro arr _ hg; exact ⟨arr, rfl, hg⟩
  | succ i ih =>
    intro arr hb hg
    obtain ⟨arr1, e1, hg1⟩ := heapsort_extract_total arr (i + 1) (by omega) hb hg
    obtain ⟨arr2, e2, hg2⟩ := ih arr1 (by omega) hg1
    exact ⟨arr2, by simp [heapsort_sort, e1, e2], hg2⟩

/-- With at least one and at most `2^31` entries to sort, and a zero in the
cell `heapsort` reads through its "no child" marker, `heapsort` stops. -/
theorem heapsort_total (arr : Arr) (size : Nat) (h1 : 1 ≤ size) (h2 : size ≤ 2147483648)
    (hg : arr 4294967295 = 0) :
    ∃ arr1, heapsort arr size = some arr1 ∧ arr1 4294967295 = 0 := by
  obtain ⟨arr1, e1, hg1⟩ := heapsort_build_total (size - 1) 1 arr (by omega) hg
  have hs : u32sub size 1 = size - 1 := by unfold u32sub; omega
  obtain ⟨arr2, e2, hg2⟩ := heapsort_sort_total (size - 1) arr1 (by omega) hg1
  exact ⟨arr2, by simp [heapsort, e1, hs, e2], hg2⟩

/-! ## Lemmas on forwarding, compiling and the two flushes -/

/-- The packets `FWD_R_PKT` prints: the given packet, once on each of the faces
0..3 that is neither the terminal face nor the source face. -/
theorem FWD_R_PKT_mem (s : State) (p : R_PKT) (face : Nat) (e : Emit) :
    e ∈ FWD_R_PKT s p face ↔
      e.pkt = p ∧ e.face < 4 ∧ e.face ≠ s.TERMINAL_FACE ∧ e.face ≠ face := by
  unfold FWD_R_PKT
  simp only [List.mem_map, List.mem_filter, List.mem_range, decide_eq_true_eq]
  constructor
  · rintro ⟨i, ⟨hi, ht, hf⟩, rfl⟩
    exact ⟨rfl, hi, fun h => ht h.symm, fun h => hf h.symm⟩
  · rintro ⟨hp, hi, ht, hf⟩
    refine ⟨e.face, ⟨hi, fun h => ht h.symm, fun h => hf h.symm⟩, ?_⟩
    cases e
    simp_all

/-- The loop of `compileResults` takes its early `return` as soon as one of
the rows it visits is sequenced and has no result. -/
theorem compileResults_loop_incomplete (seq res : Arr) :
    ∀ (n i rc : Nat), (∃ k, i ≤ k ∧ k < i + n ∧ seq k > 0 ∧ res k = 0) →
      compileResults_loop seq res n i rc = none := by
  intro n
  induction n with
  | zero => rintro i rc ⟨k, h1, h2, _⟩; omega
  | succ n ih =>
    rintro i rc ⟨k, h1, h2, h3, h4⟩
    unfold compileResults_loop
    by_cases hk : k = i
    · subst hk
      simp [h3, h4]
    · have hex : ∃ k, i + 1 ≤ k ∧ k < i + 1 + n ∧ seq k > 0 ∧ res k = 0 :=
        ⟨k, by omega, by omega, h3, h4⟩
      split_ifs
      · exact ih _ _ hex
      · rfl
      · exact ih _ _ hex

/-- The clearing loop zeroes the rows 1..31. -/
theorem clearRows_row (a : Arr) (i : Nat) (h1 : 1 ≤ i) (h2 : i < ARR_LENGTH) :
    clearRows a i = 0 := by
  simp [clearRows, h1, h2]

/-- The clearing loop does not touch row 0. -/
theorem clearRows_zero (a : Arr) : clearRows a 0 = a 0 := by
  simp [clearRows]

/-- With a sortable active set, `calcFlush` returns, and the globals it leaves
are the ones written out here: only the sorted active set and the sequence
column depend on the sort. -/
theorem calcFlush_returns (s : State) (now : Nat)
    (h1 : 1 ≤ s.ACTIVE_NODE_COUNT) (h2 : s.ACTIVE_NODE_COUNT ≤ 2147483648)
    (hg : s.ACTIVE_ID_NODE_ARR 4294967295 = 0) :
    ∃ act seq, act 4294967295 = 0 ∧ calcFlush s now = some
      { s with
        HOST_CURRENT_DOA := Val.fin 0
        RESULT_COMPILED := 0
        RUN_TIME_START := now
        RUN_TIME := 0
        POINTS_GEN := 0
        HOST_RESULT := 0
        TOTAL_CIRCLE_COUNT := 0
        CALC_PI := Val.fin 0
        HOST_DOA := 0
        HOST_ROUND := 1
        RESULT_NODE_ARR := clearRows s.RESULT_NODE_ARR
        SEQ_NODE_ARR := seq
        ROUND_NODE_ARR := clearRows s.ROUND_NODE_ARR
        ACTIVE_ID_NODE_ARR := act } := by
  obtain ⟨act, e, hact⟩ := heapsort_total s.ACTIVE_ID_NODE_ARR s.ACTIVE_NODE_COUNT h1 h2 hg
  refine ⟨act, sequenceNodes_rows s.ID_NODE_ARR act s.ACTIVE_NODE_COUNT s.NODE_COUNT 0
    (clearRows s.SEQ_NODE_ARR), hact, ?_⟩
  unfold calcFlush sequenceNodes
  simp only [e]

/-- The rows `updateResult` leaves alone. -/
theorem updateResult_other (s : State) (i r rd k : Nat) (h : k ≠ i) :
    (updateResult s i r rd).RESULT_NODE_ARR k = s.RESULT_NODE_ARR k ∧
    (updateResult s i r rd).ROUND_NODE_ARR k = s.ROUND_NODE_ARR k := by
  unfold updateResult
  split_ifs <;> simp [Arr.set_other, h]

/-- What a `calcFlush` that returns has left of the globals the sort does not
touch. -/
theorem calcFlush_keeps (s t : State) (now : Nat) (h : calcFlush s now = some t) :
    t.HOST_DOA_VER = s.HOST_DOA_VER ∧ t.HOST_ROUND = 1 ∧
    t.ROUND_NODE_ARR = clearRows s.ROUND_NODE_ARR ∧
    t.RESULT_NODE_ARR = clearRows s.RESULT_NODE_ARR ∧
    t.NODE_COUNT = s.NODE_COUNT ∧ t.ID_NODE_ARR = s.ID_NODE_ARR ∧
    t.PC_NODE_ARR = s.PC_NODE_ARR ∧ t.TS_NODE_ARR = s.TS_NODE_ARR ∧
    t.TS_HOST_ARR = s.TS_HOST_ARR ∧ t.TERMINAL_FACE = s.TERMINAL_FACE := by
  unfold calcFlush sequenceNodes at h
  simp only [] at h
  split at h
  · simp only [Option.some.injEq] at h
    subst h
    simp
  · simp at h

/-- When every sequenced row it visits has a result, the loop of
`compileResults` runs to its end and has added up those results. -/
theorem compileResults_loop_complete (seq res : Arr) :
    ∀ (n i rc : Nat), (∀ k, i ≤ k → k < i + n → seq k > 0 → res k ≠ 0) →
      compileResults_loop seq res n i rc = some (rc + sequencedSum seq res n i) := by
  intro n
  induction n with
  | zero => intro i rc _; simp [compileResults_loop, sequencedSum]
  | succ n ih =>
    intro i rc h
    have hrest : ∀ k, i + 1 ≤ k → k < i + 1 + n → seq k > 0 → res k ≠ 0 :=
      fun k h1 h2 => h k (by omega) (by omega)
    unfold compileResults_loop sequencedSum
    by_cases hs : seq i > 0
    · have hr : res i ≠ 0 := h i (le_refl _) (by omega) hs
      rw [if_pos ⟨hs, fun e => hr e.symm⟩, ih _ _ hrest, if_pos hs]
      simp only [Option.some.injEq]
      omega
    · rw [if_neg (fun e => hs e.1), if_neg (fun e => hs e.1), ih _ _ hrest, if_neg hs]
      simp

/-- The two `u32` products of the divisor amount to one reduction. -/
theorem divisor_mod (a r : Nat) :
    u32 (u32 (a * r) * MAX_POINTS_GEN) = (a * r * MAX_POINTS_GEN) % 4294967296 := by
  unfold u32
  rw [Nat.mul_mod, Nat.mod_mod, ← Nat.mul_mod]

/-- The flag `heartBeat` gives row `i`: `'A'` when the `u32` difference between
the local time of row 0 and that of row `i` is below `IDLE`, else `'I'`. -/
theorem heartBeat_row_spec (s : State) (i : Nat) :
    (heartBeat_row s i).TS_HOST_ARR = s.TS_HOST_ARR ∧
    (heartBeat_row s i).NODE_COUNT = s.NODE_COUNT ∧
    (heartBeat_row s i).ACTIVE_NODE_ARR i
      = (if u32sub (s.TS_HOST_ARR 0) (s.TS_HOST_ARR i) < IDLE then CH_A else CH_I) ∧
    ((heartBeat_row s i).ACTIVE_NODE_ARR i = CH_I →
      (heartBeat_row s i).RESULT_NODE_ARR i = 0 ∧ (heartBeat_row s i).PC_NODE_ARR i = 0) ∧
    (∀ k, k ≠ i →
      (heartBeat_row s i).ACTIVE_NODE_ARR k = s.ACTIVE_NODE_ARR k ∧
      (heartBeat_row s i).RESULT_NODE_ARR k = s.RESULT_NODE_ARR k ∧
      (heartBeat_row s i).PC_NODE_ARR k = s.PC_NODE_ARR k) := by
  unfold heartBeat_row
  by_cases hc : u32sub (s.TS_HOST_ARR 0) (s.TS_HOST_ARR i) < IDLE
  · simp only [hc, if_true]
    have hne : CH_I ≠ CH_A := by decide
    simp only [hne, if_false, if_true]
    split_ifs <;> simp [Arr.set, hne.symm] <;> intro k hk <;> simp [hk]
  · simp only [hc, if_false, if_true]
    split_ifs <;> simp [Arr.set] <;> intro k hk <;> simp [hk]

/-- The loop of `heartBeat` over the rows `i`, ..., `i + n - 1`: each of them
gets its flag, an inactive one loses result and ping count, and no other row
and no timestamp is touched. -/
theorem heartBeat_rows_spec :
    ∀ (n i : Nat) (s : State),
      (heartBeat_rows n i s).TS_HOST_ARR = s.TS_HOST_ARR ∧
      (heartBeat_rows n i s).NODE_COUNT = s.NODE_COUNT ∧
      (∀ k, i ≤ k → k < i + n →
        (heartBeat_rows n i s).ACTIVE_NODE_ARR k
          = (if u32sub (s.TS_HOST_ARR 0) (s.TS_HOST_ARR k) < IDLE then CH_A else CH_I) ∧
        ((heartBeat_rows n i s).ACTIVE_NODE_ARR k = CH_I →
          (heartBeat_rows n i s).RESULT_NODE_ARR k = 0 ∧
          (heartBeat_rows n i s).PC_NODE_ARR k = 0)) ∧
      (∀ k, (k < i ∨ i + n ≤ k) →
        (heartBeat_rows n i s).ACTIVE_NODE_ARR k = s.ACTIVE_NODE_ARR k ∧
        (heartBeat_rows n i s).RESULT_NODE_ARR k = s.RESULT_NODE_ARR k ∧
        (heartBeat_rows n i s).PC_NODE_ARR k = s.PC_NODE_ARR k) := by
  intro n
  induction n with
  | zero =>
    intro i s
    refine ⟨rfl, rfl, ?_, ?_⟩
    · intro k h1 h2; omega
    · intro k _; exact ⟨rfl, rfl, rfl⟩
  | succ n ih =>
    intro i s
    obtain ⟨r1, r2, r3, r4, r5⟩ := heartBeat_row_spec s i
    obtain ⟨q1, q2, q3, q4⟩ := ih (i + 1) (heartBeat_row s i)
    have e : heartBeat_rows (n + 1) i s = heartBeat_rows n (i + 1) (heartBeat_row s i) := rfl
    rw [e]
    refine ⟨by rw [q1, r1], by rw [q2, r2], ?_, ?_⟩
    · intro k h1 h2
      by_cases hk : k = i
      · subst hk
        obtain ⟨a, b, c⟩ := q4 k (Or.inl (by omega))
        rw [a, b, c]
        exact ⟨r3, r4⟩
      · have := q3 k (by omega) (by omega)
        rw [r1] at this
        exact this
    · intro k hk
      obtain ⟨a, b, c⟩ := q4 k (by omega)
      obtain ⟨a2, b2, c2⟩ := r5 k (by omega)
      exact ⟨by rw [a, a2], by rw [b, b2], by rw [c, c2]⟩

/-- What `compileResults` never changes in the table, and the fact that it
never gives a row a result. -/
theorem compileResults_frame (s : State) (now : Nat) :
    (compileResults s now).ACTIVE_NODE_ARR = s.ACTIVE_NODE_ARR ∧
    (compileResults s now).PC_NODE_ARR = s.PC_NODE_ARR ∧
    (compileResults s now).NODE_COUNT = s.NODE_COUNT ∧
    (compileResults s now).ID_NODE_ARR = s.ID_NODE_ARR ∧
    (compileResults s now).HOST_DOA_VER = s.HOST_DOA_VER ∧
    (∀ k, s.RESULT_NODE_ARR k = 0 → (compileResults s now).RESULT_NODE_ARR k = 0) := by
  unfold compileResults
  split_ifs
  · exact ⟨rfl, rfl, rfl, rfl, rfl, fun _ h => h⟩
  · exact ⟨rfl, rfl, rfl, rfl, rfl, fun _ h => h⟩
  · split
    · exact ⟨rfl, rfl, rfl, rfl, rfl, fun _ h => h⟩
    · simp only []
      split_ifs
      · exact ⟨rfl, rfl, rfl, rfl, rfl, fun _ h => h⟩
      · refine ⟨rfl, rfl, rfl, rfl, rfl, ?_⟩
        intro k h
        simp only [roundFlush, clearRows]
        split_ifs
        · rfl
        · exact h

/-- `FWD_R_PKT` prints on no face twice. -/
theorem FWD_R_PKT_nodup (s : State) (p : R_PKT) (face : Nat) : (FWD_R_PKT s p face).Nodup := by
  unfold FWD_R_PKT
  apply List.Nodup.map
  · intro a b h
    exact congrArg Emit.face h
  · exact List.Nodup.filter _ (List.nodup_range 4)

/-- The source face of `FWD_R_PKT` makes no difference once it is not one of the
faces 0..3. -/
theorem BRD_eq_FWD (s : State) (p : R_PKT) (face : Nat) (h : 4 ≤ face) :
    BRD_R_PKT s p = FWD_R_PKT s p face := by
  unfold BRD_R_PKT FWD_R_PKT
  congr 1
  apply List.filter_congr
  intro i hi
  have hi4 : i < 4 := List.mem_range.mp hi
  have : face ≠ i := by omega
  simp [this]

/-- The only globals `log` writes are the row count, the ids, the two timestamp
columns and the ping counts. -/
theorem log_only_table (s : State) (ID TIME now : Nat) :
    (log s ID TIME now).state =
      { s with
        NODE_COUNT := (log s ID TIME now).state.NODE_COUNT
        ID_NODE_ARR := (log s ID TIME now).state.ID_NODE_ARR
        TS_NODE_ARR := (log s ID TIME now).state.TS_NODE_ARR
        TS_HOST_ARR := (log s ID TIME now).state.TS_HOST_ARR
        PC_NODE_ARR := (log s ID TIME now).state.PC_NODE_ARR } := by
  unfold log
  split <;> split_ifs <;> rfl

/-- No Result lowers the local version: `r_handler` leaves it alone or replaces
it by the larger version of the packet. -/
theorem r_handler_version_monotone (s : State) (scan : Option R_PKT) (face now : Nat) :
    s.HOST_DOA_VER ≤ (r_handler s scan face now).state.HOST_DOA_VER := by
  cases scan with
  | none => simp [r_handler]
  | some p =>
    obtain ⟨_, _, _, f4, _, _, _, _, _⟩ := log_frame s p.key.ID p.key.TIME now
    unfold r_handler
    simp only []
    split_ifs with h1 h2 h3 h4 h5 h6 h7
    · simp [f4]
    · simp [f4]
    · simp [f4]
    · simp [f4]
    · simp [f4]
    · simp [f4]
    · split
      · simp [f4]
      · rename_i t ht
        obtain ⟨k1, _⟩ := calcFlush_keeps _ _ _ ht
        split_ifs
        · simp only [k1, f4]; exact le_refl _
        · have hv : (updateResult
              { t with
                HOST_DOA_1 := p.doa1
                HOST_DOA_2 := p.doa2
                HOST_DOA := doaConvert p.doa1 p.doa2
                HOST_DOA_VER := p.doa_ver
                RUN_TIME_START := now } (log s p.key.ID p.key.TIME now).ret p.result
                p.round).HOST_DOA_VER = p.doa_ver := by
            unfold updateResult
            split_ifs <;> rfl
          simp only [hv]
          rw [f4] at h7
          omega
    · have hv : (updateResult (log s p.key.ID p.key.TIME now).state
          (log s p.key.ID p.key.TIME now).ret p.result p.round).HOST_DOA_VER
          = (log s p.key.ID p.key.TIME now).state.HOST_DOA_VER := by
        unfold updateResult
        split_ifs <;> rfl
      simp only [hv, f4]
      exact le_refl _

/-! ## The table invariant holds in every reachable state -/

/-- The loop of `doaConvert` leaves a value below one alone, and otherwise what
it returns below one is at least a tenth: a leading zero of the fraction
cannot come out of it. -/
theorem doaConvert_loop_tenth :
    ∀ (n : Nat) (d : ℚ), doaConvert_loop n d < 1 →
      (d < 1 ∧ doaConvert_loop n d = d) ∨ 1 / 10 ≤ doaConvert_loop n d := by
  intro n
  induction n with
  | zero => intro d h; exact Or.inl ⟨h, rfl⟩
  | succ n ih =>
    intro d h
    unfold doaConvert_loop at h ⊢
    by_cases hd : d ≥ 1
    · rw [if_pos hd] at h ⊢
      rcases ih (d / 10) h with ⟨_, e⟩ | h2
      · right
        rw [e]
        have : (1 : ℚ) / 10 ≤ d / 10 := by
          apply div_le_div_of_nonneg_right hd (by norm_num)
        exact this
      · exact Or.inr h2
    · rw [if_neg hd] at h ⊢
      exact Or.inl ⟨h, rfl⟩

/-! ## Lemmas on the digit codec -/

/-- Scanning the digits of a number in a base of at least 2 gives the number
back. -/
theorem digits_round_trip (b n : Nat) (hb : 2 ≤ b) :
    (if (Nat.digits b n).all (fun d => decide (d < b)) then
      some (Nat.ofDigits b (Nat.digits b n)) else none) = some n := by
  have h : (Nat.digits b n).all (fun d => decide (d < b)) = true := by
    rw [List.all_eq_true]
    intro d hd
    exact decide_eq_true (Nat.digits_lt_base (by omega) hd)
  rw [if_pos h, Nat.ofDigits_digits]

/-! ## Every run of `heapsort` on two or more entries reads `arr[0xffffffff]` -/

/-- The sift-up loop stays inside the array. -/
theorem heapsort_up_checked_done (size elt : Nat) (hsz : size ≤ 2147483648) :
    ∀ (fuel : Nat) (arr : Arr) (s f : Nat), s < fuel → s < size → f = u32sub s 1 / 2 →
      ∃ arr1 s1, heapsort_up_checked size elt fuel arr s f = Checked.done (arr1, s1) ∧
        s1 ≤ s := by
  intro fuel
  induction fuel with
  | zero => intro arr s f h; omega
  | succ fuel ih =>
    intro arr s f hs hsize hf
    unfold heapsort_up_checked
    by_cases h0 : s > 0
    · have hfs : f < s := by
        rw [hf]; unfold u32sub; omega
      rw [if_pos h0, if_neg (by omega)]
      by_cases hc : arr f < elt
      · rw [if_pos hc, if_neg (by omega)]
        obtain ⟨arr1, s1, e, hle⟩ :=
          ih (arr.set s (arr f)) f (u32sub f 1 / 2) (by omega) (by omega) rfl
        exact ⟨arr1, s1, e, by omega⟩
      · rw [if_neg hc]
        exact ⟨arr, s, rfl, le_refl _⟩
    · rw [if_neg h0]
      exact ⟨arr, s, rfl, le_refl _⟩

/-- A pass of the first loop stays inside the array. -/
theorem heapsort_insert_checked_done (size : Nat) (hsz : size ≤ 2147483648) (arr : Arr)
    (i : Nat) (hi : i < size) :
    ∃ arr1, heapsort_insert_checked size arr i = Checked.done arr1 := by
  obtain ⟨arr1, s1, e, hle⟩ :=
    heapsort_up_checked_done size (arr i) hsz 4294967296 arr i (u32sub i 1 / 2)
      (by omega) hi rfl
  refine ⟨arr1.set s1 (arr i), ?_⟩
  unfold heapsort_insert_checked
  rw [if_neg (by omega), e]
  simp only []
  rw [if_neg (by omega)]

/-- The first loop stays inside the array. -/
theorem heapsort_build_checked_done (size : Nat) (hsz : size ≤ 2147483648) :
    ∀ (n i : Nat) (arr : Arr), i + n ≤ size →
      ∃ arr1, heapsort_build_checked size n i arr = Checked.done arr1 := by
  intro n
  induction n with
  | zero => intro i arr _; exact ⟨arr, rfl⟩
  | succ n ih =>
    intro i arr hb
    obtain ⟨arr1, e1⟩ := heapsort_insert_checked_done size hsz arr i (by omega)
    obtain ⟨arr2, e2⟩ := ih (i + 1) arr1 (by omega)
    refine ⟨arr2, ?_⟩
    unfold heapsort_build_checked
    rw [e1]
    exact e2

/-- The sift-down loop either returns or reads `arr[0xffffffff]`; it accesses
no other cell outside the array. -/
theorem heapsort_down_checked_spec (size i ivalue : Nat) (hsz : size ≤ 2147483648)
    (hi1 : 1 ≤ i) (hi2 : i < size) :
    ∀ (fuel : Nat) (arr : Arr) (f s : Nat), f < i →
      (s = 4294967295 ∨ (f < s ∧ s < i)) → i - s < fuel →
      (∃ arr1 f1, heapsort_down_checked size i ivalue fuel arr f s = Checked.done (arr1, f1) ∧
        f1 < i) ∨
      heapsort_down_checked size i ivalue fuel arr f s = Checked.fault 4294967295 := by
  intro fuel
  induction fuel with
  | zero => intro arr f s _ _ h; omega
  | succ fuel ih =>
    intro arr f s hf hs hfuel
    unfold heapsort_down_checked
    rw [if_pos (Nat.zero_le s)]
    rcases hs with hM | ⟨hfs, hsi⟩
    · right
      rw [if_pos (by omega), hM]
    · rw [if_neg (by omega)]
      by_cases hc : ivalue < arr s
      · rw [if_pos hc, if_neg (by omega)]
        have e1 : u32 (2 * s + 1) = 2 * s + 1 := by unfold u32; omega
        have e2 : u32 (2 * s + 1 + 1) = 2 * s + 2 := by unfold u32; omega
        have e3 : u32sub i 1 = i - 1 := by unfold u32sub; omega
        simp only [e1, e2, e3]
        by_cases hp : 2 * s + 2 ≤ i - 1
        · rw [if_pos hp, if_neg (by omega), if_neg (by omega)]
          apply ih
          · omega
          · right
            split_ifs <;> omega
          · split_ifs <;> omega
        · rw [if_neg hp]
          apply ih
          · omega
          · split_ifs
            · left; rfl
            · right; omega
          · split_ifs <;> omega
      · rw [if_neg hc]
        left
        exact ⟨arr, f, rfl, hf⟩

/-- With the marker in `s` the sift-down loop reads `arr[0xffffffff]` at once. -/
theorem heapsort_down_checked_marker (size i ivalue : Nat) (hsz : size ≤ 2147483648)
    (fuel : Nat) (arr : Arr) (f : Nat) (hfuel : 0 < fuel) :
    heapsort_down_checked size i ivalue fuel arr f 4294967295 = Checked.fault 4294967295 := by
  cases fuel with
  | zero => omega
  | succ fuel =>
    unfold heapsort_down_checked
    rw [if_pos (Nat.zero_le _), if_pos (by omega)]

/-- A pass of the second loop either returns or reads `arr[0xffffffff]`, and
the pass for `i = 1` reads it. -/
theorem heapsort_extract_checked_spec (size : Nat) (hsz : size ≤ 2147483648) (arr : Arr)
    (i : Nat) (hi1 : 1 ≤ i) (hi2 : i < size) :
    ((∃ arr1, heapsort_extract_checked size arr i = Checked.done arr1) ∧ i ≠ 1) ∨
    heapsort_extract_checked size arr i = Checked.fault 4294967295 := by
  unfold heapsort_extract_checked
  rw [if_neg (by omega), if_neg (by omega)]
  simp only []
  rw [if_neg (by omega), if_neg (by omega)]
  by_cases h1 : i = 1
  · right
    subst h1
    have hs : (if 1 > 2 ∧ (arr.set 1 (arr 0)) 2 > (arr.set 1 (arr 0)) 1 then 2
        else if 1 = 1 then 4294967295 else 1) = 4294967295 := by
      rw [if_neg (by omega), if_pos rfl]
    rw [hs, heapsort_down_checked_marker size 1 (arr 1) hsz 4294967296 _ 0 (by omega)]
  · rcases heapsort_down_checked_spec size i (arr i) hsz hi1 hi2 4294967296
        (arr.set i (arr 0)) 0
        (if i > 2 ∧ (arr.set i (arr 0)) 2 > (arr.set i (arr 0)) 1 then 2
          else if 1 = i then 4294967295 else 1)
        (by omega) (by split_ifs <;> omega) (by omega) with ⟨arr1, f1, e, hf1⟩ | e
    · left
      refine ⟨⟨arr1.set f1 (arr i), ?_⟩, h1⟩
      rw [e]
      simp only []
      rw [if_neg (by omega)]
    · right
      rw [e]

/-- The second loop, started at an index from 1 on inside the array, reads
`arr[0xffffffff]`. -/
theorem heapsort_sort_checked_fault (size : Nat) (hsz : size ≤ 2147483648) :
    ∀ (i : Nat) (arr : Arr), 1 ≤ i → i < size →
      heapsort_sort_checked size i arr = Checked.fault 4294967295 := by
  intro i
  induction i with
  | zero => intro arr h; omega
  | succ i ih =>
    intro arr _ hi
    unfold heapsort_sort_checked
    rcases heapsort_extract_checked_spec size hsz arr (i + 1) (by omega) hi with
      ⟨⟨arr1, e⟩, h1⟩ | e
    · rw [e]
      exact ih arr1 (by omega) (by omega)
    · rw [e]

/-- On two or more entries `heapsort` reads `arr[0xffffffff]`, and that is the
first cell outside the array it touches. -/
theorem heapsort_checked_fault (arr : Arr) (size : Nat) (h2 : 2 ≤ size)
    (hsz : size ≤ 2147483648) :
    heapsort_checked arr size = Checked.fault 4294967295 := by
  obtain ⟨arr1, e1⟩ := heapsort_build_checked_done size hsz (size - 1) 1 arr (by omega)
  have hs : u32sub size 1 = size - 1 := by unfold u32sub; omega
  unfold heapsort_checked
  rw [e1, hs]
  exact heapsort_sort_checked_fault size hsz (size - 1) arr1 (by omega) (by omega)

/-- With no entry at all the second loop starts at index `0xffffffff` and reads
that cell first. -/
theorem heapsort_checked_empty (arr : Arr) :
    heapsort_checked arr 0 = Checked.fault 4294967295 := by
  have hs : u32sub 0 1 = 4294967294 + 1 := by decide
  unfold heapsort_checked
  simp only [Nat.zero_sub, heapsort_build_checked, hs]
  unfold heapsort_sort_checked heapsort_extract_checked
  rw [if_pos (Nat.zero_le _)]

/-! ## The checked run computes what the unchecked one does -/

/-- A checked sift-up loop that returns gives what `heapsort_up` gives. -/
theorem heapsort_up_checked_agrees (size elt : Nat) :
    ∀ (fuel : Nat) (arr : Arr) (s f : Nat) (r : Arr × Nat),
      heapsort_up_checked size elt fuel arr s f = Checked.done r →
      heapsort_up elt fuel arr s f = some r := by
  intro fuel
  induction fuel with
  | zero =>
    intro arr s f r h
    unfold heapsort_up_checked at h
    cases h
  | succ fuel ih =>
    intro arr s f r h
    unfold heapsort_up_checked at h
    unfold heapsort_up
    split_ifs at h with h1 h2 h3 h4
    · rw [if_pos ⟨h1, h3⟩]
      exact ih _ _ _ _ h
    · rw [if_neg (fun hc => h3 hc.2)]
      cases h
      rfl
    · rw [if_neg (fun hc => h1 hc.1)]
      cases h
      rfl

/-- A checked pass of the first loop that returns gives what `heapsort_insert`
gives. -/
theorem heapsort_insert_checked_agrees (size : Nat) (arr : Arr) (i : Nat) (r : Arr)
    (h : heapsort_insert_checked size arr i = Checked.done r) :
    heapsort_insert arr i = some r := by
  unfold heapsort_insert_checked at h
  unfold heapsort_insert
  split_ifs at h with h1
  generalize hu : heapsort_up_checked size (arr i) 4294967296 arr i (u32sub i 1 / 2) = u at h
  cases u with
  | done p =>
    obtain ⟨arr1, s⟩ := p
    rw [heapsort_up_checked_agrees size (arr i) _ _ _ _ _ hu]
    simp only [] at h ⊢
    split_ifs at h
    cases h
    rfl
  | fault idx => cases h
  | stuck => cases h

/-- A checked first loop that returns gives what `heapsort_build` gives. -/
theorem heapsort_build_checked_agrees (size : Nat) :
    ∀ (n i : Nat) (arr r : Arr), heapsort_build_checked size n i arr = Checked.done r →
      heapsort_build n i arr = some r := by
  intro n
  induction n with
  | zero =>
    intro i arr r h
    unfold heapsort_build_checked at h
    cases h
    rfl
  | succ n ih =>
    intro i arr r h
    unfold heapsort_build_checked at h
    unfold heapsort_build
    generalize hu : heapsort_insert_checked size arr i = u at h
    cases u with
    | done arr1 =>
      rw [heapsort_insert_checked_agrees size arr i arr1 hu]
      exact ih _ _ _ h
    | fault idx => cases h
    | stuck => cases h

/-- A checked sift-down loop that returns gives what `heapsort_down` gives. -/
theorem heapsort_down_checked_agrees (size i ivalue : Nat) :
    ∀ (fuel : Nat) (arr : Arr) (f s : Nat) (r : Arr × Nat),
      heapsort_down_checked size i ivalue fuel arr f s = Checked.done r →
      heapsort_down i ivalue fuel arr f s = some r := by
  intro fuel
  induction fuel with
  | zero =>
    intro arr f s r h
    unfold heapsort_down_checked at h
    cases h
  | succ fuel ih =>
    intro arr f s r h
    unfold heapsort_down_checked at h
    unfold heapsort_down
    rw [if_pos (Nat.zero_le s)] at h
    by_cases hs : size ≤ s
    · rw [if_pos hs] at h
      cases h
    rw [if_neg hs] at h
    by_cases hc : ivalue < arr s
    · rw [if_pos ⟨Nat.zero_le _, hc⟩]
      rw [if_pos hc] at h
      by_cases hf : size ≤ f
      · rw [if_pos hf] at h
        cases h
      rw [if_neg hf] at h
      simp only [] at h ⊢
      by_cases hA : u32 (u32 (2 * s + 1) + 1) ≤ u32sub i 1
      · rw [if_pos hA] at h
        by_cases h5 : size ≤ u32 (2 * s + 1)
        · rw [if_pos h5] at h
          cases h
        rw [if_neg h5] at h
        by_cases h6 : size ≤ u32 (u32 (2 * s + 1) + 1)
        · rw [if_pos h6] at h
          cases h
        rw [if_neg h6] at h
        simp only [hA, true_and]
        exact ih _ _ _ _ h
      · rw [if_neg hA] at h
        simp only [hA, false_and, if_false]
        exact ih _ _ _ _ h
    · rw [if_neg (fun hc2 => hc hc2.2)]
      rw [if_neg hc] at h
      cases h
      rfl

/-- A checked pass of the second loop that returns gives what
`heapsort_extract` gives. -/
theorem heapsort_extract_checked_agrees (size : Nat) (arr : Arr) (i : Nat) (r : Arr)
    (h : heapsort_extract_checked size arr i = Checked.done r) :
    heapsort_extract arr i = some r := by
  unfold heapsort_extract_checked at h
  unfold heapsort_extract
  by_cases h1 : size ≤ i
  · rw [if_pos h1] at h
    cases h
  rw [if_neg h1] at h
  by_cases h2 : size ≤ 0
  · rw [if_pos h2] at h
    cases h
  rw [if_neg h2] at h
  simp only [] at h ⊢
  by_cases h3 : i > 2 ∧ size ≤ 2
  · rw [if_pos h3] at h
    cases h
  rw [if_neg h3] at h
  by_cases h4 : i > 2 ∧ size ≤ 1
  · rw [if_pos h4] at h
    cases h
  rw [if_neg h4] at h
  generalize (if i > 2 ∧ (arr.set i (arr 0)) 2 > (arr.set i (arr 0)) 1 then 2
      else if 1 = i then 4294967295 else 1) = s1 at h ⊢
  generalize hu : heapsort_down_checked size i (arr i) 4294967296 (arr.set i (arr 0)) 0 s1
    = u at h
  cases u with
  | done p =>
    obtain ⟨arr2, f⟩ := p
    rw [heapsort_down_checked_agrees size i (arr i) _ _ _ _ _ hu]
    simp only [] at h ⊢
    split_ifs at h
    cases h
    rfl
  | fault idx => cases h
  | stuck => cases h

/-- A checked second loop that returns gives what `heapsort_sort` gives. -/
theorem heapsort_sort_checked_agrees (size : Nat) :
    ∀ (i : Nat) (arr r : Arr), heapsort_sort_checked size i arr = Checked.done r →
      heapsort_sort i arr = some r := by
  intro i
  induction i with
  | zero =>
    intro arr r h
    unfold heapsort_sort_checked at h
    cases h
    rfl
  | succ i ih =>
    intro arr r h
    unfold heapsort_sort_checked at h
    unfold heapsort_sort
    generalize hu : heapsort_extract_checked size arr (i + 1) = u at h
    cases u with
    | done arr1 =>
      rw [heapsort_extract_checked_agrees size arr (i + 1) arr1 hu]
      exact ih _ _ h
    | fault idx => cases h
    | stuck => cases h

/-- A checked run of `heapsort` that returns gives what `heapsort` gives. -/
theorem heapsort_checked_agrees (arr : Arr) (size : Nat) (r : Arr)
    (h : heapsort_checked arr size = Checked.done r) :
    heapsort arr size = some r := by
  unfold heapsort_checked at h
  unfold heapsort
  generalize hu : heapsort_build_checked size (size - 1) 1 arr = u at h
  cases u with
  | done arr1 =>
    rw [heapsort_build_checked_agrees size _ _ _ _ hu]
    exact heapsort_sort_checked_agrees size _ _ _ h
  | fault idx => cases h
  | stuck => cases h

/-! ## `heapsort` does not stop when the word behind its marker is large -/

/-- The sift-up loop for the second entry: at most one move. -/
theorem heapsort_up_second (elt n : Nat) (arr : Arr) :
    heapsort_up elt (n + 2) arr 1 0 =
      if arr 0 < elt then some (arr.set 1 (arr 0), 0) else some (arr, 1) := by
  unfold heapsort_up
  by_cases h : arr 0 < elt
  · rw [if_pos ⟨by omega, h⟩, if_pos h]
    unfold heapsort_up
    rw [if_neg (by omega)]
  · rw [if_neg (fun hc => h hc.2), if_neg h]

/-- Once `f` and `s` both hold the marker and the word behind it is larger than
`ivalue` and not smaller than `arr[0]`, one turn of the sift-down loop leaves
everything as it is: whatever the fuel, the loop does not return. -/
theorem heapsort_down_spins (i ivalue : Nat) (hi1 : 1 ≤ i) (hi2 : i ≤ 4294967295) :
    ∀ (fuel : Nat) (arr : Arr), ivalue < arr 4294967295 →
      ¬ (arr 4294967295 < arr 0) →
      heapsort_down i ivalue fuel arr 4294967295 4294967295 = none := by
  intro fuel
  induction fuel with
  | zero => intro arr _ _; rfl
  | succ fuel ih =>
    intro arr h1 h2
    unfold heapsort_down
    rw [if_pos ⟨Nat.zero_le _, h1⟩]
    have ea : arr.set 4294967295 (arr 4294967295) = arr := by
      funext k
      unfold Arr.set
      split_ifs with hk
      · rw [hk]
      · rfl
    have e1 : u32 (2 * 4294967295 + 1) = 4294967295 := by decide
    have e2 : u32 (4294967295 + 1) = 0 := by decide
    have e3 : u32sub i 1 = i - 1 := by unfold u32sub; omega
    have hs2 : (if 0 ≤ i - 1 ∧ arr 4294967295 < arr 0 then 0 else 4294967295) = 4294967295 :=
      if_neg (fun hc => h2 hc.2)
    simp only [ea, e1, e2, e3, hs2]
    rw [if_pos (by omega)]
    exact ih arr h1 h2

/-- The last pass of the second loop enters the sift-down loop with the marker
in `s`; when the word behind the marker is larger than `ivalue` the loop
copies it to `arr[0]` and then spins: whatever the fuel, it does not return. -/
theorem heapsort_down_marker_spins (i ivalue : Nat) (hi1 : 1 ≤ i) (hi2 : i ≤ 4294967295)
    (fuel : Nat) (arr : Arr) (h1 : ivalue < arr 4294967295) :
    heapsort_down i ivalue fuel arr 0 4294967295 = none := by
  cases fuel with
  | zero => rfl
  | succ fuel =>
    unfold heapsort_down
    rw [if_pos ⟨Nat.zero_le _, h1⟩]
    have e1 : u32 (2 * 4294967295 + 1) = 4294967295 := by decide
    have e2 : u32 (4294967295 + 1) = 0 := by decide
    have e3 : u32sub i 1 = i - 1 := by unfold u32sub; omega
    have a1 : (arr.set 0 (arr 4294967295)) 4294967295 = arr 4294967295 :=
      Arr.set_other _ _ _ _ (by omega)
    have a2 : (arr.set 0 (arr 4294967295)) 0 = arr 4294967295 := Arr.set_same _ _ _
    have hs2 : (if 0 ≤ i - 1 ∧ arr 4294967295 < arr 4294967295 then 0 else 4294967295)
        = 4294967295 := if_neg (fun hc => Nat.lt_irrefl _ hc.2)
    simp only [e1, e2, e3, a1, a2, hs2]
    rw [if_pos (by omega)]
    exact heapsort_down_spins i ivalue hi1 hi2 fuel (arr.set 0 (arr 4294967295))
      (by rw [a1]; exact h1) (by rw [a1, a2]; exact Nat.lt_irrefl _)

/-- The first loop on two entries puts the larger in front. -/
theorem heapsort_build_two (arr : Arr) :
    heapsort_build 1 1 arr =
      some (if arr 0 < arr 1 then (arr.set 1 (arr 0)).set 0 (arr 1)
        else arr.set 1 (arr 1)) := by
  have hf : u32sub 1 1 / 2 = 0 := by decide
  unfold heapsort_build heapsort_insert
  rw [hf]
  show (match (match heapsort_up (arr 1) (4294967294 + 2) arr 1 0 with
    | some (arr1, s) => some (arr1.set s (arr 1))
    | none => none) with
    | some arr1 => heapsort_build 0 (1 + 1) arr1
    | none => none) = _
  rw [heapsort_up_second]
  by_cases h : arr 0 < arr 1
  · rw [if_pos h, if_pos h]
    rfl
  · rw [if_neg h, if_neg h]
    rfl

/-- The pass for `i = 1`, the last of the second loop: when the word behind
the marker is larger than `arr[1]`, its sift-down loop does not return whatever
the fuel, and so the second loop does not return. -/
theorem heapsort_sort_last_spins (a : Arr) (h : a 1 < a 4294967295) :
    (∀ fuel, heapsort_down 1 (a 1) fuel (a.set 1 (a 0)) 0 4294967295 = none) ∧
    heapsort_sort 1 a = none := by
  have h1 : a 1 < (a.set 1 (a 0)) 4294967295 := by
    rw [Arr.set_other _ _ _ _ (by omega)]; exact h
  have hd : ∀ fuel, heapsort_down 1 (a 1) fuel (a.set 1 (a 0)) 0 4294967295 = none :=
    fun fuel => heapsort_down_marker_spins 1 (a 1) (le_refl _) (by omega) fuel _ h1
  refine ⟨hd, ?_⟩
  unfold heapsort_sort heapsort_extract
  simp [hd]

/-- On two entries, when the word behind the marker is larger than the smaller
of the two, `heapsort` does not return: the sift-down loop of its only pass
does not return whatever its fuel. -/
theorem heapsort_two_spins (arr : Arr)
    (h : arr 0 < arr 4294967295 ∨ arr 1 < arr 4294967295) :
    ∃ arr1, heapsort_build 1 1 arr = some arr1 ∧
      (∀ fuel, heapsort_down 1 (arr1 1) fuel (arr1.set 1 (arr1 0)) 0 4294967295 = none) ∧
      heapsort arr 2 = none := by
  have hb := heapsort_build_two arr
  generalize hg : (if arr 0 < arr 1 then (arr.set 1 (arr 0)).set 0 (arr 1)
    else arr.set 1 (arr 1)) = arr1 at hb
  have hlt : arr1 1 < arr1 4294967295 := by
    rw [← hg]
    by_cases hc : arr 0 < arr 1
    · rw [if_pos hc, Arr.set_other _ _ _ _ (by omega), Arr.set_same,
        Arr.set_other _ _ _ _ (by omega), Arr.set_other _ _ _ _ (by omega)]
      omega
    · rw [if_neg hc, Arr.set_same, Arr.set_other _ _ _ _ (by omega)]
      omega
  obtain ⟨hd, hs⟩ := heapsort_sort_last_spins arr1 hlt
  refine ⟨arr1, hb, hd, ?_⟩
  have hu : u32sub 2 1 = 1 := by decide
  unfold heapsort
  rw [show 2 - 1 = 1 from rfl, hb, hu]
  exact hs

/-- When the sort does not return, neither does `calcFlush`. -/
theorem calcFlush_stuck (s : State) (now : Nat)
    (h : heapsort s.ACTIVE_ID_NODE_ARR s.ACTIVE_NODE_COUNT = none) :
    calcFlush s now = none := by
  unfold calcFlush sequenceNodes
  simp only [h]

/-- When the sort does not return, a Distribute that parses is never answered. -/
theorem d_handler_stuck (s : State) (p : D_PKT) (face now : Nat)
    (h : heapsort s.ACTIVE_ID_NODE_ARR s.ACTIVE_NODE_COUNT = none) :
    (d_handler s (some p) face now).exit = Exit.stuck := by
  unfold d_handler
  simp only [calcFlush_stuck s now h]

/-- The sift-up loop started inside the array returns, stores inside it and
computes what `heapsort_up` does. -/
theorem heapsort_up_stores_done (len elt : Nat) (hl : len ≤ 2147483648) :
    ∀ (fuel : Nat) (arr : Arr) (s f : Nat), s < fuel → s < len → f = u32sub s 1 / 2 →
      ∃ arr1 s1, heapsort_up_stores len elt fuel arr s f = Checked.done (arr1, s1) ∧
        heapsort_up elt fuel arr s f = some (arr1, s1) ∧ s1 ≤ s ∧
        arr1 4294967295 = arr 4294967295 := by
  intro fuel
  induction fuel with
  | zero => intro arr s f h; omega
  | succ fuel ih =>
    intro arr s f hs hsl hf
    unfold heapsort_up_stores heapsort_up
    by_cases hc : s > 0 ∧ arr f < elt
    · have hfs : f < s := by
        rw [hf]; unfold u32sub; omega
      rw [if_pos hc, if_pos hc, if_neg (by omega)]
      obtain ⟨arr1, s1, e1, e2, hle, hg1⟩ :=
        ih (arr.set s (arr f)) f (u32sub f 1 / 2) (by omega) (by omega) rfl
      refine ⟨arr1, s1, e1, e2, by omega, ?_⟩
      rw [hg1, Arr.set_other _ _ _ _ (by omega)]
    · rw [if_neg hc, if_neg hc]
      exact ⟨arr, s, rfl, rfl, le_refl _, rfl⟩

/-- A pass of the first loop for an index inside the array returns, stores
inside it and computes what `heapsort_insert` does. -/
theorem heapsort_insert_stores_done (len : Nat) (hl : len ≤ 2147483648) (arr : Arr)
    (i : Nat) (hi : i < len) :
    ∃ arr1, heapsort_insert_stores len arr i = Checked.done arr1 ∧
      heapsort_insert arr i = some arr1 ∧ arr1 4294967295 = arr 4294967295 := by
  obtain ⟨arr1, s1, e1, e2, hle, hg1⟩ :=
    heapsort_up_stores_done len (arr i) hl 4294967296 arr i (u32sub i 1 / 2)
      (by omega) hi rfl
  refine ⟨arr1.set s1 (arr i), ?_, ?_, ?_⟩
  · unfold heapsort_insert_stores
    rw [e1]
    simp only []
    rw [if_neg (by omega)]
  · unfold heapsort_insert
    rw [e2]
  · rw [Arr.set_other _ _ _ _ (by omega)]; exact hg1

/-- The first loop over indices inside the array returns, stores inside it and
computes what `heapsort_build` does. -/
theorem heapsort_build_stores_done (len : Nat) (hl : len ≤ 2147483648) :
    ∀ (n i : Nat) (arr : Arr), i + n ≤ len →
      ∃ arr1, heapsort_build_stores len n i arr = Checked.done arr1 ∧
        heapsort_build n i arr = some arr1 ∧ arr1 4294967295 = arr 4294967295 := by
  intro n
  induction n with
  | zero => intro i arr _; exact ⟨arr, rfl, rfl, rfl⟩
  | succ n ih =>
    intro i arr hb
    obtain ⟨arr1, e1, e2, hg1⟩ := heapsort_insert_stores_done len hl arr i (by omega)
    obtain ⟨arr2, e3, e4, hg2⟩ := ih (i + 1) arr1 (by omega)
    refine ⟨arr2, ?_, ?_, by rw [hg2, hg1]⟩
    · unfold heapsort_build_stores
      rw [e1]
      exact e3
    · unfold heapsort_build
      rw [e2]
      exact e4

/-- With a zero in the word behind the marker, the sift-down loop of a pass
inside the array returns, stores inside it and computes what `heapsort_down`
does. -/
theorem heapsort_down_stores_done (len i ivalue : Nat) (hl : len ≤ 2147483648)
    (hi1 : 1 ≤ i) (hi2 : i < len) :
    ∀ (fuel : Nat) (arr : Arr) (f s : Nat), arr 4294967295 = 0 → f < i →
      (s = 4294967295 ∨ (f < s ∧ s < i)) → i - s < fuel →
      ∃ arr1 f1, heapsort_down_stores len i ivalue fuel arr f s = Checked.done (arr1, f1) ∧
        heapsort_down i ivalue fuel arr f s = some (arr1, f1) ∧ f1 < i ∧
        arr1 4294967295 = 0 := by
  intro fuel
  induction fuel with
  | zero => intro arr f s _ _ _ h; omega
  | succ fuel ih =>
    intro arr f s hg hf hs hfuel
    unfold heapsort_down_stores heapsort_down
    by_cases hc : 0 ≤ s ∧ ivalue < arr s
    · have hsM : s ≠ 4294967295 := by
        intro h; rw [h, hg] at hc; omega
      have hs2 : f < s ∧ s < i := by
        rcases hs with h | h
        · exact absurd h hsM
        · exact h
      rw [if_pos hc, if_pos hc, if_neg (by omega)]
      have hi : u32sub i 1 = i - 1 := by unfold u32sub; omega
      have e1 : u32 (2 * s + 1) = 2 * s + 1 := by unfold u32; omega
      have e2 : u32 (2 * s + 1 + 1) = 2 * s + 2 := by unfold u32; omega
      simp only [e1, e2, hi]
      apply ih
      · rw [Arr.set_other _ _ _ _ (by omega)]; exact hg
      · exact hs2.2
      · split_ifs <;> omega
      · split_ifs <;> omega
    · rw [if_neg hc, if_neg hc]
      exact ⟨arr, f, rfl, rfl, hf, hg⟩

/-- With a zero in the word behind the marker, a pass of the second loop inside
the array returns, stores inside it and computes what `heapsort_extract`
does. -/
theorem heapsort_extract_stores_done (len : Nat) (hl : len ≤ 2147483648) (arr : Arr)
    (i : Nat) (hi1 : 1 ≤ i) (hi2 : i < len) (hg : arr 4294967295 = 0) :
    ∃ arr1, heapsort_extract_stores len arr i = Checked.done arr1 ∧
      heapsort_extract arr i = some arr1 ∧ arr1 4294967295 = 0 := by
  have hg1 : (arr.set i (arr 0)) 4294967295 = 0 := by
    rw [Arr.set_other _ _ _ _ (by omega)]; exact hg
  obtain ⟨arr2, f, e1, e2, hf, hg2⟩ :=
    heapsort_down_stores_done len i (arr i) hl hi1 hi2 4294967296 (arr.set i (arr 0)) 0
      (if i > 2 ∧ (arr.set i (arr 0)) 2 > (arr.set i (arr 0)) 1 then 2
        else if 1 = i then 4294967295 else 1)
      hg1 (by omega) (by split_ifs <;> omega) (by omega)
  refine ⟨arr2.set f (arr i), ?_, ?_, ?_⟩
  · unfold heapsort_extract_stores
    rw [if_neg (by omega)]
    simp only []
    rw [e1]
    simp only []
    rw [if_neg (by omega)]
  · simp only [heapsort_extract, e2]
  · rw [Arr.set_other _ _ _ _ (by omega)]; exact hg2

/-- With a zero in the word behind the marker, the second loop started inside
the array returns, stores inside it and computes what `heapsort_sort` does. -/
theorem heapsort_sort_stores_done (len : Nat) (hl : len ≤ 2147483648) :
    ∀ (i : Nat) (arr : Arr), i < len → arr 4294967295 = 0 →
      ∃ arr1, heapsort_sort_stores len i arr = Checked.done arr1 ∧
        heapsort_sort i arr = some arr1 ∧ arr1 4294967295 = 0 := by
  intro i
  induction i with
  | zero => intro arr _ hg; exact ⟨arr, rfl, rfl, hg⟩
  | succ i ih =>
    intro arr hb hg
    obtain ⟨arr1, e1, e2, hg1⟩ :=
      heapsort_extract_stores_done len hl arr (i + 1) (by omega) hb hg
    obtain ⟨arr2, e3, e4, hg2⟩ := ih arr1 (by omega) hg1
    refine ⟨arr2, ?_, ?_, hg2⟩
    · unfold heapsort_sort_stores
      rw [e1]
      exact e3
    · unfold heapsort_sort
      rw [e2]
      exact e4

/-- With 1 to `len` entries to sort and a zero in the word behind the marker,
`heapsort` returns, every store it makes is inside the array, and the checked
run computes what `heapsort` does. -/
theorem heapsort_stores_done (len : Nat) (arr : Arr) (size : Nat) (hl : len ≤ 2147483648)
    (h1 : 1 ≤ size) (h2 : size ≤ len) (hg : arr 4294967295 = 0) :
    ∃ arr1, heapsort_stores len arr size = Checked.done arr1 ∧
      heapsort arr size = some arr1 ∧ arr1 4294967295 = 0 := by
  obtain ⟨arr1, e1, e2, hg1⟩ :=
    heapsort_build_stores_done len hl (size - 1) 1 arr (by omega)
  have hs : u32sub size 1 = size - 1 := by unfold u32sub; omega
  obtain ⟨arr2, e3, e4, hg2⟩ :=
    heapsort_sort_stores_done len hl (size - 1) arr1 (by omega) (by rw [hg1]; exact hg)
  refine ⟨arr2, ?_, ?_, hg2⟩
  · unfold heapsort_stores
    rw [e1, hs]
    exact e3
  · unfold heapsort
    rw [e2, hs]
    exact e4

/-- With no entry, or with more entries than the array has cells, `heapsort`
stores outside the array. -/
theorem heapsort_stores_fault (arr : Arr) :
    heapsort_stores ARR_LENGTH arr 0 = Checked.fault 4294967295 ∧
    (heapsort_stores ARR_LENGTH arr 0).isDone = false := by
  have hs : u32sub 0 1 = 4294967294 + 1 := by decide
  have e : heapsort_stores ARR_LENGTH arr 0 = Checked.fault 4294967295 := by
    unfold heapsort_stores
    simp only [Nat.zero_sub, heapsort_build_stores, hs]
    unfold heapsort_sort_stores heapsort_extract_stores
    rw [if_pos (by decide)]
  rw [e]
  exact ⟨rfl, rfl⟩

/-- With 1 to `ARR_LENGTH` active ids, at most `ARR_LENGTH` rows and a zero in
the word behind the marker, `calcFlush` stores inside the arrays. -/
theorem calcFlush_inside_of (s : State) (hn : s.NODE_COUNT ≤ ARR_LENGTH)
    (h1 : 1 ≤ s.ACTIVE_NODE_COUNT) (h2 : s.ACTIVE_NODE_COUNT ≤ ARR_LENGTH)
    (hg : s.ACTIVE_ID_NODE_ARR 4294967295 = 0) :
    calcFlush_inside s = true := by
  obtain ⟨a, e, _, _⟩ := heapsort_stores_done ARR_LENGTH s.ACTIVE_ID_NODE_ARR
    s.ACTIVE_NODE_COUNT (by decide) h1 h2 hg
  unfold calcFlush_inside
  rw [e]
  simp [Checked.isDone, hn]

/-- A run of `calcFlush` whose stores are inside the arrays sorts 1 to
`ARR_LENGTH` ids. -/
theorem calcFlush_inside_count (s : State) (h : calcFlush_inside s = true) :
    s.NODE_COUNT ≤ ARR_LENGTH ∧ s.ACTIVE_NODE_COUNT ≠ 0 := by
  unfold calcFlush_inside at h
  rw [Bool.and_eq_true] at h
  refine ⟨of_decide_eq_true h.1, ?_⟩
  intro h0
  rw [h0, (heapsort_stores_fault s.ACTIVE_ID_NODE_ARR).2] at h
  exact Bool.noConfusion h.2

/-- `log` leaves at most `ARR_LENGTH` rows in use. -/
theorem log_count_le (s : State) (ID TIME now : Nat) (hn : s.NODE_COUNT ≤ ARR_LENGTH) :
    (log s ID TIME now).state.NODE_COUNT ≤ ARR_LENGTH := by
  unfold log
  split
  · split_ifs <;> exact hn
  · by_cases hc : s.NODE_COUNT ≥ ARR_LENGTH
    · rw [if_pos hc]; exact hn
    · rw [if_neg hc]
      simp only [ARR_LENGTH] at hc hn ⊢
      show u32 (s.NODE_COUNT + 1) ≤ 32
      unfold u32
      omega

/-- A tick the spam self-safeguard lets pass returns. -/
theorem heartBeat_returned (s : State) (now : Nat) :
    (heartBeat s now).exit = Exit.returned := by
  unfold heartBeat
  split_ifs <;> rfl

/-- A run of the `for` of `heartBeat` that stores inside the arrays visits rows
of the arrays only. -/
theorem heartBeat_rows_inside_index :
    ∀ (n i0 : Nat) (s : State), heartBeat_rows_inside n i0 s = true →
      ∀ j, i0 ≤ j → j < i0 + n → j < ARR_LENGTH := by
  intro n
  induction n with
  | zero => intro i0 s _ j h1 h2; omega
  | succ n ih =>
    intro i0 s h j h1 h2
    unfold heartBeat_rows_inside at h
    rw [Bool.and_eq_true] at h
    obtain ⟨hrow, hrest⟩ := h
    by_cases hj : j = i0
    · unfold heartBeat_row_inside at hrow
      simp only [] at hrow
      rw [Bool.and_eq_true] at hrow
      rw [hj]
      exact of_decide_eq_true hrow.1
    · exact ih (i0 + 1) _ hrest j (by omega) (by omega)

/-! ## The claims -/

/-- C1.  When a first `log(ID, TIME)` returns a slot index (it neither reboots nor
returns `INVALID`), a second `log(ID, TIME)` right after it returns `INVALID`
without rebooting and leaves every global, the ping counts included, as the
first call left them. -/
theorem C1_log_twice_duplicate (s : State) (ID TIME now now2 : Nat)
    (h1 : (log s ID TIME now).rebooted = false)
    (h2 : (log s ID TIME now).ret ≠ INVALID) :
    (log (log s ID TIME now).state ID TIME now2).rebooted = false ∧
    (log (log s ID TIME now).state ID TIME now2).ret = INVALID ∧
    (log (log s ID TIME now).state ID TIME now2).state = (log s ID TIME now).state := by
  cases hf : log_find s.ID_NODE_ARR ID s.NODE_COUNT 0 with
  | some j =>
    by_cases ht : TIME = s.TS_NODE_ARR j
    · exfalso
      apply h2
      simp [log, hf, ht]
    · have e1 : (log s ID TIME now).state =
          { s with
            PC_NODE_ARR :=
              if s.PC_NODE_ARR j < 65535 then s.PC_NODE_ARR.set j (s.PC_NODE_ARR j + 1)
              else s.PC_NODE_ARR
            TS_NODE_ARR := s.TS_NODE_ARR.set j TIME
            TS_HOST_ARR := s.TS_HOST_ARR.set j now } := by
        simp [log, hf, ht]
      rw [e1]
      simp [log, hf, Arr.set_same]
  | none =>
    by_cases hc : s.NODE_COUNT ≥ ARR_LENGTH
    · simp [log, hf, hc] at h1
    · have hc2 : s.NODE_COUNT < 32 := by
        simp only [ARR_LENGTH] at hc; omega
      have e1 : (log s ID TIME now).state =
          { s with
            ID_NODE_ARR := s.ID_NODE_ARR.set s.NODE_COUNT ID
            TS_NODE_ARR := s.TS_NODE_ARR.set s.NODE_COUNT TIME
            TS_HOST_ARR := s.TS_HOST_ARR.set s.NODE_COUNT now
            PC_NODE_ARR := s.PC_NODE_ARR.set s.NODE_COUNT (u16 (s.PC_NODE_ARR s.NODE_COUNT + 1))
            NODE_COUNT := u32 (s.NODE_COUNT + 1) } := by
        simp [log, hf, hc]
      have hu : u32 (s.NODE_COUNT + 1) = s.NODE_COUNT + 1 := by
        unfold u32; omega
      have hfind : log_find (s.ID_NODE_ARR.set s.NODE_COUNT ID) ID (s.NODE_COUNT + 1) 0
          = some s.NODE_COUNT := by
        apply log_find_first
        · simp [Arr.set_same]
        · omega
        · omega
        · intro k _ hk
          rw [Arr.set_other _ _ _ _ (by omega)]
          exact log_find_none _ _ _ _ hf k (by omega) (by omega)
      rw [e1]
      simp [log, hu, hfind, Arr.set_same]

/-- Instance of C1: board 2 is logged twice with remote time 1000 on the freshly
set up table. -/
theorem C1_log_twice_duplicate_witness :
    (log bootState 2 1000 500).rebooted = false ∧
    (log bootState 2 1000 500).ret ≠ INVALID ∧
    (log (log bootState 2 1000 500).state 2 1000 600).rebooted = false ∧
    (log (log bootState 2 1000 500).state 2 1000 600).ret = INVALID ∧
    (log (log bootState 2 1000 500).state 2 1000 600).state = (log bootState 2 1000 500).state :=
  ⟨by decide, by decide,
    C1_log_twice_duplicate bootState 2 1000 500 600 (by decide) (by decide)⟩

/-- C2.  With all `ARR_LENGTH` rows in use and an id that none of them holds,
`log` ends in the reboot and has written nothing: the globals at the reboot
are the globals it was called with. -/
theorem C2_log_table_full (s : State) (ID TIME now : Nat)
    (hc : s.NODE_COUNT = ARR_LENGTH)
    (hid : ∀ i, i < ARR_LENGTH → s.ID_NODE_ARR i ≠ ID) :
    (log s ID TIME now).rebooted = true ∧ (log s ID TIME now).state = s := by
  have hf : log_find s.ID_NODE_ARR ID s.NODE_COUNT 0 = none := by
    apply log_find_absent
    intro k _ hk
    rw [hc] at hk
    exact fun h => hid k (by omega) h.symm
  unfold log
  rw [hf]
  simp [hc]

/-- Instance of C2: the id 100 is logged on the full table of ids 1..32. -/
theorem C2_log_table_full_witness :
    fullTable.NODE_COUNT = ARR_LENGTH ∧
    (∀ i, i < ARR_LENGTH → fullTable.ID_NODE_ARR i ≠ 100) ∧
    (log fullTable 100 7000 7100).rebooted = true ∧
    (log fullTable 100 7000 7100).state = fullTable :=
  ⟨by decide, by decide,
    C2_log_table_full fullTable 100 7000 7100 (by decide) (by decide)⟩

/-- C3.  A parsed Result whose version is below the local version is not
forwarded, and the handler stops (it returns, or reboots when the table is full
and the sender unknown) with the result, round and sequence columns, the local
version, the target accuracy and the current accuracy as they were. -/
theorem C3_stale_result_dropped (s : State) (p : R_PKT) (face now : Nat)
    (h : p.doa_ver < s.HOST_DOA_VER) :
    (r_handler s (some p) face now).exit ≠ Exit.stuck ∧
    (r_handler s (some p) face now).out = [] ∧
    (r_handler s (some p) face now).state.RESULT_NODE_ARR = s.RESULT_NODE_ARR ∧
    (r_handler s (some p) face now).state.ROUND_NODE_ARR = s.ROUND_NODE_ARR ∧
    (r_handler s (some p) face now).state.SEQ_NODE_ARR = s.SEQ_NODE_ARR ∧
    (r_handler s (some p) face now).state.HOST_DOA_VER = s.HOST_DOA_VER ∧
    (r_handler s (some p) face now).state.HOST_DOA = s.HOST_DOA ∧
    (r_handler s (some p) face now).state.HOST_CURRENT_DOA = s.HOST_CURRENT_DOA := by
  obtain ⟨f1, f2, f3, f4, f5, f6, _, _, _⟩ := log_frame s p.key.ID p.key.TIME now
  have h4 : p.doa_ver < (log s p.key.ID p.key.TIME now).state.HOST_DOA_VER := by
    rw [f4]; exact h
  unfold r_handler
  simp only []
  split_ifs <;> simp [f1, f2, f3, f4, f5, f6]

/-- Instance of C3: a Result of version 1 reaches a board at version 2. -/
theorem C3_stale_result_dropped_witness :
    (⟨⟨2, 3000⟩, 1, 1, 95, 0, 700⟩ : R_PKT).doa_ver < staleState.HOST_DOA_VER ∧
    (r_handler staleState (some ⟨⟨2, 3000⟩, 1, 1, 95, 0, 700⟩) 1 2900).exit ≠ Exit.stuck ∧
    (r_handler staleState (some ⟨⟨2, 3000⟩, 1, 1, 95, 0, 700⟩) 1 2900).out = [] ∧
    (r_handler staleState (some ⟨⟨2, 3000⟩, 1, 1, 95, 0, 700⟩) 1 2900).state.RESULT_NODE_ARR
      = staleState.RESULT_NODE_ARR ∧
    (r_handler staleState (some ⟨⟨2, 3000⟩, 1, 1, 95, 0, 700⟩) 1 2900).state.ROUND_NODE_ARR
      = staleState.ROUND_NODE_ARR ∧
    (r_handler staleState (some ⟨⟨2, 3000⟩, 1, 1, 95, 0, 700⟩) 1 2900).state.SEQ_NODE_ARR
      = staleState.SEQ_NODE_ARR ∧
    (r_handler staleState (some ⟨⟨2, 3000⟩, 1, 1, 95, 0, 700⟩) 1 2900).state.HOST_DOA_VER
      = staleState.HOST_DOA_VER ∧
    (r_handler staleState (some ⟨⟨2, 3000⟩, 1, 1, 95, 0, 700⟩) 1 2900).state.HOST_DOA
      = staleState.HOST_DOA ∧
    (r_handler staleState (some ⟨⟨2, 3000⟩, 1, 1, 95, 0, 700⟩) 1 2900).state.HOST_CURRENT_DOA
      = staleState.HOST_CURRENT_DOA :=
  ⟨by decide!,
    C3_stale_result_dropped staleState ⟨⟨2, 3000⟩, 1, 1, 95, 0, 700⟩ 1 2900 (by decide!)⟩

/-- C4.  A parsed Result with round 0 that passes the duplicate, spam, stale
and saturation tests is printed by `FWD_R_PKT` (once on each face 0..3 other
than the terminal face and the arrival face), the handler returns, and the
result, round and sequence columns are exactly as before, whatever the
version of the packet. -/
theorem C4_round_zero_forwarded_not_written (s : State) (p : R_PKT) (face now : Nat)
    (h0 : p.round = 0)
    (hboot : (log s p.key.ID p.key.TIME now).rebooted = false)
    (hdup : (log s p.key.ID p.key.TIME now).ret ≠ INVALID)
    (hspam : ¬ ((log s p.key.ID p.key.TIME now).state.PC_NODE_ARR
        (log s p.key.ID p.key.TIME now).ret > p.key.TIME / 1000))
    (hstale : ¬ (p.doa_ver < s.HOST_DOA_VER))
    (hsat : p.doa_ver ≠ 4294967295) :
    (r_handler s (some p) face now).exit = Exit.returned ∧
    (r_handler s (some p) face now).out = FWD_R_PKT s p face ∧
    (∀ e, e ∈ (r_handler s (some p) face now).out ↔
      e.pkt = p ∧ e.face < 4 ∧ e.face ≠ s.TERMINAL_FACE ∧ e.face ≠ face) ∧
    (r_handler s (some p) face now).state.RESULT_NODE_ARR = s.RESULT_NODE_ARR ∧
    (r_handler s (some p) face now).state.ROUND_NODE_ARR = s.ROUND_NODE_ARR ∧
    (r_handler s (some p) face now).state.SEQ_NODE_ARR = s.SEQ_NODE_ARR := by
  obtain ⟨f1, f2, f3, f4, _, _, f7, _, _⟩ := log_frame s p.key.ID p.key.TIME now
  have hstale2 : ¬ (p.doa_ver < (log s p.key.ID p.key.TIME now).state.HOST_DOA_VER) := by
    rw [f4]; exact hstale
  have hfwd : FWD_R_PKT (log s p.key.ID p.key.TIME now).state p face = FWD_R_PKT s p face := by
    simp [FWD_R_PKT, f7]
  have e : r_handler s (some p) face now =
      ⟨Exit.returned, (log s p.key.ID p.key.TIME now).state, FWD_R_PKT s p face⟩ := by
    unfold r_handler
    simp only [hboot, Bool.false_eq_true, if_false, hspam, hstale2, h0, if_true, hfwd]
    rw [if_neg (fun h => hdup h.symm), if_neg (fun h => hsat h.symm)]
  rw [e]
  exact ⟨rfl, rfl, fun e => FWD_R_PKT_mem s p face e, f1, f2, f3⟩

/-- Instance of C4: a first Result of board 2, with round 0 and version 7,
reaches the freshly set up board on face 1. -/
theorem C4_round_zero_forwarded_not_written_witness :
    (⟨⟨2, 1000⟩, 7, 0, 95, 0, 0⟩ : R_PKT).round = 0 ∧
    (log bootState 2 1000 500).rebooted = false ∧
    (log bootState 2 1000 500).ret ≠ INVALID ∧
    ¬ ((log bootState 2 1000 500).state.PC_NODE_ARR (log bootState 2 1000 500).ret
        > 1000 / 1000) ∧
    ¬ ((⟨⟨2, 1000⟩, 7, 0, 95, 0, 0⟩ : R_PKT).doa_ver < bootState.HOST_DOA_VER) ∧
    (⟨⟨2, 1000⟩, 7, 0, 95, 0, 0⟩ : R_PKT).doa_ver ≠ 4294967295 ∧
    (r_handler bootState (some ⟨⟨2, 1000⟩, 7, 0, 95, 0, 0⟩) 1 500).exit = Exit.returned ∧
    (r_handler bootState (some ⟨⟨2, 1000⟩, 7, 0, 95, 0, 0⟩) 1 500).out
      = FWD_R_PKT bootState ⟨⟨2, 1000⟩, 7, 0, 95, 0, 0⟩ 1 ∧
    (∀ e, e ∈ (r_handler bootState (some ⟨⟨2, 1000⟩, 7, 0, 95, 0, 0⟩) 1 500).out ↔
      e.pkt = ⟨⟨2, 1000⟩, 7, 0, 95, 0, 0⟩ ∧ e.face < 4 ∧ e.face ≠ bootState.TERMINAL_FACE ∧
        e.face ≠ 1) ∧
    (r_handler bootState (some ⟨⟨2, 1000⟩, 7, 0, 95, 0, 0⟩) 1 500).state.RESULT_NODE_ARR
      = bootState.RESULT_NODE_ARR ∧
    (r_handler bootState (some ⟨⟨2, 1000⟩, 7, 0, 95, 0, 0⟩) 1 500).state.ROUND_NODE_ARR
      = bootState.ROUND_NODE_ARR ∧
    (r_handler bootState (some ⟨⟨2, 1000⟩, 7, 0, 95, 0, 0⟩) 1 500).state.SEQ_NODE_ARR
      = bootState.SEQ_NODE_ARR :=
  ⟨by decide, by decide, by decide, by decide, by decide, by decide,
    C4_round_zero_forwarded_not_written bootState ⟨⟨2, 1000⟩, 7, 0, 95, 0, 0⟩ 1 500
      (by decide) (by decide) (by decide) (by decide) (by decide) (by decide)⟩

/-- C5.  A Distribute after the tick at which board 2 left: the reset sorts an
active set of one id (board 3), so the local row keeps sequence 1 and the row
of board 3 gets sequence 1 as well; both rows are flagged active.  A
Distribute after the tick at which board 2 joined: the reset sorts three cells
for two active rows, and the rows get the sequences 2 and 3. -/
theorem C5_sequences_after_reset :
    (runEvents bootState (leaveTrace ++ [Event.distribute (some ⟨95, 0⟩) 0 6500])).exit
      = Exit.returned ∧
    (List.range 3).map
      (runEvents bootState (leaveTrace ++ [Event.distribute (some ⟨95, 0⟩) 0 6500])).state.ACTIVE_NODE_ARR
      = [CH_A, CH_I, CH_A] ∧
    (List.range 3).map
      (runEvents bootState (leaveTrace ++ [Event.distribute (some ⟨95, 0⟩) 0 6500])).state.SEQ_NODE_ARR
      = [1, 0, 1] ∧
    (runEvents bootState (joinTrace ++ [Event.distribute (some ⟨95, 0⟩) 0 1500])).exit
      = Exit.returned ∧
    activeRowCount
      (runEvents bootState (joinTrace ++ [Event.distribute (some ⟨95, 0⟩) 0 1500])).state = 2 ∧
    (List.range 2).map
      (runEvents bootState (joinTrace ++ [Event.distribute (some ⟨95, 0⟩) 0 1500])).state.SEQ_NODE_ARR
      = [2, 3] := by
  decide!

/-- C7 (amended).  With a sortable active set (at most `ARR_LENGTH` rows in use,
`ACTIVE_NODE_COUNT` between 1 and `ARR_LENGTH`, and a zero in the word the
sorter reads through its "no child" marker), `calcFlush` returns, stores
inside the arrays and leaves result 0 and round 0 in every row 1..31, while
the local row 0 keeps the result and round it had.  Hence, when a Result with
a newer version and a round other than 0 passes the duplicate, spam and
saturation tests, `r_handler` returns, stores inside the arrays, and no row
1..31 other than the sender's holds a result or a round; row 0, when it is
not the sender's, holds what it held. -/
theorem C7_full_reset_keeps_local_row (s : State) (now : Nat)
    (hn : s.NODE_COUNT ≤ ARR_LENGTH)
    (h1 : 1 ≤ s.ACTIVE_NODE_COUNT) (h2 : s.ACTIVE_NODE_COUNT ≤ ARR_LENGTH)
    (hg : s.ACTIVE_ID_NODE_ARR 4294967295 = 0) :
    calcFlush_inside s = true ∧
    (∃ t, calcFlush s now = some t ∧
      (∀ i, 1 ≤ i → i < ARR_LENGTH → t.RESULT_NODE_ARR i = 0 ∧ t.ROUND_NODE_ARR i = 0) ∧
      t.RESULT_NODE_ARR 0 = s.RESULT_NODE_ARR 0 ∧ t.ROUND_NODE_ARR 0 = s.ROUND_NODE_ARR 0) ∧
    (∀ (p : R_PKT) (face : Nat),
      (log s p.key.ID p.key.TIME now).rebooted = false →
      (log s p.key.ID p.key.TIME now).ret ≠ INVALID →
      ¬ ((log s p.key.ID p.key.TIME now).state.PC_NODE_ARR
          (log s p.key.ID p.key.TIME now).ret > p.key.TIME / 1000) →
      p.doa_ver > s.HOST_DOA_VER → p.doa_ver ≠ 4294967295 → p.round ≠ 0 →
      r_handler_inside s (some p) now = true ∧
      (r_handler s (some p) face now).exit = Exit.returned ∧
      (∀ i, 1 ≤ i → i < ARR_LENGTH → i ≠ (log s p.key.ID p.key.TIME now).ret →
        (r_handler s (some p) face now).state.RESULT_NODE_ARR i = 0 ∧
        (r_handler s (some p) face now).state.ROUND_NODE_ARR i = 0) ∧
      ((log s p.key.ID p.key.TIME now).ret ≠ 0 →
        (r_handler s (some p) face now).state.RESULT_NODE_ARR 0 = s.RESULT_NODE_ARR 0 ∧
        (r_handler s (some p) face now).state.ROUND_NODE_ARR 0 = s.ROUND_NODE_ARR 0)) := by
  have h3 : s.ACTIVE_NODE_COUNT ≤ 2147483648 := by
    simp only [ARR_LENGTH] at h2; omega
  refine ⟨calcFlush_inside_of s hn h1 h2 hg, ?_, ?_⟩
  · obtain ⟨act, seq, _, e⟩ := calcFlush_returns s now h1 h3 hg
    refine ⟨_, e, ?_, ?_, ?_⟩
    · intro i hi1 hi2
      exact ⟨clearRows_row _ i hi1 hi2, clearRows_row _ i hi1 hi2⟩
    · exact clearRows_zero _
    · exact clearRows_zero _
  · intro p face hboot hdup hspam hnew hsat hround
    obtain ⟨f1, f2, _, f4, _, _, _, f8, f9⟩ := log_frame s p.key.ID p.key.TIME now
    obtain ⟨act, seq, _, e⟩ := calcFlush_returns (log s p.key.ID p.key.TIME now).state now
      (by rw [f9]; exact h1) (by rw [f9]; exact h3) (by rw [f8]; exact hg)
    have hin : r_handler_inside s (some p) now = true := by
      have hcf : calcFlush_inside (log s p.key.ID p.key.TIME now).state = true :=
        calcFlush_inside_of _ (log_count_le s _ _ _ hn)
          (by rw [f9]; exact h1) (by rw [f9]; exact h2) (by rw [f8]; exact hg)
      have hnew3 : p.doa_ver > (log s p.key.ID p.key.TIME now).state.HOST_DOA_VER := by
        rw [f4]; exact hnew
      unfold r_handler_inside
      simp only [hboot, Bool.false_eq_true, if_false, hspam, hnew3, if_true, hcf]
      rw [if_neg (fun h => hdup h.symm), if_neg (by omega), if_neg (fun h => hsat h.symm),
        if_neg (fun h => hround h.symm)]
      simp [hn]
    have hnew2 : p.doa_ver > (log s p.key.ID p.key.TIME now).state.HOST_DOA_VER := by
      rw [f4]; exact hnew
    have hstale : ¬ (p.doa_ver < (log s p.key.ID p.key.TIME now).state.HOST_DOA_VER) := by
      omega
    unfold r_handler
    simp only [hboot, Bool.false_eq_true, if_false, hspam, hstale, hnew2, if_true, e]
    rw [if_neg (fun h => hdup h.symm), if_neg (fun h => hsat h.symm),
      if_neg (fun h => hround h.symm)]
    split_ifs with hswap
    · refine ⟨hin, rfl, ?_, ?_⟩
      · intro i hi1 hi2 _
        exact ⟨by simp only [f1]; exact clearRows_row _ i hi1 hi2,
          by simp only [f2]; exact clearRows_row _ i hi1 hi2⟩
      · intro _
        exact ⟨by simp only [f1]; exact clearRows_zero _,
          by simp only [f2]; exact clearRows_zero _⟩
    · refine ⟨hin, rfl, ?_, ?_⟩
      · intro i hi1 hi2 hne
        simp only []
        rw [(updateResult_other _ _ _ _ i hne).1, (updateResult_other _ _ _ _ i hne).2]
        exact ⟨by simp only [f1]; exact clearRows_row _ i hi1 hi2,
          by simp only [f2]; exact clearRows_row _ i hi1 hi2⟩
      · intro hne
        simp only []
        rw [(updateResult_other _ _ _ _ 0 (fun h => hne h.symm)).1,
          (updateResult_other _ _ _ _ 0 (fun h => hne h.symm)).2]
        exact ⟨by simp only [f1]; exact clearRows_zero _,
          by simp only [f2]; exact clearRows_zero _⟩

/-- Instance of C7 (amended): the reset of a board that has published 750, and the
Result of board 2 with version 5 reaching that board. -/
theorem C7_full_reset_keeps_local_row_witness :
    soloRound.NODE_COUNT ≤ ARR_LENGTH ∧
    1 ≤ soloRound.ACTIVE_NODE_COUNT ∧ soloRound.ACTIVE_NODE_COUNT ≤ ARR_LENGTH ∧
    soloRound.ACTIVE_ID_NODE_ARR 4294967295 = 0 ∧
    calcFlush_inside soloRound = true ∧
    (∃ t, calcFlush soloRound 5000 = some t ∧
      (∀ i, 1 ≤ i → i < ARR_LENGTH → t.RESULT_NODE_ARR i = 0 ∧ t.ROUND_NODE_ARR i = 0) ∧
      t.RESULT_NODE_ARR 0 = soloRound.RESULT_NODE_ARR 0 ∧
      t.ROUND_NODE_ARR 0 = soloRound.ROUND_NODE_ARR 0) ∧
    r_handler_inside soloRound (some ⟨⟨2, 6000⟩, 5, 1, 99, 0, 800⟩) 5000 = true ∧
    (r_handler soloRound (some ⟨⟨2, 6000⟩, 5, 1, 99, 0, 800⟩) 1 5000).exit = Exit.returned ∧
    (∀ i, 1 ≤ i → i < ARR_LENGTH → i ≠ (log soloRound 2 6000 5000).ret →
      (r_handler soloRound (some ⟨⟨2, 6000⟩, 5, 1, 99, 0, 800⟩) 1 5000).state.RESULT_NODE_ARR i = 0 ∧
      (r_handler soloRound (some ⟨⟨2, 6000⟩, 5, 1, 99, 0, 800⟩) 1 5000).state.ROUND_NODE_ARR i = 0) ∧
    ((log soloRound 2 6000 5000).ret ≠ 0 →
      (r_handler soloRound (some ⟨⟨2, 6000⟩, 5, 1, 99, 0, 800⟩) 1 5000).state.RESULT_NODE_ARR 0
        = soloRound.RESULT_NODE_ARR 0 ∧
      (r_handler soloRound (some ⟨⟨2, 6000⟩, 5, 1, 99, 0, 800⟩) 1 5000).state.ROUND_NODE_ARR 0
        = soloRound.ROUND_NODE_ARR 0) :=
  (fun h => ⟨by decide!, by decide!, by decide!, by decide!, h.1, h.2.1,
      h.2.2 ⟨⟨2, 6000⟩, 5, 1, 99, 0, 800⟩ 1
        (by decide!) (by decide!) (by decide!) (by decide!) (by decide!) (by decide!)⟩)
    (C7_full_reset_keeps_local_row soloRound 5000
      (by decide!) (by decide!) (by decide!) (by decide!))

/-- C7, as stated, fails: the reset of a board whose row 0 holds result 750 for
round 1 leaves both in place, and after the Result of board 2 (version 5,
result 800) has been admitted, row 0 and row 1 both hold a result. -/
theorem C7_reset_leaves_local_result :
    (calcFlush soloRound 5000).map (fun t => (t.RESULT_NODE_ARR 0, t.ROUND_NODE_ARR 0))
      = some (750, 1) ∧
    (r_handler soloRound (some ⟨⟨2, 6000⟩, 5, 1, 99, 0, 800⟩) 1 5000).exit = Exit.returned ∧
    (r_handler soloRound (some ⟨⟨2, 6000⟩, 5, 1, 99, 0, 800⟩) 1 5000).state.HOST_DOA_VER = 5 ∧
    (List.range 2).map
      (r_handler soloRound (some ⟨⟨2, 6000⟩, 5, 1, 99, 0, 800⟩) 1 5000).state.RESULT_NODE_ARR
      = [750, 800] := by
  decide!

/-- C8.  At the tick at which board 2 joins, two rows are flagged active and
`ACTIVE_NODE_COUNT` is 3: the joining row is counted at line 869 and again at
line 875, so the set handed to the sorter holds a cell that no row filled.
At the tick at which board 2 leaves, `ACTIVE_NODE_COUNT` is 1 with two rows
flagged active, and the only id in the set is board 3: the local id is gone. -/
theorem C8_heartBeat_active_set_miscounted :
    (runEvents bootState joinTrace).exit = Exit.returned ∧
    activeRowCount (runEvents bootState joinTrace).state = 2 ∧
    (runEvents bootState joinTrace).state.ACTIVE_NODE_COUNT = 3 ∧
    (List.range 3).map (runEvents bootState joinTrace).state.ACTIVE_ID_NODE_ARR = [1, 2, 0] ∧
    (runEvents bootState leaveTrace).exit = Exit.returned ∧
    activeRowCount (runEvents bootState leaveTrace).state = 2 ∧
    (List.range 3).map (runEvents bootState leaveTrace).state.ACTIVE_NODE_ARR
      = [CH_A, CH_I, CH_A] ∧
    (runEvents bootState leaveTrace).state.ACTIVE_NODE_COUNT = 1 ∧
    (runEvents bootState leaveTrace).state.ACTIVE_ID_NODE_ARR 0 = 3 ∧
    (runEvents bootState leaveTrace).state.ID_NODE_ARR 0 = 1 := by
  decide!

/-- C9.  The Distribute `d101.0`, arriving after the first heartbeat, is not
forwarded, but before the range test `d_handler` has run `calcFlush`, stored
the pieces 101 and 0, set the target accuracy to 101 and incremented the
version: the round counter, the version and the target all differ from what
they were. -/
theorem C9_rejected_distribute_has_side_effects :
    (runEvents bootState [Event.beat 1000]).state.HOST_DOA_VER = 0 ∧
    (runEvents bootState [Event.beat 1000]).state.HOST_ROUND = 0 ∧
    (runEvents bootState [Event.beat 1000]).state.HOST_DOA = 0 ∧
    (d_handler (runEvents bootState [Event.beat 1000]).state (some ⟨101, 0⟩) 0 1500).exit
      = Exit.returned ∧
    (d_handler (runEvents bootState [Event.beat 1000]).state (some ⟨101, 0⟩) 0 1500).out = [] ∧
    (d_handler (runEvents bootState [Event.beat 1000]).state (some ⟨101, 0⟩) 0 1500).state.HOST_DOA_VER
      = 1 ∧
    (d_handler (runEvents bootState [Event.beat 1000]).state (some ⟨101, 0⟩) 0 1500).state.HOST_ROUND
      = 1 ∧
    (d_handler (runEvents bootState [Event.beat 1000]).state (some ⟨101, 0⟩) 0 1500).state.HOST_DOA_1
      = 101 ∧
    (d_handler (runEvents bootState [Event.beat 1000]).state (some ⟨101, 0⟩) 0 1500).state.HOST_DOA
      = 101 := by
  decide!

/-- C10 (amended).  With a sortable active set (at most `ARR_LENGTH` rows in
use, `ACTIVE_NODE_COUNT` between 1 and `ARR_LENGTH`, and a zero in the word the
sorter reads through its "no child" marker), a local version `v` with
`v + 2` still a 32-bit value and a Distribute whose target lies in
`[0, DOA_THRESHOLD]`, `d_handler` stores inside the arrays and returns with
the local version `v + 2`: it
is incremented once before the range test and once more when the Result is
built.  The Result it prints, on every face 0..3 but the terminal face and the
arrival face, carries that new version, the two accuracy pieces of the
Distribute, round 1 (the round counter after the reset) and result 0. -/
theorem C10_distribute_raises_version_by_two (s : State) (p : D_PKT) (face now : Nat)
    (hn : s.NODE_COUNT ≤ ARR_LENGTH)
    (h1 : 1 ≤ s.ACTIVE_NODE_COUNT) (h2 : s.ACTIVE_NODE_COUNT ≤ ARR_LENGTH)
    (hg : s.ACTIVE_ID_NODE_ARR 4294967295 = 0)
    (hv : s.HOST_DOA_VER + 2 < 4294967296)
    (hlo : 0 ≤ doaConvert p.doa1 p.doa2) (hhi : doaConvert p.doa1 p.doa2 ≤ DOA_THRESHOLD) :
    d_handler_inside s (some p) = true ∧
    (d_handler s (some p) face now).exit = Exit.returned ∧
    (d_handler s (some p) face now).state.HOST_DOA_VER = s.HOST_DOA_VER + 2 ∧
    (d_handler s (some p) face now).state.HOST_ROUND = 1 ∧
    (d_handler s (some p) face now).out =
      FWD_R_PKT s
        { key := ⟨s.ID_NODE_ARR 0, now⟩
          doa_ver := s.HOST_DOA_VER + 2
          round := 1
          doa1 := p.doa1
          doa2 := p.doa2
          result := 0 } face := by
  have h3 : s.ACTIVE_NODE_COUNT ≤ 2147483648 := by
    simp only [ARR_LENGTH] at h2; omega
  obtain ⟨act, seq, _, e⟩ := calcFlush_returns s now h1 h3 hg
  have hu : u32 (u32 (s.HOST_DOA_VER + 1) + 1) = s.HOST_DOA_VER + 2 := by
    unfold u32; omega
  refine ⟨calcFlush_inside_of s hn h1 h2 hg, ?_⟩
  unfold d_handler
  simp only [e]
  rw [if_neg (not_lt.mpr hlo), if_neg (not_lt.mpr hhi)]
  simp [hu, FWD_R_PKT]

/-- Instance of C10 (amended): `d95.0` reaches a board at version 0 on face 0. -/
theorem C10_distribute_raises_version_by_two_witness :
    firstBeat.NODE_COUNT ≤ ARR_LENGTH ∧
    1 ≤ firstBeat.ACTIVE_NODE_COUNT ∧ firstBeat.ACTIVE_NODE_COUNT ≤ ARR_LENGTH ∧
    firstBeat.ACTIVE_ID_NODE_ARR 4294967295 = 0 ∧
    firstBeat.HOST_DOA_VER + 2 < 4294967296 ∧
    0 ≤ doaConvert 95 0 ∧ doaConvert 95 0 ≤ DOA_THRESHOLD ∧
    d_handler_inside firstBeat (some ⟨95, 0⟩) = true ∧
    (d_handler firstBeat (some ⟨95, 0⟩) 0 1500).exit = Exit.returned ∧
    (d_handler firstBeat (some ⟨95, 0⟩) 0 1500).state.HOST_DOA_VER
      = firstBeat.HOST_DOA_VER + 2 ∧
    (d_handler firstBeat (some ⟨95, 0⟩) 0 1500).state.HOST_ROUND = 1 ∧
    (d_handler firstBeat (some ⟨95, 0⟩) 0 1500).out =
      FWD_R_PKT firstBeat
        { key := ⟨firstBeat.ID_NODE_ARR 0, 1500⟩
          doa_ver := firstBeat.HOST_DOA_VER + 2
          round := 1
          doa1 := 95
          doa2 := 0
          result := 0 } 0 :=
  ⟨by decide!, by decide!, by decide!, by decide!, by decide!, by decide!, by decide!,
    C10_distribute_raises_version_by_two firstBeat ⟨95, 0⟩ 0 1500
      (by decide!) (by decide!) (by decide!) (by decide!) (by decide!) (by decide!)
      (by decide!)⟩

/-- C10, as stated, fails: the board is at version 0 when `d95.0` arrives, and
afterwards its version is 2, which is also the version in the three Results
it prints. -/
theorem C10_version_after_distribute_is_not_successor :
    firstBeat.HOST_DOA_VER = 0 ∧
    0 ≤ doaConvert 95 0 ∧ doaConvert 95 0 ≤ DOA_THRESHOLD ∧
    (d_handler firstBeat (some ⟨95, 0⟩) 0 1500).state.HOST_DOA_VER = 2 ∧
    (d_handler firstBeat (some ⟨95, 0⟩) 0 1500).state.HOST_DOA_VER ≠ firstBeat.HOST_DOA_VER + 1 ∧
    (d_handler firstBeat (some ⟨95, 0⟩) 0 1500).out.map (fun e => (e.face, e.pkt.doa_ver))
      = [(1, 2), (2, 2), (3, 2)] := by
  decide!

/-- C11.  The board has published round 2 (`ROUND_NODE_ARR[0]` is 2, the version
is 2) when board 2 reports round 1 under version 5.  The handler returns after
the reset without adopting anything: the version is still 2 and the row of
board 2 holds no result, because the `u32` difference `1 - 2` that `fabs`
receives is `0xffffffff`. -/
theorem C11_round_one_behind_is_ignored :
    (runEvents bootState soloSecondTrace).exit = Exit.returned ∧
    soloSecondRound.HOST_DOA_VER = 2 ∧
    soloSecondRound.ROUND_NODE_ARR 0 = 2 ∧
    (log soloSecondRound 2 6000 2900).rebooted = false ∧
    (log soloSecondRound 2 6000 2900).ret = 1 ∧
    ¬ ((log soloSecondRound 2 6000 2900).state.PC_NODE_ARR 1 > 6000 / 1000) ∧
    (r_handler soloSecondRound (some ⟨⟨2, 6000⟩, 5, 1, 99, 0, 800⟩) 1 2900).exit
      = Exit.returned ∧
    (r_handler soloSecondRound (some ⟨⟨2, 6000⟩, 5, 1, 99, 0, 800⟩) 1 2900).state.HOST_ROUND
      = 1 ∧
    (r_handler soloSecondRound (some ⟨⟨2, 6000⟩, 5, 1, 99, 0, 800⟩) 1 2900).state.ROUND_NODE_ARR 0
      = 2 ∧
    u32sub 1 2 = 4294967295 ∧
    (r_handler soloSecondRound (some ⟨⟨2, 6000⟩, 5, 1, 99, 0, 800⟩) 1 2900).state.HOST_DOA_VER
      = 2 ∧
    (r_handler soloSecondRound (some ⟨⟨2, 6000⟩, 5, 1, 99, 0, 800⟩) 1 2900).state.RESULT_NODE_ARR 1
      = 0 := by
  decide!

/-- C12.  When the two preconditions of `compileResults` hold and one of the
first `NODE_COUNT` rows is sequenced without a result, `compileResults` only
resets its scratch sum `RESULT_COMPILED`: the cumulative count, the estimate,
the current accuracy, the round counter, the sampler counters and every
column of the node table are as before. -/
theorem C12_incomplete_round_changes_nothing (s : State) (now : Nat)
    (hacc : s.HOST_CURRENT_DOA.ge s.HOST_DOA = false)
    (hround : s.ROUND_NODE_ARR 0 ≠ 0)
    (hrow : ∃ i, i < s.NODE_COUNT ∧ s.SEQ_NODE_ARR i > 0 ∧ s.RESULT_NODE_ARR i = 0) :
    compileResults s now = { s with RESULT_COMPILED := 0 } ∧
    (compileResults s now).TOTAL_CIRCLE_COUNT = s.TOTAL_CIRCLE_COUNT ∧
    (compileResults s now).CALC_PI = s.CALC_PI ∧
    (compileResults s now).HOST_CURRENT_DOA = s.HOST_CURRENT_DOA ∧
    (compileResults s now).HOST_ROUND = s.HOST_ROUND ∧
    (compileResults s now).POINTS_GEN = s.POINTS_GEN ∧
    (compileResults s now).HOST_RESULT = s.HOST_RESULT ∧
    (compileResults s now).NODE_COUNT = s.NODE_COUNT ∧
    (compileResults s now).ID_NODE_ARR = s.ID_NODE_ARR ∧
    (compileResults s now).ACTIVE_NODE_ARR = s.ACTIVE_NODE_ARR ∧
    (compileResults s now).TS_HOST_ARR = s.TS_HOST_ARR ∧
    (compileResults s now).TS_NODE_ARR = s.TS_NODE_ARR ∧
    (compileResults s now).SEQ_NODE_ARR = s.SEQ_NODE_ARR ∧
    (compileResults s now).PC_NODE_ARR = s.PC_NODE_ARR ∧
    (compileResults s now).ROUND_NODE_ARR = s.ROUND_NODE_ARR ∧
    (compileResults s now).RESULT_NODE_ARR = s.RESULT_NODE_ARR := by
  have hl : compileResults_loop s.SEQ_NODE_ARR s.RESULT_NODE_ARR s.NODE_COUNT 0 0 = none := by
    obtain ⟨i, h1, h2, h3⟩ := hrow
    exact compileResults_loop_incomplete _ _ _ _ _ ⟨i, by omega, by omega, h2, h3⟩
  have e : compileResults s now = { s with RESULT_COMPILED := 0 } := by
    unfold compileResults
    rw [if_neg (by rw [hacc]; exact Bool.false_ne_true), if_neg (fun h => hround h.symm), hl]
  rw [e]
  exact ⟨rfl, rfl, rfl, rfl, rfl, rfl, rfl, rfl, rfl, rfl, rfl, rfl, rfl, rfl, rfl, rfl⟩

/-- Instance of C12: the two boards of `duoRound` after the first compile, when
the row of board 2 has been cleared and board 2 has not reported again. -/
theorem C12_incomplete_round_changes_nothing_witness :
    (compileResults duoRound 3000).HOST_CURRENT_DOA.ge (compileResults duoRound 3000).HOST_DOA
      = false ∧
    (compileResults duoRound 3000).ROUND_NODE_ARR 0 ≠ 0 ∧
    (∃ i, i < (compileResults duoRound 3000).NODE_COUNT ∧
      (compileResults duoRound 3000).SEQ_NODE_ARR i > 0 ∧
      (compileResults duoRound 3000).RESULT_NODE_ARR i = 0) ∧
    (compileResults (compileResults duoRound 3000) 4000).TOTAL_CIRCLE_COUNT
      = (compileResults duoRound 3000).TOTAL_CIRCLE_COUNT ∧
    (compileResults (compileResults duoRound 3000) 4000).CALC_PI
      = (compileResults duoRound 3000).CALC_PI :=
  (fun h => ⟨by decide!, by decide!, ⟨1, by decide!, by decide!, by decide!⟩, h.2.1, h.2.2.1⟩)
    (C12_incomplete_round_changes_nothing (compileResults duoRound 3000) 4000
      (by decide!) (by decide!) ⟨1, by decide!, by decide!, by decide!⟩)

/-- C13.  The divisor of the estimate is the `u32` product
`ACTIVE_NODE_COUNT * ROUND_NODE_ARR[0] * MAX_POINTS_GEN`, which wraps.  With
one active board and round `2^29` in row 0 the product `2^29 * 1000` is 0
modulo `2^32`: both preconditions of `compileResults` hold and the only
sequenced row has a result, the cumulative count becomes 750, and the
estimate is `4.0 * (750 / 0)`, infinite, where the quotient of the claim is
`4 * 750 / 536870912000`; the accuracy derived from it is minus infinity.
With round 4294968 in row 0 the divisor is 704 instead of 4294968000. -/
theorem C13_divisor_wraps_to_zero :
    (runEvents soloRound
      [Event.result (some ⟨⟨1, 9000⟩, 2, 536870912, 99, 0, 750⟩) 1 1800]).exit
      = Exit.returned ∧
    zeroDivisorRound.HOST_CURRENT_DOA.ge zeroDivisorRound.HOST_DOA = false ∧
    zeroDivisorRound.ACTIVE_NODE_COUNT = 1 ∧
    zeroDivisorRound.ROUND_NODE_ARR 0 = 536870912 ∧
    (∀ i, i < zeroDivisorRound.NODE_COUNT → zeroDivisorRound.SEQ_NODE_ARR i > 0 →
      zeroDivisorRound.RESULT_NODE_ARR i ≠ 0) ∧
    zeroDivisorRound.ACTIVE_NODE_COUNT * zeroDivisorRound.ROUND_NODE_ARR 0 * MAX_POINTS_GEN
      = 536870912000 ∧
    u32 (u32 (zeroDivisorRound.ACTIVE_NODE_COUNT * zeroDivisorRound.ROUND_NODE_ARR 0)
      * MAX_POINTS_GEN) = 0 ∧
    (compileResults zeroDivisorRound 2000).TOTAL_CIRCLE_COUNT = 750 ∧
    (compileResults zeroDivisorRound 2000).CALC_PI = Val.posInf ∧
    (compileResults zeroDivisorRound 2000).HOST_CURRENT_DOA = Val.negInf ∧
    wideRound.ACTIVE_NODE_COUNT = 1 ∧
    wideRound.ROUND_NODE_ARR 0 = 4294968 ∧
    u32 (u32 (wideRound.ACTIVE_NODE_COUNT * wideRound.ROUND_NODE_ARR 0) * MAX_POINTS_GEN)
      = 704 := by
  decide!

/-- C14 (amended).  When `compileResults` completes a round (both preconditions
hold and every sequenced row among the first `NODE_COUNT` has a result) and
the new accuracy is still below the target, the round-only reset has cleared
the result of the rows 1..31 and nothing else in the table: row 0 keeps its
result and every row keeps its round.  The round counter has gone up by one
(modulo `2^32`), the sampler counters are zero, and the version, the target
accuracy, the sequences and the cumulative count are what the compile step
left. -/
theorem C14_round_reset_clears_remote_results (s : State) (now : Nat)
    (hacc : s.HOST_CURRENT_DOA.ge s.HOST_DOA = false)
    (hround : s.ROUND_NODE_ARR 0 ≠ 0)
    (hall : ∀ i, i < s.NODE_COUNT → s.SEQ_NODE_ARR i > 0 → s.RESULT_NODE_ARR i ≠ 0)
    (hbelow : (compileResults s now).HOST_CURRENT_DOA.ge s.HOST_DOA = false) :
    (∀ i, 1 ≤ i → i < ARR_LENGTH → (compileResults s now).RESULT_NODE_ARR i = 0) ∧
    (compileResults s now).RESULT_NODE_ARR 0 = s.RESULT_NODE_ARR 0 ∧
    (compileResults s now).ROUND_NODE_ARR = s.ROUND_NODE_ARR ∧
    (compileResults s now).HOST_ROUND = (s.HOST_ROUND + 1) % 4294967296 ∧
    (compileResults s now).POINTS_GEN = 0 ∧
    (compileResults s now).HOST_RESULT = 0 ∧
    (compileResults s now).HOST_DOA_VER = s.HOST_DOA_VER ∧
    (compileResults s now).HOST_DOA = s.HOST_DOA ∧
    (compileResults s now).SEQ_NODE_ARR = s.SEQ_NODE_ARR ∧
    (compileResults s now).TOTAL_CIRCLE_COUNT
      = u32_of_double (s.TOTAL_CIRCLE_COUNT
          + sequencedSum s.SEQ_NODE_ARR s.RESULT_NODE_ARR s.NODE_COUNT 0) := by
  have hl : compileResults_loop s.SEQ_NODE_ARR s.RESULT_NODE_ARR s.NODE_COUNT 0 0
      = some (sequencedSum s.SEQ_NODE_ARR s.RESULT_NODE_ARR s.NODE_COUNT 0) := by
    rw [compileResults_loop_complete _ _ _ _ _ (fun k _ h2 => hall k (by omega))]
    simp
  have hg1 : ¬ (s.HOST_CURRENT_DOA.ge s.HOST_DOA = true) := by
    rw [hacc]; exact Bool.false_ne_true
  by_cases g3 : (accuracy (estimate (u32_of_double (s.TOTAL_CIRCLE_COUNT
      + sequencedSum s.SEQ_NODE_ARR s.RESULT_NODE_ARR s.NODE_COUNT 0))
      (u32 (u32 (s.ACTIVE_NODE_COUNT * s.ROUND_NODE_ARR 0) * MAX_POINTS_GEN)))).ge
        s.HOST_DOA = true
  · exfalso
    have e : (compileResults s now).HOST_CURRENT_DOA =
        accuracy (estimate (u32_of_double (s.TOTAL_CIRCLE_COUNT
          + sequencedSum s.SEQ_NODE_ARR s.RESULT_NODE_ARR s.NODE_COUNT 0))
          (u32 (u32 (s.ACTIVE_NODE_COUNT * s.ROUND_NODE_ARR 0) * MAX_POINTS_GEN))) := by
      unfold compileResults
      rw [if_neg hg1, if_neg (fun h => hround h.symm), hl]
      simp only []
      rw [if_pos g3]
    rw [e, g3] at hbelow
    exact Bool.noConfusion hbelow
  · have e : compileResults s now =
        roundFlush { s with
          RESULT_COMPILED := sequencedSum s.SEQ_NODE_ARR s.RESULT_NODE_ARR s.NODE_COUNT 0
          TOTAL_CIRCLE_COUNT := u32_of_double (s.TOTAL_CIRCLE_COUNT
            + sequencedSum s.SEQ_NODE_ARR s.RESULT_NODE_ARR s.NODE_COUNT 0)
          CALC_PI := estimate (u32_of_double (s.TOTAL_CIRCLE_COUNT
            + sequencedSum s.SEQ_NODE_ARR s.RESULT_NODE_ARR s.NODE_COUNT 0))
            (u32 (u32 (s.ACTIVE_NODE_COUNT * s.ROUND_NODE_ARR 0) * MAX_POINTS_GEN))
          HOST_CURRENT_DOA := accuracy (estimate (u32_of_double (s.TOTAL_CIRCLE_COUNT
            + sequencedSum s.SEQ_NODE_ARR s.RESULT_NODE_ARR s.NODE_COUNT 0))
            (u32 (u32 (s.ACTIVE_NODE_COUNT * s.ROUND_NODE_ARR 0) * MAX_POINTS_GEN))) } := by
      unfold compileResults
      rw [if_neg hg1, if_neg (fun h => hround h.symm), hl]
      simp only []
      rw [if_neg g3]
    rw [e]
    refine ⟨?_, ?_, rfl, rfl, rfl, rfl, rfl, rfl, rfl, rfl⟩
    · intro i h1 h2
      exact clearRows_row _ i h1 h2
    · exact clearRows_zero _

/-- Instance of C14 (amended): the first compile of the two boards of `duoRound`. -/
theorem C14_round_reset_clears_remote_results_witness :
    duoRound.HOST_CURRENT_DOA.ge duoRound.HOST_DOA = false ∧
    duoRound.ROUND_NODE_ARR 0 ≠ 0 ∧
    (∀ i, i < duoRound.NODE_COUNT → duoRound.SEQ_NODE_ARR i > 0 →
      duoRound.RESULT_NODE_ARR i ≠ 0) ∧
    (compileResults duoRound 3000).HOST_CURRENT_DOA.ge duoRound.HOST_DOA = false ∧
    (∀ i, 1 ≤ i → i < ARR_LENGTH → (compileResults duoRound 3000).RESULT_NODE_ARR i = 0) ∧
    (compileResults duoRound 3000).RESULT_NODE_ARR 0 = duoRound.RESULT_NODE_ARR 0 ∧
    (compileResults duoRound 3000).ROUND_NODE_ARR = duoRound.ROUND_NODE_ARR ∧
    (compileResults duoRound 3000).HOST_ROUND = (duoRound.HOST_ROUND + 1) % 4294967296 :=
  (fun h => ⟨by decide!, by decide!, by decide!, by decide!, h.1, h.2.1, h.2.2.1, h.2.2.2.1⟩)
    (C14_round_reset_clears_remote_results duoRound 3000
      (by decide!) (by decide!) (by decide!) (by decide!))

/-- C14, as stated, fails: the two boards of `duoRound` complete round 1 below
the target, and after the round-only reset row 0 still holds the result 750
and rows 0 and 1 still hold round 1. -/
theorem C14_round_reset_keeps_rounds :
    duoRound.HOST_CURRENT_DOA.ge duoRound.HOST_DOA = false ∧
    duoRound.ROUND_NODE_ARR 0 ≠ 0 ∧
    (∀ i, i < duoRound.NODE_COUNT → duoRound.SEQ_NODE_ARR i > 0 →
      duoRound.RESULT_NODE_ARR i ≠ 0) ∧
    (compileResults duoRound 3000).HOST_CURRENT_DOA.ge duoRound.HOST_DOA = false ∧
    (compileResults duoRound 3000).HOST_ROUND = duoRound.HOST_ROUND + 1 ∧
    (List.range 2).map (compileResults duoRound 3000).RESULT_NODE_ARR = [750, 0] ∧
    (List.range 2).map (compileResults duoRound 3000).ROUND_NODE_ARR = [1, 1] := by
  decide!

/-- C15 (amended).  On every heartbeat tick at which the spam self-safeguard does
not trip (the ping count of row 0 is at most `now / 1000`) and which stores
inside the arrays (every row index, and every index `ACTIVE_NODE_COUNT` of
line 869, is below `ARR_LENGTH`), every non-local
row `i` with `1 <= i < NODE_COUNT` is flagged `'A'` or `'I'` afterwards; it is
flagged `'A'` exactly when the `u32` difference `now - TS_HOST_ARR[i]` is
below `IDLE`, which is the plain difference when the row's local time is not
ahead of `now`; and a row flagged `'I'` has result 0 and ping count 0. -/
theorem C15_liveness_when_guard_passes (s : State) (now i : Nat)
    (hguard : ¬ (s.PC_NODE_ARR 0 > now / 1000))
    (hin : heartBeat_inside s now = true)
    (h1 : 1 ≤ i) (h2 : i < s.NODE_COUNT) :
    i < ARR_LENGTH ∧
    (heartBeat s now).exit = Exit.returned ∧
    ((heartBeat s now).state.ACTIVE_NODE_ARR i = CH_A ∨
      (heartBeat s now).state.ACTIVE_NODE_ARR i = CH_I) ∧
    ((heartBeat s now).state.ACTIVE_NODE_ARR i = CH_A ↔
      u32sub now (s.TS_HOST_ARR i) < IDLE) ∧
    (s.TS_HOST_ARR i ≤ now → now < 4294967296 →
      ((heartBeat s now).state.ACTIVE_NODE_ARR i = CH_A ↔ now - s.TS_HOST_ARR i < IDLE)) ∧
    ((heartBeat s now).state.ACTIVE_NODE_ARR i = CH_I →
      (heartBeat s now).state.RESULT_NODE_ARR i = 0 ∧
      (heartBeat s now).state.PC_NODE_ARR i = 0) := by
  have hne : CH_I ≠ CH_A := by decide
  have hi0 : i ≠ 0 := by omega
  have hidx : i < ARR_LENGTH := by
    unfold heartBeat_inside at hin
    rw [if_neg hguard] at hin
    exact heartBeat_rows_inside_index _ 1 _ hin i h1 (by simp only []; omega)
  obtain ⟨_, _, q3, _⟩ := heartBeat_rows_spec (s.NODE_COUNT - 1) 1
    { s with
      PC_NODE_ARR := s.PC_NODE_ARR.set 0 (u16 (s.PC_NODE_ARR 0 + 1))
      TS_NODE_ARR := s.TS_NODE_ARR.set 0 now
      TS_HOST_ARR := s.TS_HOST_ARR.set 0 now
      ACTIVE_ID_NODE_ARR := s.ACTIVE_ID_NODE_ARR.set 0 (s.ID_NODE_ARR 0)
      ACTIVE_NODE_COUNT := 1 }
  obtain ⟨qf, qz⟩ := q3 i h1 (by omega)
  simp only [Arr.set_same, Arr.set_other _ _ _ _ hi0] at qf
  obtain ⟨c1, c2, _, _, _, c6⟩ := compileResults_frame
    (heartBeat_rows (s.NODE_COUNT - 1) 1
      { s with
        PC_NODE_ARR := s.PC_NODE_ARR.set 0 (u16 (s.PC_NODE_ARR 0 + 1))
        TS_NODE_ARR := s.TS_NODE_ARR.set 0 now
        TS_HOST_ARR := s.TS_HOST_ARR.set 0 now
        ACTIVE_ID_NODE_ARR := s.ACTIVE_ID_NODE_ARR.set 0 (s.ID_NODE_ARR 0)
        ACTIVE_NODE_COUNT := 1 }) now
  have e : heartBeat s now =
      ⟨Exit.returned,
        { compileResults (heartBeat_rows (s.NODE_COUNT - 1) 1
            { s with
              PC_NODE_ARR := s.PC_NODE_ARR.set 0 (u16 (s.PC_NODE_ARR 0 + 1))
              TS_NODE_ARR := s.TS_NODE_ARR.set 0 now
              TS_HOST_ARR := s.TS_HOST_ARR.set 0 now
              ACTIVE_ID_NODE_ARR := s.ACTIVE_ID_NODE_ARR.set 0 (s.ID_NODE_ARR 0)
              ACTIVE_NODE_COUNT := 1 }) now with CALCULATE_TX_FLAG := true },
        BRD_R_PKT s
          { key := ⟨s.ID_NODE_ARR 0, now⟩
            doa1 := s.HOST_DOA_1
            doa2 := s.HOST_DOA_2
            doa_ver := s.HOST_DOA_VER
            result := s.RESULT_NODE_ARR 0
            round := s.ROUND_NODE_ARR 0 }⟩ := by
    unfold heartBeat
    rw [if_neg hguard]
  rw [e]
  simp only [c1, c2]
  have hiff : (heartBeat_rows (s.NODE_COUNT - 1) 1
      { s with
        PC_NODE_ARR := s.PC_NODE_ARR.set 0 (u16 (s.PC_NODE_ARR 0 + 1))
        TS_NODE_ARR := s.TS_NODE_ARR.set 0 now
        TS_HOST_ARR := s.TS_HOST_ARR.set 0 now
        ACTIVE_ID_NODE_ARR := s.ACTIVE_ID_NODE_ARR.set 0 (s.ID_NODE_ARR 0)
        ACTIVE_NODE_COUNT := 1 }).ACTIVE_NODE_ARR i = CH_A ↔
      u32sub now (s.TS_HOST_ARR i) < IDLE := by
    rw [qf]
    by_cases hc : u32sub now (s.TS_HOST_ARR i) < IDLE
    · simp [hc]
    · simp [hc, hne]
  refine ⟨hidx, trivial, ?_, hiff, ?_, ?_⟩
  · rw [qf]
    by_cases hc : u32sub now (s.TS_HOST_ARR i) < IDLE
    · left; simp [hc]
    · right; simp [hc]
  · intro hle hlt
    rw [hiff]
    have : u32sub now (s.TS_HOST_ARR i) = now - s.TS_HOST_ARR i := by
      unfold u32sub; omega
    rw [this]
  · intro hI
    obtain ⟨z1, z2⟩ := qz hI
    exact ⟨c6 i z1, z2⟩

/-- Instance of C15 (amended): the first tick after board 2 was heard. -/
theorem C15_liveness_when_guard_passes_witness :
    ¬ (heardState.PC_NODE_ARR 0 > 1000 / 1000) ∧ heartBeat_inside heardState 1000 = true ∧
    1 ≤ 1 ∧ 1 < heardState.NODE_COUNT ∧
    ((heartBeat heardState 1000).state.ACTIVE_NODE_ARR 1 = CH_A ↔
      u32sub 1000 (heardState.TS_HOST_ARR 1) < IDLE) ∧
    ((heartBeat heardState 1000).state.ACTIVE_NODE_ARR 1 = CH_I →
      (heartBeat heardState 1000).state.RESULT_NODE_ARR 1 = 0 ∧
      (heartBeat heardState 1000).state.PC_NODE_ARR 1 = 0) :=
  (fun h => ⟨by decide, by decide, by decide, by decide, h.2.2.2.1, h.2.2.2.2.2⟩)
    (C15_liveness_when_guard_passes heardState 1000 1 (by decide) (by decide) (by decide)
      (by decide))

/-- C15, as stated, fails at a tick at which the spam self-safeguard trips: the
ping count of row 0 is 2 at the tick at 1000, `heartBeat` takes 2 off it and
returns, and row 1, heard 500 ms earlier, is not flagged active. -/
theorem C15_tick_skipped_by_safeguard :
    chattyState.PC_NODE_ARR 0 = 2 ∧
    1 < chattyState.NODE_COUNT ∧
    1000 - chattyState.TS_HOST_ARR 1 < IDLE ∧
    (heartBeat chattyState 1000).exit = Exit.returned ∧
    (heartBeat chattyState 1000).out = [] ∧
    (heartBeat chattyState 1000).state.PC_NODE_ARR 0 = 0 ∧
    (heartBeat chattyState 1000).state.ACTIVE_NODE_ARR 1 = 0 ∧
    (heartBeat chattyState 1000).state.ACTIVE_NODE_ARR 1 ≠ CH_A := by
  decide

/-- C16.  For every terminal face and every arrival face, `FWD_R_PKT` prints the
packet and nothing else, once on each face of 0..3 that is neither the
terminal face nor the arrival face and on no other face; `BRD_R_PKT` is
`FWD_R_PKT` for any arrival face outside 0..3, so it prints the packet once
on each face of 0..3 other than the terminal face. -/
theorem C16_forward_faces (s : State) (p : R_PKT) (face : Nat) :
    (∀ e, e ∈ FWD_R_PKT s p face → e.pkt = p) ∧
    (∀ i, (FWD_R_PKT s p face).count ⟨i, p⟩
      = if i < 4 ∧ i ≠ s.TERMINAL_FACE ∧ i ≠ face then 1 else 0) ∧
    (∀ a, 4 ≤ a → BRD_R_PKT s p = FWD_R_PKT s p a) ∧
    (∀ e, e ∈ BRD_R_PKT s p → e.pkt = p) ∧
    (∀ i, (BRD_R_PKT s p).count ⟨i, p⟩ = if i < 4 ∧ i ≠ s.TERMINAL_FACE then 1 else 0) := by
  have hcount : ∀ (a i : Nat), (FWD_R_PKT s p a).count ⟨i, p⟩
      = if i < 4 ∧ i ≠ s.TERMINAL_FACE ∧ i ≠ a then 1 else 0 := by
    intro a i
    by_cases hc : i < 4 ∧ i ≠ s.TERMINAL_FACE ∧ i ≠ a
    · rw [if_pos hc]
      apply List.count_eq_one_of_mem (FWD_R_PKT_nodup s p a)
      rw [FWD_R_PKT_mem]
      exact ⟨rfl, hc⟩
    · rw [if_neg hc]
      apply List.count_eq_zero_of_not_mem
      rw [FWD_R_PKT_mem]
      exact fun h => hc h.2
  refine ⟨fun e h => ((FWD_R_PKT_mem s p face e).mp h).1, hcount face,
    fun a h => BRD_eq_FWD s p a h, ?_, ?_⟩
  · intro e h
    rw [BRD_eq_FWD s p 4 (le_refl _)] at h
    exact ((FWD_R_PKT_mem s p 4 e).mp h).1
  · intro i
    rw [BRD_eq_FWD s p 4 (le_refl _), hcount 4 i]
    by_cases hc : i < 4 ∧ i ≠ s.TERMINAL_FACE
    · rw [if_pos hc, if_pos ⟨hc.1, hc.2, by omega⟩]
    · rw [if_neg hc, if_neg (fun h => hc ⟨h.1, h.2.1⟩)]

/-- Instance of C16: terminal bound to face 3, a packet arriving on face 1, and
the same packet broadcast. -/
theorem C16_forward_faces_witness :
    FWD_R_PKT (t_handler bootState 3) ⟨⟨2, 1000⟩, 0, 0, 0, 0, 0⟩ 1
      = [⟨0, ⟨⟨2, 1000⟩, 0, 0, 0, 0, 0⟩⟩, ⟨2, ⟨⟨2, 1000⟩, 0, 0, 0, 0, 0⟩⟩] ∧
    (4 ≤ 255 ∧ BRD_R_PKT (t_handler bootState 3) ⟨⟨2, 1000⟩, 0, 0, 0, 0, 0⟩
      = FWD_R_PKT (t_handler bootState 3) ⟨⟨2, 1000⟩, 0, 0, 0, 0, 0⟩ 255) :=
  ⟨by decide,
    by decide,
    (C16_forward_faces (t_handler bootState 3) ⟨⟨2, 1000⟩, 0, 0, 0, 0, 0⟩ 1).2.2.1 255
      (by decide)⟩

/-- C17.  A first Result of board 2 with remote time 500: `log` appends the row
with ping count 1, the spam guard trips because `1 > 500 / 1000`, and the
penalty `PC_NODE_ARR[1] -= 2` leaves the 16-bit ping count at 65535, above
what it was before the penalty. -/
theorem C17_penalty_wraps_ping_count :
    (log bootState 2 500 300).rebooted = false ∧
    (log bootState 2 500 300).ret = 1 ∧
    (log bootState 2 500 300).state.PC_NODE_ARR 1 = 1 ∧
    (r_handler bootState (some ⟨⟨2, 500⟩, 0, 0, 0, 0, 0⟩) 1 300).exit = Exit.returned ∧
    (r_handler bootState (some ⟨⟨2, 500⟩, 0, 0, 0, 0, 0⟩) 1 300).out = [] ∧
    (r_handler bootState (some ⟨⟨2, 500⟩, 0, 0, 0, 0, 0⟩) 1 300).state.PC_NODE_ARR 1 = 65535 := by
  decide

/-- C18.  The board is at version `0xfffffffe`, adopted from a Result of board 2,
when the Distribute `d95.0` arrives: the two increments of `d_handler` take
the version to 0, below what it was.  (No Result lowers the version: see
`r_handler_version_monotone`.) -/
theorem C18_distribute_rolls_version_over :
    (runEvents firstBeat
      [Event.result (some ⟨⟨2, 2000⟩, 4294967294, 1, 95, 0, 700⟩) 1 1500]).exit
      = Exit.returned ∧
    lastVersion.HOST_DOA_VER = 4294967294 ∧
    (d_handler lastVersion (some ⟨95, 0⟩) 0 1800).exit = Exit.returned ∧
    (d_handler lastVersion (some ⟨95, 0⟩) 0 1800).state.HOST_DOA_VER = 0 ∧
    (d_handler lastVersion (some ⟨95, 0⟩) 0 1800).state.HOST_DOA_VER
      < lastVersion.HOST_DOA_VER ∧
    (d_handler lastVersion (some ⟨95, 0⟩) 0 1800).out.map (fun e => e.pkt.doa_ver)
      = [0, 0, 0] := by
  decide!

/-- C19 (amended).  When `log` has returned a slot and the spam guard trips, the
handler returns and prints nothing.  The only globals that differ from before
are the ones `log` writes (row count, ids, the two timestamp columns, ping
counts): they hold what `log` left, except for the ping count of the sender,
which is the count `log` left minus 2 whenever that count is at least 2.  The
result, round and sequence columns and the round state are unchanged. -/
theorem C19_spam_guard_keeps_log_writes (s : State) (p : R_PKT) (face now : Nat)
    (hboot : (log s p.key.ID p.key.TIME now).rebooted = false)
    (hdup : (log s p.key.ID p.key.TIME now).ret ≠ INVALID)
    (hspam : (log s p.key.ID p.key.TIME now).state.PC_NODE_ARR
        (log s p.key.ID p.key.TIME now).ret > p.key.TIME / 1000) :
    (r_handler s (some p) face now).exit = Exit.returned ∧
    (r_handler s (some p) face now).out = [] ∧
    ∃ v,
      (r_handler s (some p) face now).state =
        { s with
          NODE_COUNT := (log s p.key.ID p.key.TIME now).state.NODE_COUNT
          ID_NODE_ARR := (log s p.key.ID p.key.TIME now).state.ID_NODE_ARR
          TS_NODE_ARR := (log s p.key.ID p.key.TIME now).state.TS_NODE_ARR
          TS_HOST_ARR := (log s p.key.ID p.key.TIME now).state.TS_HOST_ARR
          PC_NODE_ARR := (log s p.key.ID p.key.TIME now).state.PC_NODE_ARR.set
            (log s p.key.ID p.key.TIME now).ret v } ∧
      (2 ≤ (log s p.key.ID p.key.TIME now).state.PC_NODE_ARR
          (log s p.key.ID p.key.TIME now).ret →
        (log s p.key.ID p.key.TIME now).state.PC_NODE_ARR (log s p.key.ID p.key.TIME now).ret
          < 65536 →
        v = (log s p.key.ID p.key.TIME now).state.PC_NODE_ARR
          (log s p.key.ID p.key.TIME now).ret - 2) := by
  have e : r_handler s (some p) face now =
      ⟨Exit.returned,
        { (log s p.key.ID p.key.TIME now).state with
          PC_NODE_ARR := (log s p.key.ID p.key.TIME now).state.PC_NODE_ARR.set
            (log s p.key.ID p.key.TIME now).ret
            (u16sub ((log s p.key.ID p.key.TIME now).state.PC_NODE_ARR
              (log s p.key.ID p.key.TIME now).ret) 2) }, []⟩ := by
    unfold r_handler
    simp only [hboot, Bool.false_eq_true, if_false, hspam, if_true]
    rw [if_neg (fun h => hdup h.symm)]
  rw [e]
  refine ⟨rfl, rfl, u16sub ((log s p.key.ID p.key.TIME now).state.PC_NODE_ARR
    (log s p.key.ID p.key.TIME now).ret) 2, ?_, ?_⟩
  · conv_lhs => rw [log_only_table s p.key.ID p.key.TIME now]
  · intro h2 h16
    unfold u16sub
    omega

/-- Instance of C19 (amended): board 2 reports again one millisecond of its own
clock after its first report. -/
theorem C19_spam_guard_keeps_log_writes_witness :
    (log heardState 2 1001 600).rebooted = false ∧
    (log heardState 2 1001 600).ret ≠ INVALID ∧
    (log heardState 2 1001 600).state.PC_NODE_ARR (log heardState 2 1001 600).ret
      > 1001 / 1000 ∧
    (r_handler heardState (some secondReport) 1 600).exit = Exit.returned ∧
    (r_handler heardState (some secondReport) 1 600).out = [] :=
  (fun h => ⟨by decide, by decide, by decide, h.1, h.2.1⟩)
    (C19_spam_guard_keeps_log_writes heardState secondReport 1 600
      (by decide) (by decide) (by decide))

/-- C19, as stated, fails: the guard trips for the second report of board 2 and
nothing is forwarded, but `log` has already stored the new remote time 1001
and the new local time 600 in the row of board 2. -/
theorem C19_spam_guard_after_log :
    (log heardState 2 1001 600).ret = 1 ∧
    (log heardState 2 1001 600).state.PC_NODE_ARR 1 > 1001 / 1000 ∧
    (r_handler heardState (some secondReport) 1 600).out = [] ∧
    heardState.TS_NODE_ARR 1 = 1000 ∧
    (r_handler heardState (some secondReport) 1 600).state.TS_NODE_ARR 1 = 1001 ∧
    heardState.TS_HOST_ARR 1 = 500 ∧
    (r_handler heardState (some secondReport) 1 600).state.TS_HOST_ARR 1 = 600 ∧
    heardState.PC_NODE_ARR 1 = 1 ∧
    (r_handler heardState (some secondReport) 1 600).state.PC_NODE_ARR 1 = 0 := by
  decide

/-- C20.  For a row `i` below `NODE_COUNT` that is the row of its id (no earlier
row holds the same id) and a remote time other than the stored one, `log`
returns `i` without rebooting and changes three cells and nothing else: the
ping count of row `i` becomes `min (old + 1) 0xffff`, its remote time the
given time, its local time the clock. -/
theorem C20_log_known_id (s : State) (i TIME now : Nat)
    (hi : i < s.NODE_COUNT)
    (hfirst : ∀ k, k < i → s.ID_NODE_ARR k ≠ s.ID_NODE_ARR i)
    (ht : TIME ≠ s.TS_NODE_ARR i)
    (hpc : s.PC_NODE_ARR i ≤ 65535) :
    (log s (s.ID_NODE_ARR i) TIME now).rebooted = false ∧
    (log s (s.ID_NODE_ARR i) TIME now).ret = i ∧
    (log s (s.ID_NODE_ARR i) TIME now).state =
      { s with
        PC_NODE_ARR := s.PC_NODE_ARR.set i (min (s.PC_NODE_ARR i + 1) 65535)
        TS_NODE_ARR := s.TS_NODE_ARR.set i TIME
        TS_HOST_ARR := s.TS_HOST_ARR.set i now } := by
  have hf : log_find s.ID_NODE_ARR (s.ID_NODE_ARR i) s.NODE_COUNT 0 = some i := by
    apply log_find_first
    · rfl
    · omega
    · omega
    · intro k _ hk h
      exact hfirst k hk h.symm
  have hmin : (if s.PC_NODE_ARR i < 65535 then s.PC_NODE_ARR.set i (s.PC_NODE_ARR i + 1)
      else s.PC_NODE_ARR) = s.PC_NODE_ARR.set i (min (s.PC_NODE_ARR i + 1) 65535) := by
    by_cases h : s.PC_NODE_ARR i < 65535
    · rw [if_pos h, Nat.min_eq_left (by omega)]
    · rw [if_neg h]
      have h2 : s.PC_NODE_ARR i = 65535 := by omega
      funext k
      by_cases hk : k = i
      · subst hk; simp [Arr.set, h2]
      · simp [Arr.set, hk]
  unfold log
  rw [hf]
  simp only [ne_eq, ht, not_false_eq_true, if_true, hmin]
  exact ⟨trivial, trivial, trivial⟩

/-- Instance of C20: board 2, in row 1 since its first report, reports again
with remote time 3000. -/
theorem C20_log_known_id_witness :
    1 < heardState.NODE_COUNT ∧
    (∀ k, k < 1 → heardState.ID_NODE_ARR k ≠ heardState.ID_NODE_ARR 1) ∧
    3000 ≠ heardState.TS_NODE_ARR 1 ∧
    heardState.PC_NODE_ARR 1 ≤ 65535 ∧
    (log heardState (heardState.ID_NODE_ARR 1) 3000 2900).ret = 1 :=
  (fun h => ⟨by decide, by decide, by decide, by decide, h.2.1⟩)
    (C20_log_known_id heardState 1 3000 2900 (by decide) (by decide) (by decide) (by decide))

/-- C23.  `updateResult(index, result, round)` leaves every global other than
the result and round columns alone; in those two columns the cell of a row
`k` holds the given result, respectively round, when `k` is `index`,
`index < ARR_LENGTH` and the result is not 0, and what it held before in every
other case. -/
theorem C23_updateResult_frame (s : State) (NODE_INDEX RESULT ROUND : Nat) :
    { updateResult s NODE_INDEX RESULT ROUND with
        RESULT_NODE_ARR := s.RESULT_NODE_ARR
        ROUND_NODE_ARR := s.ROUND_NODE_ARR } = s ∧
    (∀ k, (updateResult s NODE_INDEX RESULT ROUND).RESULT_NODE_ARR k =
      if k = NODE_INDEX ∧ NODE_INDEX < ARR_LENGTH ∧ RESULT ≠ 0 then RESULT
      else s.RESULT_NODE_ARR k) ∧
    (∀ k, (updateResult s NODE_INDEX RESULT ROUND).ROUND_NODE_ARR k =
      if k = NODE_INDEX ∧ NODE_INDEX < ARR_LENGTH ∧ RESULT ≠ 0 then ROUND
      else s.ROUND_NODE_ARR k) := by
  unfold updateResult
  by_cases h1 : NODE_INDEX > ARR_LENGTH - 1
  · have h1b : ¬ NODE_INDEX < ARR_LENGTH := by
      simp only [ARR_LENGTH] at h1 ⊢; omega
    rw [if_pos h1]
    refine ⟨rfl, fun k => ?_, fun k => ?_⟩
    · rw [if_neg (fun h => h1b h.2.1)]
    · rw [if_neg (fun h => h1b h.2.1)]
  · have h1b : NODE_INDEX < ARR_LENGTH := by
      simp only [ARR_LENGTH] at h1 ⊢; omega
    rw [if_neg h1]
    by_cases h2 : 0 = RESULT
    · rw [if_pos h2]
      refine ⟨rfl, fun k => ?_, fun k => ?_⟩
      · rw [if_neg (fun h => h.2.2 h2.symm)]
      · rw [if_neg (fun h => h.2.2 h2.symm)]
    · rw [if_neg h2]
      have h2b : RESULT ≠ 0 := fun h => h2 h.symm
      refine ⟨rfl, fun k => ?_, fun k => ?_⟩
      · by_cases hk : k = NODE_INDEX
        · rw [if_pos ⟨hk, h1b, h2b⟩, hk]; exact Arr.set_same _ _ _
        · rw [if_neg (fun h => hk h.1)]; exact Arr.set_other _ _ _ _ hk
      · by_cases hk : k = NODE_INDEX
        · rw [if_pos ⟨hk, h1b, h2b⟩, hk]; exact Arr.set_same _ _ _
        · rw [if_neg (fun h => hk h.1)]; exact Arr.set_other _ _ _ _ hk

/-- Instance of C23: on board 1 after `setup()` a result of 750 for round 1 is
written to row 0, a result of 0 is not, and neither is one for row 32. -/
theorem C23_updateResult_frame_witness :
    (updateResult bootState 0 750 1).RESULT_NODE_ARR 0 = 750 ∧
    (updateResult bootState 0 750 1).ROUND_NODE_ARR 0 = 1 ∧
    (updateResult (updateResult bootState 0 750 1) 0 0 2).RESULT_NODE_ARR 0 = 750 ∧
    (updateResult (updateResult bootState 0 750 1) 0 0 2).ROUND_NODE_ARR 0 = 1 ∧
    (updateResult bootState 32 750 1).RESULT_NODE_ARR 32 = 0 :=
  ⟨(C23_updateResult_frame bootState 0 750 1).2.1 0,
   (C23_updateResult_frame bootState 0 750 1).2.2 0,
   by decide, by decide, by decide⟩

/-- C24.  When the library reads back as `n` the text it prints for a `u32`
value `n`, under `%t` and under `%d`, scanning with `R_ZScanner` the fields
`R_ZPrinter` prints for a Result packet of `u32` fields succeeds and gives the
packet back, all seven fields equal; the third printed field is the version and
the fourth the round, and they come back as version and round. -/
theorem C24_result_packet_round_trip {W : Type} (c : FieldCodec W) (p : R_PKT)
    (ht : ∀ n, n < 4294967296 → c.scan_t (c.print_t n) = some n)
    (hd : ∀ n, n < 4294967296 → c.scan_d (c.print_d n) = some n)
    (hp : p.key.ID < 4294967296 ∧ p.key.TIME < 4294967296 ∧ p.doa_ver < 4294967296 ∧
      p.round < 4294967296 ∧ p.doa1 < 4294967296 ∧ p.doa2 < 4294967296 ∧
      p.result < 4294967296) :
    R_ZScanner c (R_ZPrinter c p) = some p ∧
    (R_ZPrinter c p).length = 7 ∧
    (R_ZPrinter c p).get? 2 = some (c.print_d p.doa_ver) ∧
    (R_ZPrinter c p).get? 3 = some (c.print_d p.round) ∧
    (R_ZScanner c (R_ZPrinter c p)).map R_PKT.doa_ver = some p.doa_ver ∧
    (R_ZScanner c (R_ZPrinter c p)).map R_PKT.round = some p.round := by
  obtain ⟨h1, h2, h3, h4, h5, h6, h7⟩ := hp
  have e : R_ZScanner c (R_ZPrinter c p) = some p := by
    unfold R_ZScanner R_ZPrinter
    simp only [ht _ h1, hd _ h2, hd _ h3, hd _ h4, hd _ h5, hd _ h6, hd _ h7]
  rw [e]
  exact ⟨rfl, rfl, rfl, rfl, rfl, rfl⟩

/-- Instance of C24: the second report of board 2 in round 1 of version 2, with
fields printed as digit lists. -/
theorem C24_result_packet_round_trip_witness :
    (∀ n, n < 4294967296 → digitCodec.scan_t (digitCodec.print_t n) = some n) ∧
    (∀ n, n < 4294967296 → digitCodec.scan_d (digitCodec.print_d n) = some n) ∧
    R_ZScanner digitCodec (R_ZPrinter digitCodec ⟨⟨2, 3000⟩, 2, 1, 99, 5, 800⟩) =
      some ⟨⟨2, 3000⟩, 2, 1, 99, 5, 800⟩ :=
  ⟨fun n _ => digits_round_trip 36 n (by decide),
   fun n _ => digits_round_trip 10 n (by decide),
   (C24_result_packet_round_trip digitCodec ⟨⟨2, 3000⟩, 2, 1, 99, 5, 800⟩
      (fun n _ => digits_round_trip 36 n (by decide))
      (fun n _ => digits_round_trip 10 n (by decide))
      (by decide)).1⟩

/-- C25.  `doaConvert` does not give the decimal numeral A.B when the typed
fraction starts with a zero: no fraction field at all makes it return 99.05
or 99.001, and for the field values 5 and 1 that the digits `05` and `001`
denote it returns 99.5 and 99.1; a Distribute with the fields 99 and 5 sets
the target accuracy to 99.5. -/
theorem C25_doaConvert_drops_leading_zeros :
    (∀ d2 : Nat, doaConvert 99 d2 ≠ 9905 / 100) ∧
    (∀ d2 : Nat, doaConvert 99 d2 ≠ 99001 / 1000) ∧
    doaConvert 99 5 = 995 / 10 ∧
    doaConvert 99 1 = 991 / 10 ∧
    doaConvert 95 0 = 95 ∧
    (d_handler firstBeat (some ⟨99, 5⟩) 0 1500).state.HOST_DOA = 995 / 10 := by
  have key : ∀ (d2 : Nat) (q : ℚ), 0 < q → q < 1 / 10 → doaConvert 99 d2 ≠ 99 + q := by
    intro d2 q hq0 hq1 h
    unfold doaConvert at h
    have e : doaConvert_loop 10 (d2 : ℚ) = q := by
      have := add_left_cancel h
      exact this
    have hlt : doaConvert_loop 10 (d2 : ℚ) < 1 := by rw [e]; linarith
    rcases doaConvert_loop_tenth 10 (d2 : ℚ) hlt with ⟨hd, e2⟩ | h2
    · rw [e2] at e
      have h0 : d2 = 0 := by
        have : (d2 : ℚ) < 1 := hd
        have : d2 < 1 := by exact_mod_cast this
        omega
      rw [h0] at e
      simp at e
      linarith
    · rw [e] at h2
      linarith
  refine ⟨fun d2 h => key d2 (5 / 100) (by norm_num) (by norm_num) (h.trans (by norm_num)),
    fun d2 h => key d2 (1 / 1000) (by norm_num) (by norm_num) (h.trans (by norm_num)),
    by decide!, by decide!, by decide!, by decide!⟩

/-- C26.  `heapsort` on two entries does not return when the word in front of
the array, which it reads as `arr[0xffffffff]`, is larger than the smaller
entry: the first loop returns and the sift-down loop of the only pass of the
second loop returns for no amount of fuel; `sequenceNodes` then assigns no
sequence, and a Distribute that parses is never answered. -/
theorem C26_heapsort_spins_on_the_word_before (arr : Arr)
    (h : arr 0 < arr 4294967295 ∨ arr 1 < arr 4294967295) :
    (∃ arr1, heapsort_build 1 1 arr = some arr1 ∧
      ∀ fuel, heapsort_down 1 (arr1 1) fuel (arr1.set 1 (arr1 0)) 0 4294967295 = none) ∧
    heapsort arr 2 = none ∧
    (∀ s : State, s.ACTIVE_ID_NODE_ARR = arr → s.ACTIVE_NODE_COUNT = 2 →
      sequenceNodes s = none ∧
      ∀ (p : D_PKT) (face now : Nat), (d_handler s (some p) face now).exit = Exit.stuck) := by
  obtain ⟨arr1, hb, hd, hs⟩ := heapsort_two_spins arr h
  refine ⟨⟨arr1, hb, hd⟩, hs, ?_⟩
  intro s ha hc
  have hh : heapsort s.ACTIVE_ID_NODE_ARR s.ACTIVE_NODE_COUNT = none := by
    rw [ha, hc]; exact hs
  refine ⟨?_, fun p face now => d_handler_stuck s p face now hh⟩
  unfold sequenceNodes
  simp only [hh]

/-- Instance of C26: the ids 1 and 2 with a 5 in front of the array, and the
board of `crowdTrace`, whose active set is the ids 4 and 5 with a 9 in front;
the 9 is there through the store of line 869 at the index `0xffffffff`, a store
outside the array. -/
theorem C26_heapsort_spins_on_the_word_before_witness :
    (twoIdsAfterFive 0 < twoIdsAfterFive 4294967295 ∨
      twoIdsAfterFive 1 < twoIdsAfterFive 4294967295) ∧
    heapsort twoIdsAfterFive 2 = none ∧
    (runEvents bootState crowdTrace).exit = Exit.returned ∧
    run_inside bootState crowdTrace = false ∧
    crowdedState.ACTIVE_NODE_COUNT = 2 ∧
    crowdedState.ACTIVE_ID_NODE_ARR 0 = 4 ∧
    crowdedState.ACTIVE_ID_NODE_ARR 1 = 5 ∧
    crowdedState.ACTIVE_ID_NODE_ARR 4294967295 = 9 ∧
    (d_handler crowdedState (some ⟨95, 0⟩) 0 6500).exit = Exit.stuck :=
  ⟨Or.inl (by decide),
   (C26_heapsort_spins_on_the_word_before twoIdsAfterFive (Or.inl (by decide))).2.1,
   by decide!, by decide!,
   by decide!, by decide!, by decide!, by decide!,
   ((C26_heapsort_spins_on_the_word_before crowdedState.ACTIVE_ID_NODE_ARR
      (Or.inl (by decide!))).2.2 crowdedState rfl (by decide!)).2 ⟨95, 0⟩ 0 6500⟩

/-- C28.  With a size of 1 `heapsort` touches no cell.  With any other size up
to `ARR_LENGTH`, 0 included, it accesses `arr[0xffffffff]`, a cell outside
`[0, size)`, and accesses no other cell outside the array before that: on two
or more entries through the marker `s = -1`, which passes the test `0 <= s`,
on no entry through the start index `size - 1`. -/
theorem C28_heapsort_reads_outside_the_array (arr : Arr) (size : Nat)
    (h1 : size ≠ 1) (h2 : size ≤ ARR_LENGTH) :
    heapsort_checked arr size = Checked.fault 4294967295 ∧
    ¬ (4294967295 < size) ∧
    heapsort_checked arr 1 = Checked.done arr := by
  have h3 : size ≤ 32 := by simp only [ARR_LENGTH] at h2; exact h2
  refine ⟨?_, by omega, ?_⟩
  · by_cases h0 : size = 0
    · rw [h0]; exact heapsort_checked_empty arr
    · exact heapsort_checked_fault arr size (by omega) (by omega)
  · have hs : u32sub 1 1 = 0 := by decide
    unfold heapsort_checked
    simp only [Nat.sub_self, heapsort_build_checked, hs, heapsort_sort_checked]

/-- Instance of C28: the ids 1 and 2, sorted as two entries and as none. -/
theorem C28_heapsort_reads_outside_the_array_witness :
    (2 : Nat) ≠ 1 ∧ 2 ≤ ARR_LENGTH ∧ (0 : Nat) ≠ 1 ∧ 0 ≤ ARR_LENGTH ∧
    heapsort_checked twoIds 2 = Checked.fault 4294967295 ∧
    heapsort_checked twoIds 0 = Checked.fault 4294967295 :=
  ⟨by decide, by decide, by decide, by decide,
   (C28_heapsort_reads_outside_the_array twoIds 2 (by decide) (by decide)).1,
   (C28_heapsort_reads_outside_the_array twoIds 0 (by decide) (by decide)).1⟩

end Synergy
